import Mathlib

/-!
# Verification of the h5pySWMR readers/writer coordination protocol

A shallow embedding of the redis-backed readers/writer synchronisation code
(`h5pyswmr/locking.py` and the older decorator generation in
`h5pyswmr/h5pyswmr.py`) together with proofs about it.

The development has three layers:

* primitive distributed lock (`acquire_lock`, `release_lock`), modelled as
  executable functions over a key/value store with TTL information, with the
  environment (other processes, clock) supplied as an oracle;
* the reader/writer decorators, modelled as sequential state-passing
  functions producing a trace of primitive operations (one participant
  running with the store evolving only through its own operations);
* an interleaving small-step transition system for the full multi-process
  protocol of `locking.py`, used for the mutual-exclusion safety invariant.

Redis stores every value as a string; counter keys (`readcount__R`,
`writecount__R`) only ever hold decimal integers written by INCR/DECR, and
lock keys only ever hold owner-token strings.  The embedding separates the
two representations in the `Val` type; this is faithful because the two key
families have disjoint names (proved below as name-disequality lemmas).
-/

namespace H5PySWMR

/-- A redis value: an owner-token string for lock keys, or an integer for the
counter keys manipulated via INCR/DECR. -/
inductive Val where
  | str (s : String) : Val
  | int (n : Int) : Val
deriving DecidableEq

/-- The redis keyspace: a finite-support map from key names to values
(`none` = key absent). -/
abbrev Store := String → Option Val

/-! ## Key names and owner tokens (locking.py lines 60-61, 77-82, 152-156) -/

/-- `'mutex1__{}'.format(self.file)` -/
def mutex1Name (R : String) : String := "mutex1__" ++ R

/-- `'mutex2__{}'.format(self.file)` -/
def mutex2Name (R : String) : String := "mutex2__" ++ R

/-- `'mutex3__{}'.format(self.file)` -/
def mutex3Name (R : String) : String := "mutex3__" ++ R

/-- `'r__{}'.format(self.file)` -/
def rName (R : String) : String := "r__" ++ R

/-- `'w__{}'.format(self.file)` -/
def wName (R : String) : String := "w__" ++ R

/-- `'readcount__{}'.format(self.file)` -/
def readcountName (R : String) : String := "readcount__" ++ R

/-- `'writecount__{}'.format(self.file)` -/
def writecountName (R : String) : String := "writecount__" ++ R

/-- `WRITELOCK_ID = 'id_reader'` — the readers' cohort token stored in `w__R`. -/
def WRITELOCK_ID : String := "id_reader"

/-- `READLOCK_ID = 'id_writer'` — the writers' cohort token stored in `r__R`. -/
def READLOCK_ID : String := "id_writer"

/-- `identifier = 'pid{0}_{1}'.format(pid, str(uuid.uuid4()))` — the scoped
owner token generated by `redis_lock` (locking.py lines 289-290). -/
def mkScopedIdent (pid : Nat) (uuid : String) : String :=
  "pid" ++ toString pid ++ "_" ++ uuid

/-! ## The primitive lock: `acquire_lock` (locking.py lines 198-228)

The loop `while end > time.time(): ...` polls the store; between polls other
processes may mutate the store and TTLs tick down.  We therefore model the
run of `acquire_lock` against an oracle: the list of store states observed
at the successive polls; the length of the list is the number of polls that
fit before the deadline `end = time.time() + acq_timeout`. -/

/-- The store as seen by the primitive-lock layer: values plus per-key
remaining TTL (`none` = key has no expiry set). -/
structure RStore where
  store : Store
  ttlv : String → Option Nat

/-- The redis `TTL` command as returned by `StrictRedis` (an integer passed
through undecoded): `-2` if the key does not exist, `-1` if it exists but
has no expiry, otherwise the remaining time in seconds. -/
def ttlCmd (rs : RStore) (k : String) : Int :=
  match rs.store k with
  | none => -2
  | some _ =>
    match rs.ttlv k with
    | none => -1
    | some t => (t : Int)

/-- Observable actions of one `acquire_lock` run. -/
inductive AcqEv where
  | setnx (ok : Bool) : AcqEv
  | ttlq (result : Int) : AcqEv
  | expire (t : Nat) : AcqEv
  | sleepMs (ms : Nat) : AcqEv
deriving DecidableEq

/-- Result of `acquire_lock`: the Python function returns either the
identifier or `False`; it contains no `raise`. -/
inductive AcqRes where
  | ok (identifier : String) : AcqRes
  | timedOut : AcqRes
deriving DecidableEq

/-- `acquire_lock(conn, lockname, identifier, acq_timeout, timeout)`:

```
end = time.time() + acq_timeout
while end > time.time():
    if conn.setnx(lockname, identifier):
        conn.expire(lockname, timeout)
        return identifier
    elif not conn.ttl(lockname):
        conn.expire(lockname, timeout)
    time.sleep(.001)
return False
```

`polls` is the oracle: the store state at each poll before the deadline.
Python truthiness: `not conn.ttl(lockname)` is `True` iff the integer
returned by `TTL` equals `0`. -/
def acquire_lock : List RStore → String → String → Nat → AcqRes × List AcqEv
  | [], _, _, _ => (.timedOut, [])
  | rs :: rest, lockname, identifier, timeout =>
    if rs.store lockname = none then
      (.ok identifier, [.setnx true, .expire timeout])
    else
      let healEvs : List AcqEv :=
        if ttlCmd rs lockname = 0 then
          [.setnx false, .ttlq (ttlCmd rs lockname), .expire timeout]
        else
          [.setnx false, .ttlq (ttlCmd rs lockname)]
      let r := acquire_lock rest lockname identifier timeout
      (r.1, healEvs ++ .sleepMs 1 :: r.2)

/-! ## The primitive lock: `release_lock` (locking.py lines 231-258)

```
pipe = conn.pipeline(True)
while True:
    try:
        pipe.watch(lockname)
        if pipe.get(lockname) == identifier:
            pipe.multi()
            pipe.delete(lockname)
            pipe.execute()
            return True
        else:
            pipe.unwatch()
            return False   # we lost the lock
    except redis.exceptions.WatchError as e:
        raise e
```

Both branches of the body `return`, and the `except` clause re-raises, so
the `while True` body executes at most once; the model is that single
iteration.  A `WatchError` is raised by `pipe.execute()` when the watched
key was modified concurrently between WATCH and EXEC; the `conflict` flag
is the oracle for that event. -/

/-- Outcome of one `release_lock` call. -/
inductive RelRes where
  | released : RelRes
  | lost : RelRes
  | conflictError : RelRes
deriving DecidableEq

/-- `release_lock(conn, lockname, identifier)` over a store, with the
watch-conflict oracle. -/
def release_lock (s : Store) (lockname identifier : String) (conflict : Bool) :
    Store × RelRes :=
  if s lockname = some (.str identifier) then
    if conflict then (s, .conflictError)
    else (Function.update s lockname none, .released)
  else (s, .lost)

/-! ## Sequential denotation of the decorators

The `@reader`/`@writer` wrappers call the primitives in a fixed sequence.
We model one participant executing with the store evolving only through its
own operations (no interference, no TTL expiry during the run); the
bridging lemma `acquire_lock_static` below shows that in such a run the
poll loop of `acquire_lock` succeeds exactly when the key is absent.
The run records a trace of the primitive operations performed. -/

/-- Observable primitive operations of a decorator run.  `acq`/`rel` are
calls of `acquire_lock`/`release_lock` with the given key, owner token and
boolean outcome; `incr`/`decr` carry the post-image returned by redis;
`warn` is the printed warning for a lost cohort gate; `cs` is the client
critical section (the wrapped function `f`). -/
inductive Ev where
  | acq (name owner : String) (ok : Bool) : Ev
  | rel (name owner : String) (ok : Bool) : Ev
  | incr (name : String) (post : Int) : Ev
  | decr (name : String) (post : Int) : Ev
  | warn (name : String) : Ev
  | cs : Ev
deriving DecidableEq

/-- The key a trace event touches (`none` for the critical section). -/
def evKey : Ev → Option String
  | .acq n _ _ => some n
  | .rel n _ _ => some n
  | .incr n _ => some n
  | .decr n _ => some n
  | .warn n => some n
  | .cs => none

/-- The owner token an acquire/release event carries. -/
def evOwner : Ev → Option String
  | .acq _ o _ => some o
  | .rel _ o _ => some o
  | _ => none

/-- All keys touched by a trace. -/
def keysOf (tr : List Ev) : List String := tr.filterMap evKey

/-- The `LockException` raised by the locking code, tagged by which of the
two message templates produced it: `"could not acquire lock {}"` (and the
readers'/writers' `"could not acquire write/read lock {}"`) versus
`"lock {} was lost"`. -/
inductive LErr where
  | couldNotAcquire (name : String) : LErr
  | lockLost (name : String) : LErr
deriving DecidableEq

/-- Result of running a piece of decorator code: final store, trace of
primitive operations, a payload (used for the `readcount_val is not None`
flag), and normal versus exceptional termination. -/
structure Run (β : Type) where
  store : Store
  trace : List Ev
  val : β
  out : Except LErr Unit

/-- Counter value as read by INCR/DECR: absent keys count as zero
(redis semantics); counter keys only ever hold integers. -/
def counterVal (s : Store) (k : String) : Int :=
  match s k with
  | some (.int n) => n
  | _ => 0

/-- `redis_lock` (locking.py lines 268-298): acquire with the scoped token
`tok`, raising `LockException` on failure; run the body; on exit release,
raising `LockException` if the compare-and-delete release returns `False`
(in Python the `finally` exception replaces the body's exception).
In a run without interference the acquire succeeds exactly when the key is
absent (`acquire_lock_static` below). -/
def withLock {β : Type} (name tok : String) (b0 : β) (body : Store → Run β)
    (s : Store) : Run β :=
  if s name = none then
    let r := body (Function.update s name (some (.str tok)))
    if r.store name = some (.str tok) then
      ⟨Function.update r.store name none,
        .acq name tok true :: r.trace ++ [.rel name tok true], r.val, r.out⟩
    else
      ⟨r.store, .acq name tok true :: r.trace ++ [.rel name tok false], r.val,
        .error (.lockLost name)⟩
  else
    ⟨s, [.acq name tok false], b0, .error (.couldNotAcquire name)⟩

/-- Reader entry (locking.py lines 92-110; textually the same sequence in
h5pyswmr.py lines 57-69): nested `redis_lock` on `mutex3`, `r`, `mutex1`;
under them increment `readcount` and, when the post-image is 1, acquire
`w` with the readers' cohort token, raising on failure.  The payload flag
is `readcount_val is not None`, i.e. whether the increment ran. -/
def readerEntry (R : String) (t3 tr t1 : String) (s : Store) : Run Bool :=
  withLock (mutex3Name R) t3 false (fun s =>
    withLock (rName R) tr false (fun s =>
      withLock (mutex1Name R) t1 false (fun s =>
        let n := counterVal s (readcountName R) + 1
        let s1 := Function.update s (readcountName R) (some (.int n))
        if n = 1 then
          if s1 (wName R) = none then
            ⟨Function.update s1 (wName R) (some (.str WRITELOCK_ID)),
              [.incr (readcountName R) n, .acq (wName R) WRITELOCK_ID true],
              true, .ok ()⟩
          else
            ⟨s1, [.incr (readcountName R) n, .acq (wName R) WRITELOCK_ID false],
              true, .error (.couldNotAcquire (wName R))⟩
        else
          ⟨s1, [.incr (readcountName R) n], true, .ok ()⟩) s) s) s

/-- Reader exit of locking.py (lines 117-133): under `mutex1` decrement
`readcount`; when the post-image is 0 release `w` with the readers' cohort
token, printing a warning (not raising) if the release returns `False`. -/
def readerExitWarn (R : String) (texit : String) (s : Store) : Run Unit :=
  withLock (mutex1Name R) texit () (fun s =>
    let n := counterVal s (readcountName R) - 1
    let s1 := Function.update s (readcountName R) (some (.int n))
    if n = 0 then
      if s1 (wName R) = some (.str WRITELOCK_ID) then
        ⟨Function.update s1 (wName R) none,
          [.decr (readcountName R) n, .rel (wName R) WRITELOCK_ID true],
          (), .ok ()⟩
      else
        ⟨s1, [.decr (readcountName R) n, .rel (wName R) WRITELOCK_ID false,
              .warn (wName R)], (), .ok ()⟩
    else
      ⟨s1, [.decr (readcountName R) n], (), .ok ()⟩) s

/-- Reader exit of h5pyswmr.py (lines 76-81): same as `readerExitWarn`
except that a release of `w` returning `False` raises
`LockException("write lock ... was lost")` instead of warning. -/
def readerExitRaise (R : String) (texit : String) (s : Store) : Run Unit :=
  withLock (mutex1Name R) texit () (fun s =>
    let n := counterVal s (readcountName R) - 1
    let s1 := Function.update s (readcountName R) (some (.int n))
    if n = 0 then
      if s1 (wName R) = some (.str WRITELOCK_ID) then
        ⟨Function.update s1 (wName R) none,
          [.decr (readcountName R) n, .rel (wName R) WRITELOCK_ID true],
          (), .ok ()⟩
      else
        ⟨s1, [.decr (readcountName R) n, .rel (wName R) WRITELOCK_ID false],
          (), .error (.lockLost (wName R))⟩
    else
      ⟨s1, [.decr (readcountName R) n], (), .ok ()⟩) s

/-- The full locking.py `@reader` wrapper (lines 64-136): try entry and
critical section, finally — if the increment ran — run the warning exit.
A `finally` exception replaces the original one (Python semantics). -/
def lockingReader (R : String) (t3 tr t1 texit : String) (s : Store) :
    Run Unit :=
  let e := readerEntry R t3 tr t1 s
  match e.out with
  | .ok _ =>
    let x := readerExitWarn R texit e.store
    ⟨x.store, e.trace ++ .cs :: x.trace, (), x.out⟩
  | .error err =>
    if e.val then
      let x := readerExitWarn R texit e.store
      ⟨x.store, e.trace ++ x.trace, (),
        match x.out with
        | .ok _ => .error err
        | .error e2 => .error e2⟩
    else
      ⟨e.store, e.trace, (), .error err⟩

/-- The h5pyswmr.py `@reader` wrapper (lines 34-83): the entry nest is
*outside* the try/finally, so an entry failure propagates without any
rollback; only after a successful entry does the critical section run with
the raising exit in `finally`. -/
def h5pyswmrReader (R : String) (t3 tr t1 texit : String) (s : Store) :
    Run Unit :=
  let e := readerEntry R t3 tr t1 s
  match e.out with
  | .ok _ =>
    let x := readerExitRaise R texit e.store
    ⟨x.store, e.trace ++ .cs :: x.trace, (), x.out⟩
  | .error err =>
    ⟨e.store, e.trace, (), .error err⟩

/-- Writer entry (locking.py lines 163-169; textually the same sequence in
h5pyswmr.py lines 109-115): under `mutex2` increment `writecount` and, when
the post-image is 1, acquire `r` with the writers' cohort token, raising on
failure. -/
def writerEntry (R : String) (t2 : String) (s : Store) : Run Bool :=
  withLock (mutex2Name R) t2 false (fun s =>
    let n := counterVal s (writecountName R) + 1
    let s1 := Function.update s (writecountName R) (some (.int n))
    if n = 1 then
      if s1 (rName R) = none then
        ⟨Function.update s1 (rName R) (some (.str READLOCK_ID)),
          [.incr (writecountName R) n, .acq (rName R) READLOCK_ID true],
          true, .ok ()⟩
      else
        ⟨s1, [.incr (writecountName R) n, .acq (rName R) READLOCK_ID false],
          true, .error (.couldNotAcquire (rName R))⟩
    else
      ⟨s1, [.incr (writecountName R) n], true, .ok ()⟩) s

/-- Writer exit of locking.py (lines 179-192): under `mutex2` decrement
`writecount`; when the post-image is 0 release `r` with the writers' cohort
token, printing a warning (not raising) if the release returns `False`. -/
def writerExitWarn (R : String) (texit : String) (s : Store) : Run Unit :=
  withLock (mutex2Name R) texit () (fun s =>
    let n := counterVal s (writecountName R) - 1
    let s1 := Function.update s (writecountName R) (some (.int n))
    if n = 0 then
      if s1 (rName R) = some (.str READLOCK_ID) then
        ⟨Function.update s1 (rName R) none,
          [.decr (writecountName R) n, .rel (rName R) READLOCK_ID true],
          (), .ok ()⟩
      else
        ⟨s1, [.decr (writecountName R) n, .rel (rName R) READLOCK_ID false,
              .warn (rName R)], (), .ok ()⟩
    else
      ⟨s1, [.decr (writecountName R) n], (), .ok ()⟩) s

/-- Writer exit of h5pyswmr.py (lines 123-128): same as `writerExitWarn`
except that a release of `r` returning `False` raises
`LockException("read lock ... was lost")`. -/
def writerExitRaise (R : String) (texit : String) (s : Store) : Run Unit :=
  withLock (mutex2Name R) texit () (fun s =>
    let n := counterVal s (writecountName R) - 1
    let s1 := Function.update s (writecountName R) (some (.int n))
    if n = 0 then
      if s1 (rName R) = some (.str READLOCK_ID) then
        ⟨Function.update s1 (rName R) none,
          [.decr (writecountName R) n, .rel (rName R) READLOCK_ID true],
          (), .ok ()⟩
      else
        ⟨s1, [.decr (writecountName R) n, .rel (rName R) READLOCK_ID false],
          (), .error (.lockLost (rName R))⟩
    else
      ⟨s1, [.decr (writecountName R) n], (), .ok ()⟩) s

/-- The full locking.py `@writer` wrapper (lines 139-195): try (entry, then
the critical section under a scoped `redis_lock` on `w`), finally — if the
increment ran — run the warning exit. -/
def lockingWriter (R : String) (t2 tw texit : String) (s : Store) :
    Run Unit :=
  let e := writerEntry R t2 s
  match e.out with
  | .ok _ =>
    let b := withLock (wName R) tw () (fun s => ⟨s, [.cs], (), .ok ()⟩) e.store
    let x := writerExitWarn R texit b.store
    ⟨x.store, e.trace ++ b.trace ++ x.trace, (),
      match x.out with
      | .ok _ => b.out
      | .error e2 => .error e2⟩
  | .error err =>
    if e.val then
      let x := writerExitWarn R texit e.store
      ⟨x.store, e.trace ++ x.trace, (),
        match x.out with
        | .ok _ => .error err
        | .error e2 => .error e2⟩
    else
      ⟨e.store, e.trace, (), .error err⟩

/-- The h5pyswmr.py `@writer` wrapper (lines 86-132): the entry block is
outside the try/finally, so an entry failure (including the first writer
failing to acquire `r`) propagates without decrementing `writecount`; the
try/finally covers only the scoped `w` section and the raising exit. -/
def h5pyswmrWriter (R : String) (t2 tw texit : String) (s : Store) :
    Run Unit :=
  let e := writerEntry R t2 s
  match e.out with
  | .ok _ =>
    let b := withLock (wName R) tw () (fun s => ⟨s, [.cs], (), .ok ()⟩) e.store
    let x := writerExitRaise R texit b.store
    ⟨x.store, e.trace ++ b.trace ++ x.trace, (),
      match x.out with
      | .ok _ => b.out
      | .error e2 => .error e2⟩
  | .error err =>
    ⟨e.store, e.trace, (), .error err⟩

/-! ## The multi-process protocol as an interleaving transition system

The locking.py decorators, executed by `NR` reader participants and `NW`
writer participants over the shared redis keyspace of one resource `R`.
Each transition performs exactly one atomic redis operation (an acquire,
a compare-and-delete release, or an INCR/DECR together with the purely
local test of its post-image).  Participants follow the protocol:
primitive acquires block until the key is free (no timeout is taken) and
no TTL expires, matching the claims about participants that follow the
entry/exit protocol.  Lock values are represented symbolically: scoped
tokens (`pid..._uuid`) by the holder's index, the two cohort constants by
dedicated constructors. -/

/-- Program counter of a reader participant, naming the operations of
locking.py lines 92-133 already performed. -/
inductive RPc where
  | start       -- before the entry sequence
  | hasM3       -- acquired mutex3 (line 92)
  | hasR        -- acquired r with its scoped token (line 93)
  | hasM1       -- acquired mutex1 (line 96)
  | needW       -- incremented readcount, post-image 1 (lines 97, 106)
  | entryLocked -- w ensured: acquired (line 108) or post-image was > 1
  | relM1       -- released mutex1
  | relR        -- released r
  | inCS        -- released mutex3; inside the critical section (line 111)
  | exitM1      -- acquired mutex1 at exit (line 120)
  | needRelW    -- decremented readcount, post-image 0 (lines 121, 123)
  | exitDone1   -- w released (line 125) or post-image was > 0
  | done        -- released mutex1; wrapper finished
deriving DecidableEq

/-- Program counter of a writer participant (locking.py lines 163-192). -/
inductive WPc where
  | start     -- before the entry sequence
  | hasM2     -- acquired mutex2 (line 163)
  | needR     -- incremented writecount, post-image 1 (lines 164, 166)
  | counted   -- r ensured: acquired (line 167) or post-image was > 1
  | relM2     -- released mutex2
  | inCS      -- acquired w (line 171); inside the critical section
  | relW      -- released w
  | exitM2    -- acquired mutex2 at exit (line 180)
  | needRelR  -- decremented writecount, post-image 0 (lines 181, 182)
  | exitDone  -- r released (line 184) or post-image was > 0
  | done      -- released mutex2; wrapper finished
deriving DecidableEq

/-- Owner of the read gate `r__R`: a reader's scoped `redis_lock` token, or
the writers' cohort constant `id_writer`. -/
inductive ROwner (NR : ℕ) where
  | byReader (i : Fin NR) : ROwner NR
  | byWriters : ROwner NR
deriving DecidableEq

/-- Owner of the write gate `w__R`: the readers' cohort constant
`id_reader`, or a writer's scoped `redis_lock` token. -/
inductive WOwner (NW : ℕ) where
  | byReaders : WOwner NW
  | byWriter (j : Fin NW) : WOwner NW
deriving DecidableEq

/-- The shared redis keyspace for resource `R` plus each participant's
program counter. -/
structure GState (NR NW : ℕ) where
  mutex1 : Option (Fin NR)
  mutex2 : Option (Fin NW)
  mutex3 : Option (Fin NR)
  rGate : Option (ROwner NR)
  wGate : Option (WOwner NW)
  readcount : Int
  writecount : Int
  rpc : Fin NR → RPc
  wpc : Fin NW → WPc

/-- Readers between their INCR and their DECR of `readcount`. -/
def readerCounted : RPc → Bool
  | .needW | .entryLocked | .relM1 | .relR | .inCS | .exitM1 => true
  | _ => false

/-- Readers inside the epoch window of `w__R`: from the first reader's
acquisition of `w` to the last reader's release. -/
def rEpochSet : RPc → Bool
  | .entryLocked | .relM1 | .relR | .inCS | .exitM1 | .needRelW => true
  | _ => false

/-- Reader states holding `mutex3`. -/
def holdsM3 : RPc → Bool
  | .hasM3 | .hasR | .hasM1 | .needW | .entryLocked | .relM1 | .relR => true
  | _ => false

/-- Reader states holding `r` with the reader's scoped token. -/
def holdsRr : RPc → Bool
  | .hasR | .hasM1 | .needW | .entryLocked | .relM1 => true
  | _ => false

/-- Reader states holding `mutex1` (entry and exit sections). -/
def holdsM1 : RPc → Bool
  | .hasM1 | .needW | .entryLocked | .exitM1 | .needRelW | .exitDone1 => true
  | _ => false

/-- Writers between their INCR and their DECR of `writecount`. -/
def writerCounted : WPc → Bool
  | .needR | .counted | .relM2 | .inCS | .relW | .exitM2 => true
  | _ => false

/-- Writers inside the epoch window of `r__R`. -/
def wEpochSet : WPc → Bool
  | .counted | .relM2 | .inCS | .relW | .exitM2 | .needRelR => true
  | _ => false

/-- Writer states holding `mutex2`. -/
def holdsM2 : WPc → Bool
  | .hasM2 | .needR | .counted | .exitM2 | .needRelR | .exitDone => true
  | _ => false

/-- Writer states holding `w` (the critical section). -/
def writerInCS : WPc → Bool
  | .inCS => true
  | _ => false

/-- Number of indices whose state satisfies `p`, as an integer. -/
def bcount {n : ℕ} {α : Type} (p : α → Bool) (f : Fin n → α) : Int :=
  ∑ i, if p (f i) then 1 else 0

/-- One atomic redis operation of reader `i` following locking.py.
Scoped releases are compare-and-delete with the holder's own token, here
expressed by comparing the stored holder index. -/
inductive ReaderStep {NR NW : ℕ} (i : Fin NR) :
    GState NR NW → GState NR NW → Prop where
  | acqM3 (s : GState NR NW) (hpc : s.rpc i = .start) (hfree : s.mutex3 = none) :
      ReaderStep i s
        { s with
          mutex3 := some i,
          rpc := Function.update s.rpc i .hasM3 }
  | acqR (s : GState NR NW) (hpc : s.rpc i = .hasM3) (hfree : s.rGate = none) :
      ReaderStep i s
        { s with
          rGate := some (.byReader i),
          rpc := Function.update s.rpc i .hasR }
  | acqM1 (s : GState NR NW) (hpc : s.rpc i = .hasR) (hfree : s.mutex1 = none) :
      ReaderStep i s
        { s with
          mutex1 := some i,
          rpc := Function.update s.rpc i .hasM1 }
  | incr (s : GState NR NW) (hpc : s.rpc i = .hasM1) :
      ReaderStep i s
        { s with
          readcount := s.readcount + 1,
          rpc := Function.update s.rpc i
            (if s.readcount + 1 = 1 then .needW else .entryLocked) }
  | acqW (s : GState NR NW) (hpc : s.rpc i = .needW) (hfree : s.wGate = none) :
      ReaderStep i s
        { s with
          wGate := some .byReaders,
          rpc := Function.update s.rpc i .entryLocked }
  | relM1entry (s : GState NR NW) (hpc : s.rpc i = .entryLocked) :
      ReaderStep i s
        { s with
          mutex1 := if s.mutex1 = some i then none else s.mutex1,
          rpc := Function.update s.rpc i .relM1 }
  | relRgate (s : GState NR NW) (hpc : s.rpc i = .relM1) :
      ReaderStep i s
        { s with
          rGate := if s.rGate = some (.byReader i) then none else s.rGate,
          rpc := Function.update s.rpc i .relR }
  | relM3 (s : GState NR NW) (hpc : s.rpc i = .relR) :
      ReaderStep i s
        { s with
          mutex3 := if s.mutex3 = some i then none else s.mutex3,
          rpc := Function.update s.rpc i .inCS }
  | acqM1exit (s : GState NR NW) (hpc : s.rpc i = .inCS) (hfree : s.mutex1 = none) :
      ReaderStep i s
        { s with
          mutex1 := some i,
          rpc := Function.update s.rpc i .exitM1 }
  | decr (s : GState NR NW) (hpc : s.rpc i = .exitM1) :
      ReaderStep i s
        { s with
          readcount := s.readcount - 1,
          rpc := Function.update s.rpc i
            (if s.readcount - 1 = 0 then .needRelW else .exitDone1) }
  | relW (s : GState NR NW) (hpc : s.rpc i = .needRelW) :
      ReaderStep i s
        { s with
          wGate := if s.wGate = some .byReaders then none else s.wGate,
          rpc := Function.update s.rpc i .exitDone1 }
  | relM1exit (s : GState NR NW) (hpc : s.rpc i = .exitDone1) :
      ReaderStep i s
        { s with
          mutex1 := if s.mutex1 = some i then none else s.mutex1,
          rpc := Function.update s.rpc i .done }
  | restart (s : GState NR NW) (hpc : s.rpc i = .done) :
      ReaderStep i s { s with rpc := Function.update s.rpc i .start }

/-- One atomic redis operation of writer `j` following locking.py. -/
inductive WriterStep {NR NW : ℕ} (j : Fin NW) :
    GState NR NW → GState NR NW → Prop where
  | acqM2 (s : GState NR NW) (hpc : s.wpc j = .start) (hfree : s.mutex2 = none) :
      WriterStep j s
        { s with
          mutex2 := some j,
          wpc := Function.update s.wpc j .hasM2 }
  | incr (s : GState NR NW) (hpc : s.wpc j = .hasM2) :
      WriterStep j s
        { s with
          writecount := s.writecount + 1,
          wpc := Function.update s.wpc j
            (if s.writecount + 1 = 1 then .needR else .counted) }
  | acqR (s : GState NR NW) (hpc : s.wpc j = .needR) (hfree : s.rGate = none) :
      WriterStep j s
        { s with
          rGate := some .byWriters,
          wpc := Function.update s.wpc j .counted }
  | relM2entry (s : GState NR NW) (hpc : s.wpc j = .counted) :
      WriterStep j s
        { s with
          mutex2 := if s.mutex2 = some j then none else s.mutex2,
          wpc := Function.update s.wpc j .relM2 }
  | acqW (s : GState NR NW) (hpc : s.wpc j = .relM2) (hfree : s.wGate = none) :
      WriterStep j s
        { s with
          wGate := some (.byWriter j),
          wpc := Function.update s.wpc j .inCS }
  | relWgate (s : GState NR NW) (hpc : s.wpc j = .inCS) :
      WriterStep j s
        { s with
          wGate := if s.wGate = some (.byWriter j) then none else s.wGate,
          wpc := Function.update s.wpc j .relW }
  | acqM2exit (s : GState NR NW) (hpc : s.wpc j = .relW) (hfree : s.mutex2 = none) :
      WriterStep j s
        { s with
          mutex2 := some j,
          wpc := Function.update s.wpc j .exitM2 }
  | decr (s : GState NR NW) (hpc : s.wpc j = .exitM2) :
      WriterStep j s
        { s with
          writecount := s.writecount - 1,
          wpc := Function.update s.wpc j
            (if s.writecount - 1 = 0 then .needRelR else .exitDone) }
  | relRgate (s : GState NR NW) (hpc : s.wpc j = .needRelR) :
      WriterStep j s
        { s with
          rGate := if s.rGate = some .byWriters then none else s.rGate,
          wpc := Function.update s.wpc j .exitDone }
  | relM2exit (s : GState NR NW) (hpc : s.wpc j = .exitDone) :
      WriterStep j s
        { s with
          mutex2 := if s.mutex2 = some j then none else s.mutex2,
          wpc := Function.update s.wpc j .done }
  | restart (s : GState NR NW) (hpc : s.wpc j = .done) :
      WriterStep j s { s with wpc := Function.update s.wpc j .start }

/-- Interleaving: some participant performs one atomic operation. -/
def Step {NR NW : ℕ} (s s' : GState NR NW) : Prop :=
  (∃ i, ReaderStep i s s') ∨ (∃ j, WriterStep j s s')

/-- Initial state: no key exists (locks free, counters absent = 0), every
participant idle. -/
def init0 (NR NW : ℕ) : GState NR NW :=
  ⟨none, none, none, none, none, 0, 0, fun _ => .start, fun _ => .start⟩

/-- States reachable from the initial state by interleaved protocol steps. -/
inductive Reachable (NR NW : ℕ) : GState NR NW → Prop where
  | init : Reachable NR NW (init0 NR NW)
  | step {s s' : GState NR NW} :
      Reachable NR NW s → Step s s' → Reachable NR NW s'

/-- The inductive invariant of the protocol. -/
structure Inv {NR NW : ℕ} (s : GState NR NW) : Prop where
  m3 : ∀ i, s.mutex3 = some i ↔ holdsM3 (s.rpc i) = true
  m1 : ∀ i, s.mutex1 = some i ↔ holdsM1 (s.rpc i) = true
  m2 : ∀ j, s.mutex2 = some j ↔ holdsM2 (s.wpc j) = true
  rHeld : ∀ i, s.rGate = some (.byReader i) ↔ holdsRr (s.rpc i) = true
  wHeld : ∀ j, s.wGate = some (.byWriter j) ↔ writerInCS (s.wpc j) = true
  rcEq : s.readcount = bcount readerCounted s.rpc
  wcEq : s.writecount = bcount writerCounted s.wpc
  rEpoch : ∀ i, rEpochSet (s.rpc i) = true → s.wGate = some .byReaders
  wEpoch : ∀ j, wEpochSet (s.wpc j) = true → s.rGate = some .byWriters
  wReaders : s.wGate = some .byReaders → ∃ i, rEpochSet (s.rpc i) = true
  rZero : ∀ i, s.rpc i = .needRelW → s.readcount = 0
  wZero : ∀ j, s.wpc j = .needRelR → s.writecount = 0

/-! ## Auxiliary definitions for concrete evaluations -/

/-- Is a primitive-lock event the 1 ms sleep between polls? -/
def isSleep : AcqEv → Bool
  | .sleepMs _ => true
  | _ => false

/-- A store holding exactly one key. -/
def oneKey (k : String) (v : Val) : Store :=
  fun q => if q = k then some v else none

/-- A key present with a value but no TTL set (a crash artifact): the
situation the self-heal branch of `acquire_lock` is meant to repair. -/
def rsNoTtl : RStore :=
  ⟨oneKey (wName "f") (.str "owner"), fun _ => none⟩

/-- A key present whose TTL command returns 0 (it is about to expire). -/
def rsTtl0 : RStore :=
  ⟨oneKey (wName "f") (.str "owner"),
    fun q => if q = wName "f" then some 0 else none⟩

/-- The empty store: no protocol key exists yet. -/
def emptyStore : Store := fun _ => none

/-! ## Counting lemmas -/

theorem bcount_update {n : ℕ} {α : Type} (p : α → Bool) (f : Fin n → α)
    (i : Fin n) (v : α) :
    bcount p (Function.update f i v) =
      bcount p f + (if p v then 1 else 0) - (if p (f i) then 1 else 0) := by
  unfold bcount
  have h1 : ∀ j ∈ Finset.univ, (if p (Function.update f i v j) then (1 : ℤ) else 0) =
      Function.update (fun j => if p (f j) then (1 : ℤ) else 0) i
        (if p v then 1 else 0) j := by
    intro j _
    by_cases hj : j = i
    · subst hj; simp
    · rw [Function.update_noteq hj, Function.update_noteq hj]
  rw [Finset.sum_congr rfl h1, Finset.sum_update_of_mem (Finset.mem_univ i),
    Finset.sum_eq_sum_diff_singleton_add (Finset.mem_univ i)
      (fun j => if p (f j) then (1 : ℤ) else 0)]
  ring

theorem bcount_nonneg {n : ℕ} {α : Type} (p : α → Bool) (f : Fin n → α) :
    0 ≤ bcount p f := by
  unfold bcount
  apply Finset.sum_nonneg
  intro j _
  split <;> norm_num

theorem bcount_pos_of_mem {n : ℕ} {α : Type} (p : α → Bool) (f : Fin n → α)
    (i : Fin n) (h : p (f i) = true) : 1 ≤ bcount p f := by
  unfold bcount
  have := Finset.single_le_sum
    (f := fun j => if p (f j) then (1 : ℤ) else 0)
    (fun j _ => by dsimp only; split <;> norm_num) (Finset.mem_univ i)
  simpa [h] using this

theorem bcount_eq_zero_iff {n : ℕ} {α : Type} (p : α → Bool) (f : Fin n → α) :
    bcount p f = 0 ↔ ∀ i, p (f i) = false := by
  constructor
  · intro h i
    by_contra hc
    have hp : p (f i) = true := by
      cases hpi : p (f i)
      · exact absurd hpi hc
      · rfl
    have := bcount_pos_of_mem p f i hp
    omega
  · intro h
    unfold bcount
    apply Finset.sum_eq_zero
    intro j _
    simp [h j]

theorem exists_of_bcount_ne_zero {n : ℕ} {α : Type} (p : α → Bool)
    (f : Fin n → α) (h : bcount p f ≠ 0) : ∃ i, p (f i) = true := by
  by_contra hc
  push_neg at hc
  apply h
  rw [bcount_eq_zero_iff]
  intro i
  cases hpi : p (f i)
  · rfl
  · exact absurd hpi (hc i)

theorem bcount_update_same {n : ℕ} {α : Type} (p : α → Bool) (f : Fin n → α)
    (i : Fin n) (v : α) (h : p v = p (f i)) :
    bcount p (Function.update f i v) = bcount p f := by
  rw [bcount_update, h]; ring

/-! ## Generic lemmas about lock-ownership invariants

An ownership invariant relates an `Option`-valued lock cell to a predicate
on the program counter of each process of the owning family; the lemmas
below preserve it across the four ways a transition can interact with the
cell: leaving it alone, acquiring it, releasing it by compare-and-delete
with the holder's token, and setting or compare-and-deleting it with a
token foreign to the family. -/

theorem hold_iff_keep {n : ℕ} {γ α : Type} (gate : Option γ)
    (emb : Fin n → γ) (hold : α → Bool) (pc : Fin n → α) (i : Fin n) (v : α)
    (hiff : ∀ k, gate = some (emb k) ↔ hold (pc k) = true)
    (hst : hold v = hold (pc i)) :
    ∀ k, gate = some (emb k) ↔ hold (Function.update pc i v k) = true := by
  intro k
  by_cases hk : k = i
  · subst hk; rw [Function.update_same, hst]; exact hiff k
  · rw [Function.update_noteq hk]; exact hiff k

theorem hold_iff_acquire {n : ℕ} {γ α : Type} (gate : Option γ)
    (emb : Fin n → γ) (hemb : Function.Injective emb) (hold : α → Bool)
    (pc : Fin n → α) (i : Fin n) (v : α)
    (hiff : ∀ k, gate = some (emb k) ↔ hold (pc k) = true)
    (hfree : gate = none) (hv : hold v = true) :
    ∀ k, (some (emb i) : Option γ) = some (emb k) ↔
      hold (Function.update pc i v k) = true := by
  intro k
  by_cases hk : k = i
  · subst hk; simp [hv]
  · rw [Function.update_noteq hk]
    constructor
    · intro h
      exact absurd (hemb (Option.some.inj h)) (fun he => hk he.symm)
    · intro h
      have h2 := (hiff k).mpr h
      rw [hfree] at h2
      exact absurd h2 (by simp)

theorem hold_iff_releaseCAD {n : ℕ} {γ α : Type} [DecidableEq γ]
    (gate : Option γ) (emb : Fin n → γ) (hemb : Function.Injective emb)
    (hold : α → Bool) (pc : Fin n → α) (i : Fin n) (v : α)
    (hiff : ∀ k, gate = some (emb k) ↔ hold (pc k) = true)
    (hheld : hold (pc i) = true) (hv : hold v = false) :
    ∀ k, (if gate = some (emb i) then none else gate) = some (emb k) ↔
      hold (Function.update pc i v k) = true := by
  have hg : gate = some (emb i) := (hiff i).mpr hheld
  rw [if_pos hg]
  intro k
  by_cases hk : k = i
  · subst hk; simp [hv]
  · rw [Function.update_noteq hk]
    constructor
    · intro h; exact absurd h (by simp)
    · intro h
      have h2 := (hiff k).mpr h
      rw [hg] at h2
      exact absurd (hemb (Option.some.inj h2)) (fun he => hk he.symm)

theorem hold_iff_foreign_set {n : ℕ} {γ α : Type} (gate : Option γ) (c : γ)
    (emb : Fin n → γ) (hold : α → Bool) (pc : Fin n → α)
    (hiff : ∀ k, gate = some (emb k) ↔ hold (pc k) = true)
    (hfree : gate = none) (hc : ∀ k, c ≠ emb k) :
    ∀ k, (some c : Option γ) = some (emb k) ↔ hold (pc k) = true := by
  intro k
  constructor
  · intro h; exact absurd (Option.some.inj h) (hc k)
  · intro h
    have h2 := (hiff k).mpr h
    rw [hfree] at h2
    exact absurd h2 (by simp)

theorem hold_iff_foreign_CAD {n : ℕ} {γ α : Type} [DecidableEq γ]
    (gate : Option γ) (c : γ) (emb : Fin n → γ) (hold : α → Bool)
    (pc : Fin n → α)
    (hiff : ∀ k, gate = some (emb k) ↔ hold (pc k) = true)
    (hc : ∀ k, c ≠ emb k) :
    ∀ k, (if gate = some c then none else gate) = some (emb k) ↔
      hold (pc k) = true := by
  intro k
  by_cases hg : gate = some c
  · rw [if_pos hg]
    constructor
    · intro h; exact absurd h (by simp)
    · intro h
      have h2 := (hiff k).mpr h
      rw [hg] at h2
      exact absurd (Option.some.inj h2) (hc k)
  · rw [if_neg hg]; exact hiff k

/-- Two processes whose program counters both claim the same mutex are
equal. -/
theorem holders_eq {n : ℕ} {α : Type} (lock : Option (Fin n))
    (hold : α → Bool) (pc : Fin n → α)
    (hiff : ∀ k, lock = some k ↔ hold (pc k) = true) (i k : Fin n)
    (hi : hold (pc i) = true) (hk : hold (pc k) = true) : i = k :=
  Option.some.inj (((hiff i).mpr hi).symm.trans ((hiff k).mpr hk))

/-- Propagate a pointwise implication through a program-counter update. -/
theorem imp_all_update_prop {n : ℕ} {α : Type} (P : α → Prop) {C : Prop}
    (pc : Fin n → α) (i : Fin n) (v : α)
    (hold : ∀ k, P (pc k) → C) (hv : P v → C) :
    ∀ k, P (Function.update pc i v k) → C := by
  intro k hk
  by_cases hki : k = i
  · subst hki; rw [Function.update_same] at hk; exact hv hk
  · rw [Function.update_noteq hki] at hk; exact hold k hk

/-- Propagate an existential witness through a program-counter update. -/
theorem exists_update_of_exists {n : ℕ} {α : Type} (P : α → Prop)
    (pc : Fin n → α) (i : Fin n) (v : α)
    (h : ∃ k, P (pc k)) (hcase : P (pc i) → P v) :
    ∃ k, P (Function.update pc i v k) := by
  obtain ⟨k, hk⟩ := h
  by_cases hki : k = i
  · subst hki; exact ⟨k, by rw [Function.update_same]; exact hcase hk⟩
  · exact ⟨k, by rw [Function.update_noteq hki]; exact hk⟩

/-- A counted reader state that is not `needW` is in the epoch window. -/
theorem epoch_of_counted :
    ∀ a : RPc, readerCounted a = true → a ≠ .needW → rEpochSet a = true := by
  intro a h1 h2
  cases a <;> first
    | rfl
    | exact absurd h1 (by decide)
    | exact absurd rfl h2

/-- An epoch-window reader state that is not counted is `needRelW`. -/
theorem epoch_not_counted :
    ∀ a : RPc, rEpochSet a = true → readerCounted a = false → a = .needRelW := by
  intro a h1 h2
  cases a <;> first
    | rfl
    | exact absurd h1 (by decide)
    | exact absurd h2 (by decide)

/-- A counted writer state that is not `needR` is in the epoch window. -/
theorem wepoch_of_counted :
    ∀ a : WPc, writerCounted a = true → a ≠ .needR → wEpochSet a = true := by
  intro a h1 h2
  cases a <;> first
    | rfl
    | exact absurd h1 (by decide)
    | exact absurd rfl h2

/-- An epoch-window writer state that is not counted is `needRelR`. -/
theorem wepoch_not_counted :
    ∀ a : WPc, wEpochSet a = true → writerCounted a = false → a = .needRelR := by
  intro a h1 h2
  cases a <;> first
    | rfl
    | exact absurd h1 (by decide)
    | exact absurd h2 (by decide)

/-- While some reader holds `mutex1` in a state other than `needW`, every
counted reader is in the epoch window (a counted reader outside the window
would have to be at `needW`, which also holds `mutex1`). -/
theorem counted_mem_epoch {NR NW : ℕ} {s : GState NR NW}
    (hm1 : ∀ k, s.mutex1 = some k ↔ holdsM1 (s.rpc k) = true)
    {i m : Fin NR} (hi : holdsM1 (s.rpc i) = true) (hine : s.rpc i ≠ .needW)
    (hm : readerCounted (s.rpc m) = true) : rEpochSet (s.rpc m) = true := by
  by_cases hw : s.rpc m = .needW
  · have heq : i = m := holders_eq s.mutex1 holdsM1 s.rpc hm1 i m hi
      (by rw [hw]; rfl)
    rw [heq] at hine
    exact absurd hw hine
  · exact epoch_of_counted _ hm hw

/-- The writer-side analogue of `counted_mem_epoch`, via `mutex2`. -/
theorem counted_mem_wepoch {NR NW : ℕ} {s : GState NR NW}
    (hm2 : ∀ k, s.mutex2 = some k ↔ holdsM2 (s.wpc k) = true)
    {j m : Fin NW} (hj : holdsM2 (s.wpc j) = true) (hjne : s.wpc j ≠ .needR)
    (hm : writerCounted (s.wpc m) = true) : wEpochSet (s.wpc m) = true := by
  by_cases hw : s.wpc m = .needR
  · have heq : j = m := holders_eq s.mutex2 holdsM2 s.wpc hm2 j m hj
      (by rw [hw]; rfl)
    rw [heq] at hjne
    exact absurd hw hjne
  · exact wepoch_of_counted _ hm hw

/-- The invariant holds initially. -/
theorem inv_init (NR NW : ℕ) : Inv (init0 NR NW) := by
  refine ⟨?_, ?_, ?_, ?_, ?_, ?_, ?_, ?_, ?_, ?_, ?_, ?_⟩ <;>
    simp [init0, holdsM3, holdsM1, holdsM2, holdsRr, writerInCS, rEpochSet,
      wEpochSet, bcount, readerCounted, writerCounted]

/-- Every atomic reader operation preserves the invariant. -/
theorem inv_reader_step {NR NW : ℕ} {s s' : GState NR NW} {i : Fin NR}
    (hinv : Inv s) (hstep : ReaderStep i s s') : Inv s' := by
  obtain ⟨m3, m1, m2, rHeld, wHeld, rcEq, wcEq, rEpoch, wEpoch, wReaders,
    rZero, wZero⟩ := hinv
  cases hstep with
  | acqM3 hpc hfree =>
    refine ⟨?_, ?_, ?_, ?_, ?_, ?_, ?_, ?_, ?_, ?_, ?_, ?_⟩ <;> dsimp only
    · exact hold_iff_acquire s.mutex3 (fun k => k) (fun a b h => h) holdsM3
        s.rpc i .hasM3 m3 hfree rfl
    · exact hold_iff_keep s.mutex1 (fun k => k) holdsM1 s.rpc i .hasM3 m1
        (by rw [hpc]; rfl)
    · exact m2
    · exact hold_iff_keep s.rGate ROwner.byReader holdsRr s.rpc i .hasM3 rHeld
        (by rw [hpc]; rfl)
    · exact wHeld
    · rw [bcount_update_same readerCounted s.rpc i .hasM3 (by rw [hpc]; rfl)]
      exact rcEq
    · exact wcEq
    · exact imp_all_update_prop (fun a => rEpochSet a = true) s.rpc i .hasM3
        rEpoch (fun h => absurd h (by decide))
    · exact wEpoch
    · intro hw
      exact exists_update_of_exists (fun a => rEpochSet a = true) s.rpc i
        .hasM3 (wReaders hw) (fun h => absurd (hpc ▸ h) (by decide))
    · exact imp_all_update_prop (fun a => a = RPc.needRelW) s.rpc i .hasM3
        rZero (fun h => absurd h (by decide))
    · exact wZero
  | acqR hpc hfree =>
    refine ⟨?_, ?_, ?_, ?_, ?_, ?_, ?_, ?_, ?_, ?_, ?_, ?_⟩ <;> dsimp only
    · exact hold_iff_keep s.mutex3 (fun k => k) holdsM3 s.rpc i .hasR m3
        (by rw [hpc]; rfl)
    · exact hold_iff_keep s.mutex1 (fun k => k) holdsM1 s.rpc i .hasR m1
        (by rw [hpc]; rfl)
    · exact m2
    · exact hold_iff_acquire s.rGate ROwner.byReader
        (fun a b h => ROwner.byReader.inj h) holdsRr s.rpc i .hasR rHeld
        hfree rfl
    · exact wHeld
    · rw [bcount_update_same readerCounted s.rpc i .hasR (by rw [hpc]; rfl)]
      exact rcEq
    · exact wcEq
    · exact imp_all_update_prop (fun a => rEpochSet a = true) s.rpc i .hasR
        rEpoch (fun h => absurd h (by decide))
    · intro j hj
      exact absurd (hfree ▸ wEpoch j hj) (by simp)
    · intro hw
      exact exists_update_of_exists (fun a => rEpochSet a = true) s.rpc i
        .hasR (wReaders hw) (fun h => absurd (hpc ▸ h) (by decide))
    · exact imp_all_update_prop (fun a => a = RPc.needRelW) s.rpc i .hasR
        rZero (fun h => absurd h (by decide))
    · exact wZero
  | acqM1 hpc hfree =>
    refine ⟨?_, ?_, ?_, ?_, ?_, ?_, ?_, ?_, ?_, ?_, ?_, ?_⟩ <;> dsimp only
    · exact hold_iff_keep s.mutex3 (fun k => k) holdsM3 s.rpc i .hasM1 m3
        (by rw [hpc]; rfl)
    · exact hold_iff_acquire s.mutex1 (fun k => k) (fun a b h => h) holdsM1
        s.rpc i .hasM1 m1 hfree rfl
    · exact m2
    · exact hold_iff_keep s.rGate ROwner.byReader holdsRr s.rpc i .hasM1 rHeld
        (by rw [hpc]; rfl)
    · exact wHeld
    · rw [bcount_update_same readerCounted s.rpc i .hasM1 (by rw [hpc]; rfl)]
      exact rcEq
    · exact wcEq
    · exact imp_all_update_prop (fun a => rEpochSet a = true) s.rpc i .hasM1
        rEpoch (fun h => absurd h (by decide))
    · exact wEpoch
    · intro hw
      exact exists_update_of_exists (fun a => rEpochSet a = true) s.rpc i
        .hasM1 (wReaders hw) (fun h => absurd (hpc ▸ h) (by decide))
    · exact imp_all_update_prop (fun a => a = RPc.needRelW) s.rpc i .hasM1
        rZero (fun h => absurd h (by decide))
    · exact wZero
  | incr hpc =>
    by_cases hn : s.readcount + 1 = 1
    · rw [if_pos hn]
      refine ⟨?_, ?_, ?_, ?_, ?_, ?_, ?_, ?_, ?_, ?_, ?_, ?_⟩ <;> dsimp only
      · exact hold_iff_keep s.mutex3 (fun k => k) holdsM3 s.rpc i .needW m3
          (by rw [hpc]; rfl)
      · exact hold_iff_keep s.mutex1 (fun k => k) holdsM1 s.rpc i .needW m1
          (by rw [hpc]; rfl)
      · exact m2
      · exact hold_iff_keep s.rGate ROwner.byReader holdsRr s.rpc i .needW
          rHeld (by rw [hpc]; rfl)
      · exact wHeld
      · rw [bcount_update readerCounted s.rpc i .needW, hpc]
        have h1 : readerCounted RPc.needW = true := rfl
        have h2 : readerCounted RPc.hasM1 = false := rfl
        rw [h1, h2]
        simp only [if_true]
        norm_num
        omega
      · exact wcEq
      · exact imp_all_update_prop (fun a => rEpochSet a = true) s.rpc i .needW
          rEpoch (fun h => absurd h (by decide))
      · exact wEpoch
      · intro hw
        exact exists_update_of_exists (fun a => rEpochSet a = true) s.rpc i
          .needW (wReaders hw) (fun h => absurd (hpc ▸ h) (by decide))
      · intro k hk
        by_cases hki : k = i
        · subst hki; rw [Function.update_same] at hk
          exact absurd hk (by decide)
        · rw [Function.update_noteq hki] at hk
          have hkm := (m1 k).mpr (by rw [hk]; rfl)
          have him := (m1 i).mpr (by rw [hpc]; rfl)
          exact absurd (Option.some.inj (him.symm.trans hkm))
            (fun he => hki he.symm)
      · exact wZero
    · rw [if_neg hn]
      refine ⟨?_, ?_, ?_, ?_, ?_, ?_, ?_, ?_, ?_, ?_, ?_, ?_⟩ <;> dsimp only
      · exact hold_iff_keep s.mutex3 (fun k => k) holdsM3 s.rpc i .entryLocked
          m3 (by rw [hpc]; rfl)
      · exact hold_iff_keep s.mutex1 (fun k => k) holdsM1 s.rpc i .entryLocked
          m1 (by rw [hpc]; rfl)
      · exact m2
      · exact hold_iff_keep s.rGate ROwner.byReader holdsRr s.rpc i
          .entryLocked rHeld (by rw [hpc]; rfl)
      · exact wHeld
      · rw [bcount_update readerCounted s.rpc i .entryLocked, hpc]
        have h1 : readerCounted RPc.entryLocked = true := rfl
        have h2 : readerCounted RPc.hasM1 = false := rfl
        rw [h1, h2]
        simp only [if_true]
        norm_num
        omega
      · exact wcEq
      · intro k hk
        by_cases hki : k = i
        · have hb : bcount readerCounted s.rpc ≠ 0 := by rw [← rcEq]; omega
          obtain ⟨m, hm⟩ := exists_of_bcount_ne_zero readerCounted s.rpc hb
          exact rEpoch m (counted_mem_epoch m1 (by rw [hpc]; rfl)
            (by rw [hpc]; decide) hm)
        · rw [Function.update_noteq hki] at hk
          exact rEpoch k hk
      · exact wEpoch
      · intro hw
        exact exists_update_of_exists (fun a => rEpochSet a = true) s.rpc i
          .entryLocked (wReaders hw) (fun h => absurd (hpc ▸ h) (by decide))
      · intro k hk
        by_cases hki : k = i
        · subst hki; rw [Function.update_same] at hk
          exact absurd hk (by decide)
        · rw [Function.update_noteq hki] at hk
          have hkm := (m1 k).mpr (by rw [hk]; rfl)
          have him := (m1 i).mpr (by rw [hpc]; rfl)
          exact absurd (Option.some.inj (him.symm.trans hkm))
            (fun he => hki he.symm)
      · exact wZero
  | acqW hpc hfree =>
    refine ⟨?_, ?_, ?_, ?_, ?_, ?_, ?_, ?_, ?_, ?_, ?_, ?_⟩ <;> dsimp only
    · exact hold_iff_keep s.mutex3 (fun k => k) holdsM3 s.rpc i .entryLocked
        m3 (by rw [hpc]; rfl)
    · exact hold_iff_keep s.mutex1 (fun k => k) holdsM1 s.rpc i .entryLocked
        m1 (by rw [hpc]; rfl)
    · exact m2
    · exact hold_iff_keep s.rGate ROwner.byReader holdsRr s.rpc i .entryLocked
        rHeld (by rw [hpc]; rfl)
    · exact hold_iff_foreign_set s.wGate WOwner.byReaders WOwner.byWriter
        writerInCS s.wpc wHeld hfree (fun k h => WOwner.noConfusion h)
    · rw [bcount_update_same readerCounted s.rpc i .entryLocked
        (by rw [hpc]; rfl)]
      exact rcEq
    · exact wcEq
    · intro k hk
      rfl
    · exact wEpoch
    · intro hw
      exact ⟨i, by rw [Function.update_same]; rfl⟩
    · exact imp_all_update_prop (fun a => a = RPc.needRelW) s.rpc i
        .entryLocked rZero (fun h => absurd h (by decide))
    · exact wZero
  | relM1entry hpc =>
    refine ⟨?_, ?_, ?_, ?_, ?_, ?_, ?_, ?_, ?_, ?_, ?_, ?_⟩ <;> dsimp only
    · exact hold_iff_keep s.mutex3 (fun k => k) holdsM3 s.rpc i .relM1 m3
        (by rw [hpc]; rfl)
    · exact hold_iff_releaseCAD s.mutex1 (fun k => k) (fun a b h => h)
        holdsM1 s.rpc i .relM1 m1 (by rw [hpc]; rfl) rfl
    · exact m2
    · exact hold_iff_keep s.rGate ROwner.byReader holdsRr s.rpc i .relM1 rHeld
        (by rw [hpc]; rfl)
    · exact wHeld
    · rw [bcount_update_same readerCounted s.rpc i .relM1 (by rw [hpc]; rfl)]
      exact rcEq
    · exact wcEq
    · exact imp_all_update_prop (fun a => rEpochSet a = true) s.rpc i .relM1
        rEpoch (fun _ => rEpoch i (by rw [hpc]; rfl))
    · exact wEpoch
    · intro hw
      exact exists_update_of_exists (fun a => rEpochSet a = true) s.rpc i
        .relM1 (wReaders hw) (fun _ => rfl)
    · exact imp_all_update_prop (fun a => a = RPc.needRelW) s.rpc i .relM1
        rZero (fun h => absurd h (by decide))
    · exact wZero
  | relRgate hpc =>
    refine ⟨?_, ?_, ?_, ?_, ?_, ?_, ?_, ?_, ?_, ?_, ?_, ?_⟩ <;> dsimp only
    · exact hold_iff_keep s.mutex3 (fun k => k) holdsM3 s.rpc i .relR m3
        (by rw [hpc]; rfl)
    · exact hold_iff_keep s.mutex1 (fun k => k) holdsM1 s.rpc i .relR m1
        (by rw [hpc]; rfl)
    · exact m2
    · exact hold_iff_releaseCAD s.rGate ROwner.byReader
        (fun a b h => ROwner.byReader.inj h) holdsRr s.rpc i .relR rHeld
        (by rw [hpc]; rfl) rfl
    · exact wHeld
    · rw [bcount_update_same readerCounted s.rpc i .relR (by rw [hpc]; rfl)]
      exact rcEq
    · exact wcEq
    · exact imp_all_update_prop (fun a => rEpochSet a = true) s.rpc i .relR
        rEpoch (fun _ => rEpoch i (by rw [hpc]; rfl))
    · intro j hj
      have h2 := wEpoch j hj
      rw [if_neg (by rw [h2]; simp)]
      exact h2
    · intro hw
      exact exists_update_of_exists (fun a => rEpochSet a = true) s.rpc i
        .relR (wReaders hw) (fun _ => rfl)
    · exact imp_all_update_prop (fun a => a = RPc.needRelW) s.rpc i .relR
        rZero (fun h => absurd h (by decide))
    · exact wZero
  | relM3 hpc =>
    refine ⟨?_, ?_, ?_, ?_, ?_, ?_, ?_, ?_, ?_, ?_, ?_, ?_⟩ <;> dsimp only
    · exact hold_iff_releaseCAD s.mutex3 (fun k => k) (fun a b h => h)
        holdsM3 s.rpc i .inCS m3 (by rw [hpc]; rfl) rfl
    · exact hold_iff_keep s.mutex1 (fun k => k) holdsM1 s.rpc i .inCS m1
        (by rw [hpc]; rfl)
    · exact m2
    · exact hold_iff_keep s.rGate ROwner.byReader holdsRr s.rpc i .inCS rHeld
        (by rw [hpc]; rfl)
    · exact wHeld
    · rw [bcount_update_same readerCounted s.rpc i .inCS (by rw [hpc]; rfl)]
      exact rcEq
    · exact wcEq
    · exact imp_all_update_prop (fun a => rEpochSet a = true) s.rpc i .inCS
        rEpoch (fun _ => rEpoch i (by rw [hpc]; rfl))
    · exact wEpoch
    · intro hw
      exact exists_update_of_exists (fun a => rEpochSet a = true) s.rpc i
        .inCS (wReaders hw) (fun _ => rfl)
    · exact imp_all_update_prop (fun a => a = RPc.needRelW) s.rpc i .inCS
        rZero (fun h => absurd h (by decide))
    · exact wZero
  | acqM1exit hpc hfree =>
    refine ⟨?_, ?_, ?_, ?_, ?_, ?_, ?_, ?_, ?_, ?_, ?_, ?_⟩ <;> dsimp only
    · exact hold_iff_keep s.mutex3 (fun k => k) holdsM3 s.rpc i .exitM1 m3
        (by rw [hpc]; rfl)
    · exact hold_iff_acquire s.mutex1 (fun k => k) (fun a b h => h) holdsM1
        s.rpc i .exitM1 m1 hfree rfl
    · exact m2
    · exact hold_iff_keep s.rGate ROwner.byReader holdsRr s.rpc i .exitM1
        rHeld (by rw [hpc]; rfl)
    · exact wHeld
    · rw [bcount_update_same readerCounted s.rpc i .exitM1 (by rw [hpc]; rfl)]
      exact rcEq
    · exact wcEq
    · exact imp_all_update_prop (fun a => rEpochSet a = true) s.rpc i .exitM1
        rEpoch (fun _ => rEpoch i (by rw [hpc]; rfl))
    · exact wEpoch
    · intro hw
      exact exists_update_of_exists (fun a => rEpochSet a = true) s.rpc i
        .exitM1 (wReaders hw) (fun _ => rfl)
    · exact imp_all_update_prop (fun a => a = RPc.needRelW) s.rpc i .exitM1
        rZero (fun h => absurd h (by decide))
    · exact wZero
  | decr hpc =>
    by_cases hn : s.readcount - 1 = 0
    · rw [if_pos hn]
      refine ⟨?_, ?_, ?_, ?_, ?_, ?_, ?_, ?_, ?_, ?_, ?_, ?_⟩ <;> dsimp only
      · exact hold_iff_keep s.mutex3 (fun k => k) holdsM3 s.rpc i .needRelW
          m3 (by rw [hpc]; rfl)
      · exact hold_iff_keep s.mutex1 (fun k => k) holdsM1 s.rpc i .needRelW
          m1 (by rw [hpc]; rfl)
      · exact m2
      · exact hold_iff_keep s.rGate ROwner.byReader holdsRr s.rpc i .needRelW
          rHeld (by rw [hpc]; rfl)
      · exact wHeld
      · rw [bcount_update readerCounted s.rpc i .needRelW, hpc]
        have h1 : readerCounted RPc.needRelW = false := rfl
        have h2 : readerCounted RPc.exitM1 = true := rfl
        rw [h1, h2]
        norm_num
        omega
      · exact wcEq
      · exact imp_all_update_prop (fun a => rEpochSet a = true) s.rpc i
          .needRelW rEpoch (fun _ => rEpoch i (by rw [hpc]; rfl))
      · exact wEpoch
      · intro hw
        exact exists_update_of_exists (fun a => rEpochSet a = true) s.rpc i
          .needRelW (wReaders hw) (fun _ => rfl)
      · intro k _
        exact hn
      · exact wZero
    · rw [if_neg hn]
      refine ⟨?_, ?_, ?_, ?_, ?_, ?_, ?_, ?_, ?_, ?_, ?_, ?_⟩ <;> dsimp only
      · exact hold_iff_keep s.mutex3 (fun k => k) holdsM3 s.rpc i .exitDone1
          m3 (by rw [hpc]; rfl)
      · exact hold_iff_keep s.mutex1 (fun k => k) holdsM1 s.rpc i .exitDone1
          m1 (by rw [hpc]; rfl)
      · exact m2
      · exact hold_iff_keep s.rGate ROwner.byReader holdsRr s.rpc i .exitDone1
          rHeld (by rw [hpc]; rfl)
      · exact wHeld
      · rw [bcount_update readerCounted s.rpc i .exitDone1, hpc]
        have h1 : readerCounted RPc.exitDone1 = false := rfl
        have h2 : readerCounted RPc.exitM1 = true := rfl
        rw [h1, h2]
        norm_num
        omega
      · exact wcEq
      · exact imp_all_update_prop (fun a => rEpochSet a = true) s.rpc i
          .exitDone1 rEpoch (fun h => absurd h (by decide))
      · exact wEpoch
      · intro hw
        have hb : bcount readerCounted (Function.update s.rpc i .exitDone1)
            ≠ 0 := by
          rw [bcount_update readerCounted s.rpc i .exitDone1, hpc]
          have h1 : readerCounted RPc.exitDone1 = false := rfl
          have h2 : readerCounted RPc.exitM1 = true := rfl
          rw [h1, h2]
          norm_num
          omega
        obtain ⟨m, hm⟩ := exists_of_bcount_ne_zero readerCounted _ hb
        have hmi : m ≠ i := by
          intro he
          rw [he, Function.update_same] at hm
          exact absurd hm (by decide)
        rw [Function.update_noteq hmi] at hm
        refine ⟨m, ?_⟩
        rw [Function.update_noteq hmi]
        exact counted_mem_epoch m1 (by rw [hpc]; rfl) (by rw [hpc]; decide) hm
      · intro k hk
        by_cases hki : k = i
        · subst hki; rw [Function.update_same] at hk
          exact absurd hk (by decide)
        · rw [Function.update_noteq hki] at hk
          have hkm := (m1 k).mpr (by rw [hk]; rfl)
          have him := (m1 i).mpr (by rw [hpc]; rfl)
          exact absurd (Option.some.inj (him.symm.trans hkm))
            (fun he => hki he.symm)
      · exact wZero
  | relW hpc =>
    refine ⟨?_, ?_, ?_, ?_, ?_, ?_, ?_, ?_, ?_, ?_, ?_, ?_⟩ <;> dsimp only
    · exact hold_iff_keep s.mutex3 (fun k => k) holdsM3 s.rpc i .exitDone1 m3
        (by rw [hpc]; rfl)
    · exact hold_iff_keep s.mutex1 (fun k => k) holdsM1 s.rpc i .exitDone1 m1
        (by rw [hpc]; rfl)
    · exact m2
    · exact hold_iff_keep s.rGate ROwner.byReader holdsRr s.rpc i .exitDone1
        rHeld (by rw [hpc]; rfl)
    · exact hold_iff_foreign_CAD s.wGate WOwner.byReaders WOwner.byWriter
        writerInCS s.wpc wHeld (fun k h => WOwner.noConfusion h)
    · rw [bcount_update_same readerCounted s.rpc i .exitDone1
        (by rw [hpc]; rfl)]
      exact rcEq
    · exact wcEq
    · intro k hk
      by_cases hki : k = i
      · subst hki; rw [Function.update_same] at hk
        exact absurd hk (by decide)
      · rw [Function.update_noteq hki] at hk
        have hz : s.readcount = 0 := rZero i hpc
        have hcnt : readerCounted (s.rpc k) = false :=
          (bcount_eq_zero_iff readerCounted s.rpc).mp (by omega) k
        have hkpc := epoch_not_counted _ hk hcnt
        have hkm := (m1 k).mpr (by rw [hkpc]; rfl)
        have him := (m1 i).mpr (by rw [hpc]; rfl)
        exact absurd (Option.some.inj (him.symm.trans hkm))
          (fun he => hki he.symm)
    · exact wEpoch
    · intro hw
      by_cases hg : s.wGate = some WOwner.byReaders
      · rw [if_pos hg] at hw
        exact absurd hw (by simp)
      · rw [if_neg hg] at hw
        exact absurd hw hg
    · exact imp_all_update_prop (fun a => a = RPc.needRelW) s.rpc i .exitDone1
        rZero (fun h => absurd h (by decide))
    · exact wZero
  | relM1exit hpc =>
    refine ⟨?_, ?_, ?_, ?_, ?_, ?_, ?_, ?_, ?_, ?_, ?_, ?_⟩ <;> dsimp only
    · exact hold_iff_keep s.mutex3 (fun k => k) holdsM3 s.rpc i .done m3
        (by rw [hpc]; rfl)
    · exact hold_iff_releaseCAD s.mutex1 (fun k => k) (fun a b h => h)
        holdsM1 s.rpc i .done m1 (by rw [hpc]; rfl) rfl
    · exact m2
    · exact hold_iff_keep s.rGate ROwner.byReader holdsRr s.rpc i .done rHeld
        (by rw [hpc]; rfl)
    · exact wHeld
    · rw [bcount_update_same readerCounted s.rpc i .done (by rw [hpc]; rfl)]
      exact rcEq
    · exact wcEq
    · exact imp_all_update_prop (fun a => rEpochSet a = true) s.rpc i .done
        rEpoch (fun h => absurd h (by decide))
    · exact wEpoch
    · intro hw
      exact exists_update_of_exists (fun a => rEpochSet a = true) s.rpc i
        .done (wReaders hw) (fun h => absurd (hpc ▸ h) (by decide))
    · exact imp_all_update_prop (fun a => a = RPc.needRelW) s.rpc i .done
        rZero (fun h => absurd h (by decide))
    · exact wZero
  | restart hpc =>
    refine ⟨?_, ?_, ?_, ?_, ?_, ?_, ?_, ?_, ?_, ?_, ?_, ?_⟩ <;> dsimp only
    · exact hold_iff_keep s.mutex3 (fun k => k) holdsM3 s.rpc i .start m3
        (by rw [hpc]; rfl)
    · exact hold_iff_keep s.mutex1 (fun k => k) holdsM1 s.rpc i .start m1
        (by rw [hpc]; rfl)
    · exact m2
    · exact hold_iff_keep s.rGate ROwner.byReader holdsRr s.rpc i .start rHeld
        (by rw [hpc]; rfl)
    · exact wHeld
    · rw [bcount_update_same readerCounted s.rpc i .start (by rw [hpc]; rfl)]
      exact rcEq
    · exact wcEq
    · exact imp_all_update_prop (fun a => rEpochSet a = true) s.rpc i .start
        rEpoch (fun h => absurd h (by decide))
    · exact wEpoch
    · intro hw
      exact exists_update_of_exists (fun a => rEpochSet a = true) s.rpc i
        .start (wReaders hw) (fun h => absurd (hpc ▸ h) (by decide))
    · exact imp_all_update_prop (fun a => a = RPc.needRelW) s.rpc i .start
        rZero (fun h => absurd h (by decide))
    · exact wZero

/-- Every atomic writer operation preserves the invariant. -/
theorem inv_writer_step {NR NW : ℕ} {s s' : GState NR NW} {j : Fin NW}
    (hinv : Inv s) (hstep : WriterStep j s s') : Inv s' := by
  obtain ⟨m3, m1, m2, rHeld, wHeld, rcEq, wcEq, rEpoch, wEpoch, wReaders,
    rZero, wZero⟩ := hinv
  cases hstep with
  | acqM2 hpc hfree =>
    refine ⟨?_, ?_, ?_, ?_, ?_, ?_, ?_, ?_, ?_, ?_, ?_, ?_⟩ <;> dsimp only
    · exact m3
    · exact m1
    · exact hold_iff_acquire s.mutex2 (fun k => k) (fun a b h => h) holdsM2
        s.wpc j .hasM2 m2 hfree rfl
    · exact rHeld
    · exact hold_iff_keep s.wGate WOwner.byWriter writerInCS s.wpc j .hasM2
        wHeld (by rw [hpc]; rfl)
    · exact rcEq
    · rw [bcount_update_same writerCounted s.wpc j .hasM2 (by rw [hpc]; rfl)]
      exact wcEq
    · exact rEpoch
    · exact imp_all_update_prop (fun a => wEpochSet a = true) s.wpc j .hasM2
        wEpoch (fun h => absurd h (by decide))
    · exact wReaders
    · exact rZero
    · exact imp_all_update_prop (fun a => a = WPc.needRelR) s.wpc j .hasM2
        wZero (fun h => absurd h (by decide))
  | incr hpc =>
    by_cases hn : s.writecount + 1 = 1
    · rw [if_pos hn]
      refine ⟨?_, ?_, ?_, ?_, ?_, ?_, ?_, ?_, ?_, ?_, ?_, ?_⟩ <;> dsimp only
      · exact m3
      · exact m1
      · exact hold_iff_keep s.mutex2 (fun k => k) holdsM2 s.wpc j .needR m2
          (by rw [hpc]; rfl)
      · exact rHeld
      · exact hold_iff_keep s.wGate WOwner.byWriter writerInCS s.wpc j .needR
          wHeld (by rw [hpc]; rfl)
      · exact rcEq
      · rw [bcount_update writerCounted s.wpc j .needR, hpc]
        have h1 : writerCounted WPc.needR = true := rfl
        have h2 : writerCounted WPc.hasM2 = false := rfl
        rw [h1, h2]
        norm_num
        omega
      · exact rEpoch
      · exact imp_all_update_prop (fun a => wEpochSet a = true) s.wpc j .needR
          wEpoch (fun h => absurd h (by decide))
      · exact wReaders
      · exact rZero
      · intro k hk
        by_cases hkj : k = j
        · subst hkj; rw [Function.update_same] at hk
          exact absurd hk (by decide)
        · rw [Function.update_noteq hkj] at hk
          have hkm := (m2 k).mpr (by rw [hk]; rfl)
          have hjm := (m2 j).mpr (by rw [hpc]; rfl)
          exact absurd (Option.some.inj (hjm.symm.trans hkm))
            (fun he => hkj he.symm)
    · rw [if_neg hn]
      refine ⟨?_, ?_, ?_, ?_, ?_, ?_, ?_, ?_, ?_, ?_, ?_, ?_⟩ <;> dsimp only
      · exact m3
      · exact m1
      · exact hold_iff_keep s.mutex2 (fun k => k) holdsM2 s.wpc j .counted m2
          (by rw [hpc]; rfl)
      · exact rHeld
      · exact hold_iff_keep s.wGate WOwner.byWriter writerInCS s.wpc j
          .counted wHeld (by rw [hpc]; rfl)
      · exact rcEq
      · rw [bcount_update writerCounted s.wpc j .counted, hpc]
        have h1 : writerCounted WPc.counted = true := rfl
        have h2 : writerCounted WPc.hasM2 = false := rfl
        rw [h1, h2]
        norm_num
        omega
      · exact rEpoch
      · intro k hk
        by_cases hkj : k = j
        · have hb : bcount writerCounted s.wpc ≠ 0 := by rw [← wcEq]; omega
          obtain ⟨m, hm⟩ := exists_of_bcount_ne_zero writerCounted s.wpc hb
          exact wEpoch m (counted_mem_wepoch m2 (by rw [hpc]; rfl)
            (by rw [hpc]; decide) hm)
        · rw [Function.update_noteq hkj] at hk
          exact wEpoch k hk
      · exact wReaders
      · exact rZero
      · intro k hk
        by_cases hkj : k = j
        · subst hkj; rw [Function.update_same] at hk
          exact absurd hk (by decide)
        · rw [Function.update_noteq hkj] at hk
          have hkm := (m2 k).mpr (by rw [hk]; rfl)
          have hjm := (m2 j).mpr (by rw [hpc]; rfl)
          exact absurd (Option.some.inj (hjm.symm.trans hkm))
            (fun he => hkj he.symm)
  | acqR hpc hfree =>
    refine ⟨?_, ?_, ?_, ?_, ?_, ?_, ?_, ?_, ?_, ?_, ?_, ?_⟩ <;> dsimp only
    · exact m3
    · exact m1
    · exact hold_iff_keep s.mutex2 (fun k => k) holdsM2 s.wpc j .counted m2
        (by rw [hpc]; rfl)
    · exact hold_iff_foreign_set s.rGate ROwner.byWriters ROwner.byReader
        holdsRr s.rpc rHeld hfree (fun k h => ROwner.noConfusion h)
    · exact hold_iff_keep s.wGate WOwner.byWriter writerInCS s.wpc j .counted
        wHeld (by rw [hpc]; rfl)
    · exact rcEq
    · rw [bcount_update_same writerCounted s.wpc j .counted (by rw [hpc]; rfl)]
      exact wcEq
    · exact rEpoch
    · intro k hk
      rfl
    · exact wReaders
    · exact rZero
    · exact imp_all_update_prop (fun a => a = WPc.needRelR) s.wpc j .counted
        wZero (fun h => absurd h (by decide))
  | relM2entry hpc =>
    refine ⟨?_, ?_, ?_, ?_, ?_, ?_, ?_, ?_, ?_, ?_, ?_, ?_⟩ <;> dsimp only
    · exact m3
    · exact m1
    · exact hold_iff_releaseCAD s.mutex2 (fun k => k) (fun a b h => h)
        holdsM2 s.wpc j .relM2 m2 (by rw [hpc]; rfl) rfl
    · exact rHeld
    · exact hold_iff_keep s.wGate WOwner.byWriter writerInCS s.wpc j .relM2
        wHeld (by rw [hpc]; rfl)
    · exact rcEq
    · rw [bcount_update_same writerCounted s.wpc j .relM2 (by rw [hpc]; rfl)]
      exact wcEq
    · exact rEpoch
    · exact imp_all_update_prop (fun a => wEpochSet a = true) s.wpc j .relM2
        wEpoch (fun _ => wEpoch j (by rw [hpc]; rfl))
    · exact wReaders
    · exact rZero
    · exact imp_all_update_prop (fun a => a = WPc.needRelR) s.wpc j .relM2
        wZero (fun h => absurd h (by decide))
  | acqW hpc hfree =>
    refine ⟨?_, ?_, ?_, ?_, ?_, ?_, ?_, ?_, ?_, ?_, ?_, ?_⟩ <;> dsimp only
    · exact m3
    · exact m1
    · exact hold_iff_keep s.mutex2 (fun k => k) holdsM2 s.wpc j .inCS m2
        (by rw [hpc]; rfl)
    · exact rHeld
    · exact hold_iff_acquire s.wGate WOwner.byWriter
        (fun a b h => WOwner.byWriter.inj h) writerInCS s.wpc j .inCS wHeld
        hfree rfl
    · exact rcEq
    · rw [bcount_update_same writerCounted s.wpc j .inCS (by rw [hpc]; rfl)]
      exact wcEq
    · intro k hk
      exact absurd (hfree ▸ rEpoch k hk) (by simp)
    · exact imp_all_update_prop (fun a => wEpochSet a = true) s.wpc j .inCS
        wEpoch (fun _ => wEpoch j (by rw [hpc]; rfl))
    · intro hw
      exact absurd (Option.some.inj hw) (fun h => WOwner.noConfusion h)
    · exact rZero
    · exact imp_all_update_prop (fun a => a = WPc.needRelR) s.wpc j .inCS
        wZero (fun h => absurd h (by decide))
  | relWgate hpc =>
    refine ⟨?_, ?_, ?_, ?_, ?_, ?_, ?_, ?_, ?_, ?_, ?_, ?_⟩ <;> dsimp only
    · exact m3
    · exact m1
    · exact hold_iff_keep s.mutex2 (fun k => k) holdsM2 s.wpc j .relW m2
        (by rw [hpc]; rfl)
    · exact rHeld
    · exact hold_iff_releaseCAD s.wGate WOwner.byWriter
        (fun a b h => WOwner.byWriter.inj h) writerInCS s.wpc j .relW wHeld
        (by rw [hpc]; rfl) rfl
    · exact rcEq
    · rw [bcount_update_same writerCounted s.wpc j .relW (by rw [hpc]; rfl)]
      exact wcEq
    · intro k hk
      have h2 := rEpoch k hk
      rw [if_neg (by rw [h2]; simp)]
      exact h2
    · exact imp_all_update_prop (fun a => wEpochSet a = true) s.wpc j .relW
        wEpoch (fun _ => wEpoch j (by rw [hpc]; rfl))
    · intro hw
      by_cases hg : s.wGate = some (WOwner.byWriter j)
      · rw [if_pos hg] at hw
        exact absurd hw (by simp)
      · rw [if_neg hg] at hw
        exact wReaders hw
    · exact rZero
    · exact imp_all_update_prop (fun a => a = WPc.needRelR) s.wpc j .relW
        wZero (fun h => absurd h (by decide))
  | acqM2exit hpc hfree =>
    refine ⟨?_, ?_, ?_, ?_, ?_, ?_, ?_, ?_, ?_, ?_, ?_, ?_⟩ <;> dsimp only
    · exact m3
    · exact m1
    · exact hold_iff_acquire s.mutex2 (fun k => k) (fun a b h => h) holdsM2
        s.wpc j .exitM2 m2 hfree rfl
    · exact rHeld
    · exact hold_iff_keep s.wGate WOwner.byWriter writerInCS s.wpc j .exitM2
        wHeld (by rw [hpc]; rfl)
    · exact rcEq
    · rw [bcount_update_same writerCounted s.wpc j .exitM2 (by rw [hpc]; rfl)]
      exact wcEq
    · exact rEpoch
    · exact imp_all_update_prop (fun a => wEpochSet a = true) s.wpc j .exitM2
        wEpoch (fun _ => wEpoch j (by rw [hpc]; rfl))
    · exact wReaders
    · exact rZero
    · exact imp_all_update_prop (fun a => a = WPc.needRelR) s.wpc j .exitM2
        wZero (fun h => absurd h (by decide))
  | decr hpc =>
    by_cases hn : s.writecount - 1 = 0
    · rw [if_pos hn]
      refine ⟨?_, ?_, ?_, ?_, ?_, ?_, ?_, ?_, ?_, ?_, ?_, ?_⟩ <;> dsimp only
      · exact m3
      · exact m1
      · exact hold_iff_keep s.mutex2 (fun k => k) holdsM2 s.wpc j .needRelR
          m2 (by rw [hpc]; rfl)
      · exact rHeld
      · exact hold_iff_keep s.wGate WOwner.byWriter writerInCS s.wpc j
          .needRelR wHeld (by rw [hpc]; rfl)
      · exact rcEq
      · rw [bcount_update writerCounted s.wpc j .needRelR, hpc]
        have h1 : writerCounted WPc.needRelR = false := rfl
        have h2 : writerCounted WPc.exitM2 = true := rfl
        rw [h1, h2]
        norm_num
        omega
      · exact rEpoch
      · exact imp_all_update_prop (fun a => wEpochSet a = true) s.wpc j
          .needRelR wEpoch (fun _ => wEpoch j (by rw [hpc]; rfl))
      · exact wReaders
      · exact rZero
      · intro k _
        exact hn
    · rw [if_neg hn]
      refine ⟨?_, ?_, ?_, ?_, ?_, ?_, ?_, ?_, ?_, ?_, ?_, ?_⟩ <;> dsimp only
      · exact m3
      · exact m1
      · exact hold_iff_keep s.mutex2 (fun k => k) holdsM2 s.wpc j .exitDone
          m2 (by rw [hpc]; rfl)
      · exact rHeld
      · exact hold_iff_keep s.wGate WOwner.byWriter writerInCS s.wpc j
          .exitDone wHeld (by rw [hpc]; rfl)
      · exact rcEq
      · rw [bcount_update writerCounted s.wpc j .exitDone, hpc]
        have h1 : writerCounted WPc.exitDone = false := rfl
        have h2 : writerCounted WPc.exitM2 = true := rfl
        rw [h1, h2]
        norm_num
        omega
      · exact rEpoch
      · exact imp_all_update_prop (fun a => wEpochSet a = true) s.wpc j
          .exitDone wEpoch (fun h => absurd h (by decide))
      · exact wReaders
      · exact rZero
      · intro k hk
        by_cases hkj : k = j
        · subst hkj; rw [Function.update_same] at hk
          exact absurd hk (by decide)
        · rw [Function.update_noteq hkj] at hk
          have hkm := (m2 k).mpr (by rw [hk]; rfl)
          have hjm := (m2 j).mpr (by rw [hpc]; rfl)
          exact absurd (Option.some.inj (hjm.symm.trans hkm))
            (fun he => hkj he.symm)
  | relRgate hpc =>
    refine ⟨?_, ?_, ?_, ?_, ?_, ?_, ?_, ?_, ?_, ?_, ?_, ?_⟩ <;> dsimp only
    · exact m3
    · exact m1
    · exact hold_iff_keep s.mutex2 (fun k => k) holdsM2 s.wpc j .exitDone m2
        (by rw [hpc]; rfl)
    · exact hold_iff_foreign_CAD s.rGate ROwner.byWriters ROwner.byReader
        holdsRr s.rpc rHeld (fun k h => ROwner.noConfusion h)
    · exact hold_iff_keep s.wGate WOwner.byWriter writerInCS s.wpc j .exitDone
        wHeld (by rw [hpc]; rfl)
    · exact rcEq
    · rw [bcount_update_same writerCounted s.wpc j .exitDone
        (by rw [hpc]; rfl)]
      exact wcEq
    · exact rEpoch
    · intro k hk
      by_cases hkj : k = j
      · subst hkj; rw [Function.update_same] at hk
        exact absurd hk (by decide)
      · rw [Function.update_noteq hkj] at hk
        have hz : s.writecount = 0 := wZero j hpc
        have hcnt : writerCounted (s.wpc k) = false :=
          (bcount_eq_zero_iff writerCounted s.wpc).mp (by omega) k
        have hkpc := wepoch_not_counted _ hk hcnt
        have hkm := (m2 k).mpr (by rw [hkpc]; rfl)
        have hjm := (m2 j).mpr (by rw [hpc]; rfl)
        exact absurd (Option.some.inj (hjm.symm.trans hkm))
          (fun he => hkj he.symm)
    · exact wReaders
    · exact rZero
    · exact imp_all_update_prop (fun a => a = WPc.needRelR) s.wpc j .exitDone
        wZero (fun h => absurd h (by decide))
  | relM2exit hpc =>
    refine ⟨?_, ?_, ?_, ?_, ?_, ?_, ?_, ?_, ?_, ?_, ?_, ?_⟩ <;> dsimp only
    · exact m3
    · exact m1
    · exact hold_iff_releaseCAD s.mutex2 (fun k => k) (fun a b h => h)
        holdsM2 s.wpc j .done m2 (by rw [hpc]; rfl) rfl
    · exact rHeld
    · exact hold_iff_keep s.wGate WOwner.byWriter writerInCS s.wpc j .done
        wHeld (by rw [hpc]; rfl)
    · exact rcEq
    · rw [bcount_update_same writerCounted s.wpc j .done (by rw [hpc]; rfl)]
      exact wcEq
    · exact rEpoch
    · exact imp_all_update_prop (fun a => wEpochSet a = true) s.wpc j .done
        wEpoch (fun h => absurd h (by decide))
    · exact wReaders
    · exact rZero
    · exact imp_all_update_prop (fun a => a = WPc.needRelR) s.wpc j .done
        wZero (fun h => absurd h (by decide))
  | restart hpc =>
    refine ⟨?_, ?_, ?_, ?_, ?_, ?_, ?_, ?_, ?_, ?_, ?_, ?_⟩ <;> dsimp only
    · exact m3
    · exact m1
    · exact hold_iff_keep s.mutex2 (fun k => k) holdsM2 s.wpc j .start m2
        (by rw [hpc]; rfl)
    · exact rHeld
    · exact hold_iff_keep s.wGate WOwner.byWriter writerInCS s.wpc j .start
        wHeld (by rw [hpc]; rfl)
    · exact rcEq
    · rw [bcount_update_same writerCounted s.wpc j .start (by rw [hpc]; rfl)]
      exact wcEq
    · exact rEpoch
    · exact imp_all_update_prop (fun a => wEpochSet a = true) s.wpc j .start
        wEpoch (fun h => absurd h (by decide))
    · exact wReaders
    · exact rZero
    · exact imp_all_update_prop (fun a => a = WPc.needRelR) s.wpc j .start
        wZero (fun h => absurd h (by decide))

/-- The invariant is inductive. -/
theorem inv_step {NR NW : ℕ} {s s' : GState NR NW} (hinv : Inv s)
    (hstep : Step s s') : Inv s' := by
  rcases hstep with ⟨i, hr⟩ | ⟨j, hw⟩
  · exact inv_reader_step hinv hr
  · exact inv_writer_step hinv hw

/-- Every reachable state satisfies the invariant. -/
theorem reachable_inv {NR NW : ℕ} {s : GState NR NW}
    (h : Reachable NR NW s) : Inv s := by
  induction h with
  | init => exact inv_init NR NW
  | step _ hstep ih => exact inv_step ih hstep

/-! ## The seven key names of one resource are pairwise distinct -/

theorem m1_ne_m2 (R : String) : mutex1Name R ≠ mutex2Name R := by
  intro h
  have h2 := congrArg String.data h
  simp [mutex1Name, mutex2Name] at h2

theorem m1_ne_m3 (R : String) : mutex1Name R ≠ mutex3Name R := by
  intro h
  have h2 := congrArg String.data h
  simp [mutex1Name, mutex3Name] at h2

theorem m1_ne_r (R : String) : mutex1Name R ≠ rName R := by
  intro h
  have h2 := congrArg String.data h
  simp [mutex1Name, rName] at h2

theorem m1_ne_w (R : String) : mutex1Name R ≠ wName R := by
  intro h
  have h2 := congrArg String.data h
  simp [mutex1Name, wName] at h2

theorem m1_ne_rc (R : String) : mutex1Name R ≠ readcountName R := by
  intro h
  have h2 := congrArg String.data h
  simp [mutex1Name, readcountName] at h2

theorem m1_ne_wc (R : String) : mutex1Name R ≠ writecountName R := by
  intro h
  have h2 := congrArg String.data h
  simp [mutex1Name, writecountName] at h2

theorem m2_ne_m3 (R : String) : mutex2Name R ≠ mutex3Name R := by
  intro h
  have h2 := congrArg String.data h
  simp [mutex2Name, mutex3Name] at h2

theorem m2_ne_r (R : String) : mutex2Name R ≠ rName R := by
  intro h
  have h2 := congrArg String.data h
  simp [mutex2Name, rName] at h2

theorem m2_ne_w (R : String) : mutex2Name R ≠ wName R := by
  intro h
  have h2 := congrArg String.data h
  simp [mutex2Name, wName] at h2

theorem m2_ne_rc (R : String) : mutex2Name R ≠ readcountName R := by
  intro h
  have h2 := congrArg String.data h
  simp [mutex2Name, readcountName] at h2

theorem m2_ne_wc (R : String) : mutex2Name R ≠ writecountName R := by
  intro h
  have h2 := congrArg String.data h
  simp [mutex2Name, writecountName] at h2

theorem m3_ne_r (R : String) : mutex3Name R ≠ rName R := by
  intro h
  have h2 := congrArg String.data h
  simp [mutex3Name, rName] at h2

theorem m3_ne_w (R : String) : mutex3Name R ≠ wName R := by
  intro h
  have h2 := congrArg String.data h
  simp [mutex3Name, wName] at h2

theorem m3_ne_rc (R : String) : mutex3Name R ≠ readcountName R := by
  intro h
  have h2 := congrArg String.data h
  simp [mutex3Name, readcountName] at h2

theorem m3_ne_wc (R : String) : mutex3Name R ≠ writecountName R := by
  intro h
  have h2 := congrArg String.data h
  simp [mutex3Name, writecountName] at h2

theorem r_ne_w (R : String) : rName R ≠ wName R := by
  intro h
  have h2 := congrArg String.data h
  simp [rName, wName] at h2

theorem r_ne_rc (R : String) : rName R ≠ readcountName R := by
  intro h
  have h2 := congrArg String.data h
  simp [rName, readcountName] at h2

theorem r_ne_wc (R : String) : rName R ≠ writecountName R := by
  intro h
  have h2 := congrArg String.data h
  simp [rName, writecountName] at h2

theorem w_ne_rc (R : String) : wName R ≠ readcountName R := by
  intro h
  have h2 := congrArg String.data h
  simp [wName, readcountName] at h2

theorem w_ne_wc (R : String) : wName R ≠ writecountName R := by
  intro h
  have h2 := congrArg String.data h
  simp [wName, writecountName] at h2

theorem rc_ne_wc (R : String) : readcountName R ≠ writecountName R := by
  intro h
  have h2 := congrArg String.data h
  simp [readcountName, writecountName] at h2

/-! ## Behaviour of the primitive lock -/

/-- Against a store that does not change between polls (a run without
interference), the poll loop of `acquire_lock` succeeds exactly when the
key is absent — the denotation the decorator layer uses. -/
theorem acquire_lock_static (rs : RStore) (fuel : ℕ) (k id : String)
    (t : ℕ) :
    (acquire_lock (List.replicate (fuel + 1) rs) k id t).1 =
      if rs.store k = none then .ok id else .timedOut := by
  induction fuel with
  | zero =>
    by_cases h : rs.store k = none
    · simp [List.replicate, acquire_lock, h]
    · simp [List.replicate, acquire_lock, h]
  | succ n ih =>
    by_cases h : rs.store k = none
    · simp [List.replicate, acquire_lock, h]
    · rw [if_neg h]
      rw [List.replicate_succ]
      have h1 : (acquire_lock (rs :: List.replicate (n + 1) rs) k id t).1 =
          (acquire_lock (List.replicate (n + 1) rs) k id t).1 := by
        simp [acquire_lock, h]
      rw [h1, ih, if_neg h]

/-- The poll loop of `acquire_lock`: the result is the identifier exactly
when some poll before the deadline saw the key absent, and when every poll
saw it present the run returns `False` with one 1 ms sleep per poll. -/
theorem acquire_lock_spec (k id : String) (t : ℕ) :
    ∀ polls : List RStore,
      ((acquire_lock polls k id t).1 = .ok id ↔
        ∃ rs ∈ polls, rs.store k = none) ∧
      ((∀ rs ∈ polls, ¬ rs.store k = none) →
        (acquire_lock polls k id t).1 = .timedOut ∧
        (acquire_lock polls k id t).2.filter isSleep =
          List.replicate polls.length (.sleepMs 1)) := by
  intro polls
  induction polls with
  | nil =>
    constructor
    · simp [acquire_lock]
    · intro _
      simp [acquire_lock]
  | cons rs rest ih =>
    by_cases h : rs.store k = none
    · have hres : acquire_lock (rs :: rest) k id t =
          (.ok id, [.setnx true, .expire t]) := by
        simp [acquire_lock, h]
      constructor
      · rw [hres]
        constructor
        · intro _
          exact ⟨rs, List.mem_cons_self rs rest, h⟩
        · intro _
          rfl
      · intro hall
        exact absurd h (hall rs (List.mem_cons_self rs rest))
    · have h1 : (acquire_lock (rs :: rest) k id t).1 =
          (acquire_lock rest k id t).1 := by
        simp [acquire_lock, h]
      have h2 : (acquire_lock (rs :: rest) k id t).2 =
          (if ttlCmd rs k = 0 then
            [.setnx false, .ttlq (ttlCmd rs k), .expire t]
          else
            [.setnx false, .ttlq (ttlCmd rs k)]) ++
            .sleepMs 1 :: (acquire_lock rest k id t).2 := by
        simp [acquire_lock, h]
      constructor
      · rw [h1]
        constructor
        · intro hok
          obtain ⟨x, hx, hxn⟩ := (ih.1).mp hok
          exact ⟨x, List.mem_cons_of_mem _ hx, hxn⟩
        · rintro ⟨x, hx, hxn⟩
          rcases List.mem_cons.mp hx with heq | hx2
          · rw [heq] at hxn
            exact absurd hxn h
          · exact (ih.1).mpr ⟨x, hx2, hxn⟩
      · intro hall
        have hrest := ih.2 (fun x hx => hall x (List.mem_cons_of_mem _ hx))
        constructor
        · rw [h1]
          exact hrest.1
        · rw [h2, List.filter_append]
          by_cases ht : ttlCmd rs k = 0
          · rw [if_pos ht]
            simp [isSleep, hrest.2, List.replicate_succ]
          · rw [if_neg ht]
            simp [isSleep, hrest.2, List.replicate_succ]

/-! ## Unfolding lemmas for the scoped lock -/

theorem withLock_free {β : Type} (name tok : String) (b0 : β)
    (body : Store → Run β) (s : Store) (hfree : s name = none)
    (hkeep : (body (Function.update s name (some (.str tok)))).store name =
      some (.str tok)) :
    withLock name tok b0 body s =
      ⟨Function.update
          (body (Function.update s name (some (.str tok)))).store name none,
        .acq name tok true ::
          (body (Function.update s name (some (.str tok)))).trace ++
          [.rel name tok true],
        (body (Function.update s name (some (.str tok)))).val,
        (body (Function.update s name (some (.str tok)))).out⟩ := by
  unfold withLock
  rw [if_pos hfree, if_pos hkeep]

theorem withLock_busy {β : Type} (name tok : String) (b0 : β)
    (body : Store → Run β) (s : Store) (hbusy : ¬ s name = none) :
    withLock name tok b0 body s =
      ⟨s, [.acq name tok false], b0, .error (.couldNotAcquire name)⟩ := by
  unfold withLock
  rw [if_neg hbusy]

theorem withLock_lost {β : Type} (name tok : String) (b0 : β)
    (body : Store → Run β) (s : Store) (hfree : s name = none)
    (hlost : ¬ (body (Function.update s name (some (.str tok)))).store name =
      some (.str tok)) :
    withLock name tok b0 body s =
      ⟨(body (Function.update s name (some (.str tok)))).store,
        .acq name tok true ::
          (body (Function.update s name (some (.str tok)))).trace ++
          [.rel name tok false],
        (body (Function.update s name (some (.str tok)))).val,
        .error (.lockLost name)⟩ := by
  unfold withLock
  rw [if_pos hfree, if_neg hlost]

/-- Every event of a `withLock` run is an acquire/release of its own key or
an event of the body. -/
theorem trace_all_withLock {β : Type} (P : Ev → Prop) (name tok : String)
    (b0 : β) (body : Store → Run β) (s : Store)
    (hbody : ∀ s0, ∀ ev ∈ (body s0).trace, P ev)
    (hacq : ∀ b, P (.acq name tok b)) (hrel : ∀ b, P (.rel name tok b)) :
    ∀ ev ∈ (withLock name tok b0 body s).trace, P ev := by
  intro ev hev
  by_cases hfree : s name = none
  · by_cases hkeep : (body (Function.update s name (some (.str tok)))).store
        name = some (.str tok)
    · rw [withLock_free name tok b0 body s hfree hkeep] at hev
      simp only [List.mem_cons, List.mem_append, List.mem_singleton] at hev
      rcases hev with (rfl | hev) | (rfl | hev)
      · exact hacq true
      · exact hbody _ _ hev
      · exact hrel true
      · exact absurd hev (List.not_mem_nil ev)
    · rw [withLock_lost name tok b0 body s hfree hkeep] at hev
      simp only [List.mem_cons, List.mem_append, List.mem_singleton] at hev
      rcases hev with (rfl | hev) | (rfl | hev)
      · exact hacq true
      · exact hbody _ _ hev
      · exact hrel false
      · exact absurd hev (List.not_mem_nil ev)
  · rw [withLock_busy name tok b0 body s hfree] at hev
    simp only [List.mem_singleton] at hev
    rw [hev]
    exact hacq false

theorem trace_all_readerEntry (P : Ev → Prop) (R t3 tr t1 : String)
    (s : Store)
    (h3a : ∀ b, P (.acq (mutex3Name R) t3 b))
    (h3r : ∀ b, P (.rel (mutex3Name R) t3 b))
    (hra : ∀ b, P (.acq (rName R) tr b))
    (hrr : ∀ b, P (.rel (rName R) tr b))
    (h1a : ∀ b, P (.acq (mutex1Name R) t1 b))
    (h1r : ∀ b, P (.rel (mutex1Name R) t1 b))
    (hinc : ∀ n, P (.incr (readcountName R) n))
    (hwa : ∀ b, P (.acq (wName R) WRITELOCK_ID b)) :
    ∀ ev ∈ (readerEntry R t3 tr t1 s).trace, P ev := by
  unfold readerEntry
  refine trace_all_withLock P _ _ _ _ _ ?_ h3a h3r
  intro s0
  refine trace_all_withLock P _ _ _ _ _ ?_ hra hrr
  intro s1
  refine trace_all_withLock P _ _ _ _ _ ?_ h1a h1r
  intro s2 ev hev
  dsimp only at hev
  split at hev
  · split at hev
    · simp only [List.mem_cons, List.not_mem_nil, or_false] at hev
      rcases hev with rfl | rfl
      · exact hinc _
      · exact hwa true
    · simp only [List.mem_cons, List.not_mem_nil, or_false] at hev
      rcases hev with rfl | rfl
      · exact hinc _
      · exact hwa false
  · simp only [List.mem_cons, List.not_mem_nil, or_false] at hev
    rw [hev]
    exact hinc _

theorem trace_all_readerExitWarn (P : Ev → Prop) (R te : String) (s : Store)
    (h1a : ∀ b, P (.acq (mutex1Name R) te b))
    (h1r : ∀ b, P (.rel (mutex1Name R) te b))
    (hdec : ∀ n, P (.decr (readcountName R) n))
    (hwr : ∀ b, P (.rel (wName R) WRITELOCK_ID b))
    (hwarn : P (.warn (wName R))) :
    ∀ ev ∈ (readerExitWarn R te s).trace, P ev := by
  unfold readerExitWarn
  refine trace_all_withLock P _ _ _ _ _ ?_ h1a h1r
  intro s0 ev hev
  dsimp only at hev
  split at hev
  · split at hev
    · simp only [List.mem_cons, List.not_mem_nil, or_false] at hev
      rcases hev with rfl | rfl
      · exact hdec _
      · exact hwr true
    · simp only [List.mem_cons, List.not_mem_nil, or_false] at hev
      rcases hev with rfl | rfl | rfl
      · exact hdec _
      · exact hwr false
      · exact hwarn
  · simp only [List.mem_cons, List.not_mem_nil, or_false] at hev
    rw [hev]
    exact hdec _

theorem trace_all_readerExitRaise (P : Ev → Prop) (R te : String) (s : Store)
    (h1a : ∀ b, P (.acq (mutex1Name R) te b))
    (h1r : ∀ b, P (.rel (mutex1Name R) te b))
    (hdec : ∀ n, P (.decr (readcountName R) n))
    (hwr : ∀ b, P (.rel (wName R) WRITELOCK_ID b)) :
    ∀ ev ∈ (readerExitRaise R te s).trace, P ev := by
  unfold readerExitRaise
  refine trace_all_withLock P _ _ _ _ _ ?_ h1a h1r
  intro s0 ev hev
  dsimp only at hev
  split at hev
  · split at hev
    · simp only [List.mem_cons, List.not_mem_nil, or_false] at hev
      rcases hev with rfl | rfl
      · exact hdec _
      · exact hwr true
    · simp only [List.mem_cons, List.not_mem_nil, or_false] at hev
      rcases hev with rfl | rfl
      · exact hdec _
      · exact hwr false
  · simp only [List.mem_cons, List.not_mem_nil, or_false] at hev
    rw [hev]
    exact hdec _

theorem trace_all_writerEntry (P : Ev → Prop) (R t2 : String) (s : Store)
    (h2a : ∀ b, P (.acq (mutex2Name R) t2 b))
    (h2r : ∀ b, P (.rel (mutex2Name R) t2 b))
    (hinc : ∀ n, P (.incr (writecountName R) n))
    (hra : ∀ b, P (.acq (rName R) READLOCK_ID b)) :
    ∀ ev ∈ (writerEntry R t2 s).trace, P ev := by
  unfold writerEntry
  refine trace_all_withLock P _ _ _ _ _ ?_ h2a h2r
  intro s0 ev hev
  dsimp only at hev
  split at hev
  · split at hev
    · simp only [List.mem_cons, List.not_mem_nil, or_false] at hev
      rcases hev with rfl | rfl
      · exact hinc _
      · exact hra true
    · simp only [List.mem_cons, List.not_mem_nil, or_false] at hev
      rcases hev with rfl | rfl
      · exact hinc _
      · exact hra false
  · simp only [List.mem_cons, List.not_mem_nil, or_false] at hev
    rw [hev]
    exact hinc _

theorem trace_all_writerExitWarn (P : Ev → Prop) (R te : String) (s : Store)
    (h2a : ∀ b, P (.acq (mutex2Name R) te b))
    (h2r : ∀ b, P (.rel (mutex2Name R) te b))
    (hdec : ∀ n, P (.decr (writecountName R) n))
    (hrr : ∀ b, P (.rel (rName R) READLOCK_ID b))
    (hwarn : P (.warn (rName R))) :
    ∀ ev ∈ (writerExitWarn R te s).trace, P ev := by
  unfold writerExitWarn
  refine trace_all_withLock P _ _ _ _ _ ?_ h2a h2r
  intro s0 ev hev
  dsimp only at hev
  split at hev
  · split at hev
    · simp only [List.mem_cons, List.not_mem_nil, or_false] at hev
      rcases hev with rfl | rfl
      · exact hdec _
      · exact hrr true
    · simp only [List.mem_cons, List.not_mem_nil, or_false] at hev
      rcases hev with rfl | rfl | rfl
      · exact hdec _
      · exact hrr false
      · exact hwarn
  · simp only [List.mem_cons, List.not_mem_nil, or_false] at hev
    rw [hev]
    exact hdec _

theorem trace_all_writerExitRaise (P : Ev → Prop) (R te : String) (s : Store)
    (h2a : ∀ b, P (.acq (mutex2Name R) te b))
    (h2r : ∀ b, P (.rel (mutex2Name R) te b))
    (hdec : ∀ n, P (.decr (writecountName R) n))
    (hrr : ∀ b, P (.rel (rName R) READLOCK_ID b)) :
    ∀ ev ∈ (writerExitRaise R te s).trace, P ev := by
  unfold writerExitRaise
  refine trace_all_withLock P _ _ _ _ _ ?_ h2a h2r
  intro s0 ev hev
  dsimp only at hev
  split at hev
  · split at hev
    · simp only [List.mem_cons, List.not_mem_nil, or_false] at hev
      rcases hev with rfl | rfl
      · exact hdec _
      · exact hrr true
    · simp only [List.mem_cons, List.not_mem_nil, or_false] at hev
      rcases hev with rfl | rfl
      · exact hdec _
      · exact hrr false
  · simp only [List.mem_cons, List.not_mem_nil, or_false] at hev
    rw [hev]
    exact hdec _

theorem trace_all_lockingReader (P : Ev → Prop) (R t3 tr t1 te : String)
    (s : Store)
    (hentry : ∀ s0, ∀ ev ∈ (readerEntry R t3 tr t1 s0).trace, P ev)
    (hexit : ∀ s0, ∀ ev ∈ (readerExitWarn R te s0).trace, P ev)
    (hcs : P .cs) :
    ∀ ev ∈ (lockingReader R t3 tr t1 te s).trace, P ev := by
  intro ev hev
  unfold lockingReader at hev
  dsimp only at hev
  rcases hout : (readerEntry R t3 tr t1 s).out with u | err
  · rw [hout] at hev
    dsimp only at hev
    split at hev
    · simp only [List.mem_append] at hev
      rcases hev with hev | hev
      · exact hentry s ev hev
      · exact hexit _ ev hev
    · exact hentry s ev hev
  · rw [hout] at hev
    dsimp only at hev
    simp only [List.mem_append, List.mem_cons] at hev
    rcases hev with hev | rfl | hev
    · exact hentry s ev hev
    · exact hcs
    · exact hexit _ ev hev

theorem trace_all_lockingWriter (P : Ev → Prop) (R t2 tw te : String)
    (s : Store)
    (hentry : ∀ s0, ∀ ev ∈ (writerEntry R t2 s0).trace, P ev)
    (hexit : ∀ s0, ∀ ev ∈ (writerExitWarn R te s0).trace, P ev)
    (hwa : ∀ b, P (.acq (wName R) tw b)) (hwr : ∀ b, P (.rel (wName R) tw b))
    (hcs : P .cs) :
    ∀ ev ∈ (lockingWriter R t2 tw te s).trace, P ev := by
  intro ev hev
  unfold lockingWriter at hev
  dsimp only at hev
  rcases hout : (writerEntry R t2 s).out with u | err
  · rw [hout] at hev
    dsimp only at hev
    split at hev
    · simp only [List.mem_append] at hev
      rcases hev with hev | hev
      · exact hentry s ev hev
      · exact hexit _ ev hev
    · exact hentry s ev hev
  · rw [hout] at hev
    dsimp only at hev
    simp only [List.mem_append] at hev
    rcases hev with (hev | hev) | hev
    · exact hentry s ev hev
    · refine trace_all_withLock P (wName R) tw () _ _ ?_ hwa hwr ev hev
      intro s0 ev2 hev2
      simp only [List.mem_cons, List.not_mem_nil, or_false] at hev2
      rw [hev2]
      exact hcs
    · exact hexit _ ev hev

/-! ## Characterisation of the decorator runs -/

theorem counterVal_update_ne (s : Store) (k q : String) (v : Option Val)
    (h : q ≠ k) : counterVal (Function.update s k v) q = counterVal s q := by
  unfold counterVal
  rw [Function.update_noteq h]

theorem counterVal_update_int (s : Store) (k : String) (n : Int) :
    counterVal (Function.update s k (some (.int n))) k = n := by
  unfold counterVal
  rw [Function.update_same]

/-- A successful reader entry: the acquisition order mutex3, r, mutex1, the
increment, the conditional cohort acquire of `w`, and the releases in
reverse order. -/
theorem readerEntry_ok (R t3 tr t1 : String) (s : Store)
    (h3 : s (mutex3Name R) = none) (hr : s (rName R) = none)
    (h1 : s (mutex1Name R) = none)
    (hgate : counterVal s (readcountName R) + 1 = 1 → s (wName R) = none) :
    (readerEntry R t3 tr t1 s).out = .ok () ∧
    (readerEntry R t3 tr t1 s).val = true ∧
    (readerEntry R t3 tr t1 s).trace =
      [.acq (mutex3Name R) t3 true, .acq (rName R) tr true,
       .acq (mutex1Name R) t1 true,
       .incr (readcountName R) (counterVal s (readcountName R) + 1)] ++
      (if counterVal s (readcountName R) + 1 = 1 then
        [Ev.acq (wName R) WRITELOCK_ID true] else []) ++
      [.rel (mutex1Name R) t1 true, .rel (rName R) tr true,
       .rel (mutex3Name R) t3 true] ∧
    (readerEntry R t3 tr t1 s).store (mutex3Name R) = none ∧
    (readerEntry R t3 tr t1 s).store (rName R) = none ∧
    (readerEntry R t3 tr t1 s).store (mutex1Name R) = none ∧
    (readerEntry R t3 tr t1 s).store (readcountName R) =
      some (.int (counterVal s (readcountName R) + 1)) ∧
    (readerEntry R t3 tr t1 s).store (wName R) =
      (if counterVal s (readcountName R) + 1 = 1 then
        some (.str WRITELOCK_ID) else s (wName R)) ∧
    (∀ q, q ≠ mutex3Name R → q ≠ rName R → q ≠ mutex1Name R →
      q ≠ readcountName R → q ≠ wName R →
      (readerEntry R t3 tr t1 s).store q = s q) := by
  by_cases hn : counterVal s (readcountName R) + 1 = 1
  · have hw := hgate hn
    have hframe : ∀ q, q ≠ mutex3Name R → q ≠ rName R → q ≠ mutex1Name R →
        q ≠ readcountName R → q ≠ wName R →
        (readerEntry R t3 tr t1 s).store q = s q := by
      intro q hq3 hqr hq1 hqrc hqw
      simp [readerEntry, withLock, hn, h3, hr, h1, hw,
        counterVal_update_ne, counterVal_update_int,
        Function.update_same, Function.update_noteq, hq3, hqr, hq1, hqrc, hqw,
        m1_ne_m3 R, (m1_ne_m3 R).symm, m1_ne_r R, (m1_ne_r R).symm,
        m1_ne_w R, (m1_ne_w R).symm, m1_ne_rc R, (m1_ne_rc R).symm,
        m3_ne_r R, (m3_ne_r R).symm, m3_ne_w R, (m3_ne_w R).symm,
        m3_ne_rc R, (m3_ne_rc R).symm, r_ne_w R, (r_ne_w R).symm,
        r_ne_rc R, (r_ne_rc R).symm, w_ne_rc R, (w_ne_rc R).symm]
    refine ⟨?_, ?_, ?_, ?_, ?_, ?_, ?_, ?_, hframe⟩
    all_goals
      simp [readerEntry, withLock, hn, h3, hr, h1, hw,
        counterVal_update_ne, counterVal_update_int,
        Function.update_same, Function.update_noteq,
        m1_ne_m3 R, (m1_ne_m3 R).symm, m1_ne_r R, (m1_ne_r R).symm,
        m1_ne_w R, (m1_ne_w R).symm, m1_ne_rc R, (m1_ne_rc R).symm,
        m3_ne_r R, (m3_ne_r R).symm, m3_ne_w R, (m3_ne_w R).symm,
        m3_ne_rc R, (m3_ne_rc R).symm, r_ne_w R, (r_ne_w R).symm,
        r_ne_rc R, (r_ne_rc R).symm, w_ne_rc R, (w_ne_rc R).symm]
  · have hframe : ∀ q, q ≠ mutex3Name R → q ≠ rName R → q ≠ mutex1Name R →
        q ≠ readcountName R → q ≠ wName R →
        (readerEntry R t3 tr t1 s).store q = s q := by
      intro q hq3 hqr hq1 hqrc hqw
      simp [readerEntry, withLock, hn, h3, hr, h1,
        counterVal_update_ne, counterVal_update_int,
        Function.update_same, Function.update_noteq, hq3, hqr, hq1, hqrc, hqw,
        m1_ne_m3 R, (m1_ne_m3 R).symm, m1_ne_r R, (m1_ne_r R).symm,
        m1_ne_w R, (m1_ne_w R).symm, m1_ne_rc R, (m1_ne_rc R).symm,
        m3_ne_r R, (m3_ne_r R).symm, m3_ne_w R, (m3_ne_w R).symm,
        m3_ne_rc R, (m3_ne_rc R).symm, r_ne_w R, (r_ne_w R).symm,
        r_ne_rc R, (r_ne_rc R).symm, w_ne_rc R, (w_ne_rc R).symm]
    refine ⟨?_, ?_, ?_, ?_, ?_, ?_, ?_, ?_, hframe⟩
    all_goals
      simp [readerEntry, withLock, hn, h3, hr, h1,
        counterVal_update_ne, counterVal_update_int,
        Function.update_same, Function.update_noteq,
        m1_ne_m3 R, (m1_ne_m3 R).symm, m1_ne_r R, (m1_ne_r R).symm,
        m1_ne_w R, (m1_ne_w R).symm, m1_ne_rc R, (m1_ne_rc R).symm,
        m3_ne_r R, (m3_ne_r R).symm, m3_ne_w R, (m3_ne_w R).symm,
        m3_ne_rc R, (m3_ne_rc R).symm, r_ne_w R, (r_ne_w R).symm,
        r_ne_rc R, (r_ne_rc R).symm, w_ne_rc R, (w_ne_rc R).symm]

/-- Reader entry when this is the first reader but the write gate is held:
the increment happens, the cohort acquire of `w` fails, the error is
raised, and the nested scoped locks unwind. -/
theorem readerEntry_gateFail (R t3 tr t1 : String) (s : Store)
    (h3 : s (mutex3Name R) = none) (hr : s (rName R) = none)
    (h1 : s (mutex1Name R) = none)
    (hn : counterVal s (readcountName R) + 1 = 1)
    (hwb : ¬ s (wName R) = none) :
    (readerEntry R t3 tr t1 s).out =
      .error (.couldNotAcquire (wName R)) ∧
    (readerEntry R t3 tr t1 s).val = true ∧
    (readerEntry R t3 tr t1 s).trace =
      [.acq (mutex3Name R) t3 true, .acq (rName R) tr true,
       .acq (mutex1Name R) t1 true,
       .incr (readcountName R) (counterVal s (readcountName R) + 1),
       .acq (wName R) WRITELOCK_ID false,
       .rel (mutex1Name R) t1 true, .rel (rName R) tr true,
       .rel (mutex3Name R) t3 true] ∧
    (readerEntry R t3 tr t1 s).store (mutex3Name R) = none ∧
    (readerEntry R t3 tr t1 s).store (rName R) = none ∧
    (readerEntry R t3 tr t1 s).store (mutex1Name R) = none ∧
    (readerEntry R t3 tr t1 s).store (readcountName R) =
      some (.int (counterVal s (readcountName R) + 1)) ∧
    (readerEntry R t3 tr t1 s).store (wName R) = s (wName R) ∧
    (∀ q, q ≠ mutex3Name R → q ≠ rName R → q ≠ mutex1Name R →
      q ≠ readcountName R →
      (readerEntry R t3 tr t1 s).store q = s q) := by
  have hframe : ∀ q, q ≠ mutex3Name R → q ≠ rName R → q ≠ mutex1Name R →
      q ≠ readcountName R →
      (readerEntry R t3 tr t1 s).store q = s q := by
    intro q hq3 hqr hq1 hqrc
    simp [readerEntry, withLock, hn, h3, hr, h1, hwb,
      counterVal_update_ne, counterVal_update_int,
      Function.update_same, Function.update_noteq, hq3, hqr, hq1, hqrc,
      m1_ne_m3 R, (m1_ne_m3 R).symm, m1_ne_r R, (m1_ne_r R).symm,
      m1_ne_w R, (m1_ne_w R).symm, m1_ne_rc R, (m1_ne_rc R).symm,
      m3_ne_r R, (m3_ne_r R).symm, m3_ne_w R, (m3_ne_w R).symm,
      m3_ne_rc R, (m3_ne_rc R).symm, r_ne_w R, (r_ne_w R).symm,
      r_ne_rc R, (r_ne_rc R).symm, w_ne_rc R, (w_ne_rc R).symm]
  refine ⟨?_, ?_, ?_, ?_, ?_, ?_, ?_, ?_, hframe⟩
  all_goals
    simp [readerEntry, withLock, hn, h3, hr, h1, hwb,
      counterVal_update_ne, counterVal_update_int,
      Function.update_same, Function.update_noteq,
      m1_ne_m3 R, (m1_ne_m3 R).symm, m1_ne_r R, (m1_ne_r R).symm,
      m1_ne_w R, (m1_ne_w R).symm, m1_ne_rc R, (m1_ne_rc R).symm,
      m3_ne_r R, (m3_ne_r R).symm, m3_ne_w R, (m3_ne_w R).symm,
      m3_ne_rc R, (m3_ne_rc R).symm, r_ne_w R, (r_ne_w R).symm,
      r_ne_rc R, (r_ne_rc R).symm, w_ne_rc R, (w_ne_rc R).symm]

/-- Reader entry when `mutex3` is busy: immediate typed failure, nothing
touched. -/
theorem readerEntry_busy3 (R t3 tr t1 : String) (s : Store)
    (hb3 : ¬ s (mutex3Name R) = none) :
    readerEntry R t3 tr t1 s =
      ⟨s, [.acq (mutex3Name R) t3 false], false,
        .error (.couldNotAcquire (mutex3Name R))⟩ := by
  unfold readerEntry
  exact withLock_busy _ _ _ _ _ hb3

/-- Reader entry when the read gate `r` is busy (a writer epoch is in
progress): the entry fails after mutex3, and the store is unchanged. -/
theorem readerEntry_busyR (R t3 tr t1 : String) (s : Store)
    (h3 : s (mutex3Name R) = none) (hbr : ¬ s (rName R) = none) :
    (readerEntry R t3 tr t1 s).out = .error (.couldNotAcquire (rName R)) ∧
    (readerEntry R t3 tr t1 s).val = false ∧
    (readerEntry R t3 tr t1 s).trace =
      [.acq (mutex3Name R) t3 true, .acq (rName R) tr false,
       .rel (mutex3Name R) t3 true] ∧
    (∀ q, (readerEntry R t3 tr t1 s).store q = s q) := by
  have hframe : ∀ q, (readerEntry R t3 tr t1 s).store q = s q := by
    intro q
    by_cases hq3 : q = mutex3Name R
    · rw [hq3]
      simp [readerEntry, withLock, h3, hbr,
        Function.update_same, Function.update_noteq,
        m3_ne_r R, (m3_ne_r R).symm]
    · simp [readerEntry, withLock, h3, hbr,
        Function.update_same, Function.update_noteq, hq3,
        m3_ne_r R, (m3_ne_r R).symm]
  refine ⟨?_, ?_, ?_, hframe⟩
  all_goals
    simp [readerEntry, withLock, h3, hbr,
      Function.update_same, Function.update_noteq,
      m3_ne_r R, (m3_ne_r R).symm]

/-- Reader entry when `mutex1` is busy: the entry fails after mutex3 and
r, and the store is unchanged. -/
theorem readerEntry_busy1 (R t3 tr t1 : String) (s : Store)
    (h3 : s (mutex3Name R) = none) (hr : s (rName R) = none)
    (hb1 : ¬ s (mutex1Name R) = none) :
    (readerEntry R t3 tr t1 s).out =
      .error (.couldNotAcquire (mutex1Name R)) ∧
    (readerEntry R t3 tr t1 s).val = false ∧
    (readerEntry R t3 tr t1 s).trace =
      [.acq (mutex3Name R) t3 true, .acq (rName R) tr true,
       .acq (mutex1Name R) t1 false,
       .rel (rName R) tr true, .rel (mutex3Name R) t3 true] ∧
    (∀ q, (readerEntry R t3 tr t1 s).store q = s q) := by
  have hframe : ∀ q, (readerEntry R t3 tr t1 s).store q = s q := by
    intro q
    by_cases hq3 : q = mutex3Name R
    · rw [hq3]
      simp [readerEntry, withLock, h3, hr, hb1,
        Function.update_same, Function.update_noteq,
        m1_ne_m3 R, (m1_ne_m3 R).symm, m1_ne_r R, (m1_ne_r R).symm,
        m3_ne_r R, (m3_ne_r R).symm]
    · by_cases hqr : q = rName R
      · rw [hqr]
        simp [readerEntry, withLock, h3, hr, hb1,
          Function.update_same, Function.update_noteq,
          m1_ne_m3 R, (m1_ne_m3 R).symm, m1_ne_r R, (m1_ne_r R).symm,
          m3_ne_r R, (m3_ne_r R).symm]
      · simp [readerEntry, withLock, h3, hr, hb1,
          Function.update_same, Function.update_noteq, hq3, hqr,
          m1_ne_m3 R, (m1_ne_m3 R).symm, m1_ne_r R, (m1_ne_r R).symm,
          m3_ne_r R, (m3_ne_r R).symm]
  refine ⟨?_, ?_, ?_, hframe⟩
  all_goals
    simp [readerEntry, withLock, h3, hr, hb1,
      Function.update_same, Function.update_noteq,
      m1_ne_m3 R, (m1_ne_m3 R).symm, m1_ne_r R, (m1_ne_r R).symm,
      m3_ne_r R, (m3_ne_r R).symm]

/-- Reader exit when other readers remain: decrement only. -/
theorem readerExitWarn_notLast (R te : String) (s : Store)
    (h1 : s (mutex1Name R) = none)
    (hn0 : ¬ counterVal s (readcountName R) - 1 = 0) :
    (readerExitWarn R te s).out = .ok () ∧
    (readerExitWarn R te s).trace =
      [.acq (mutex1Name R) te true,
       .decr (readcountName R) (counterVal s (readcountName R) - 1),
       .rel (mutex1Name R) te true] ∧
    (readerExitWarn R te s).store (mutex1Name R) = none ∧
    (readerExitWarn R te s).store (readcountName R) =
      some (.int (counterVal s (readcountName R) - 1)) ∧
    (∀ q, q ≠ mutex1Name R → q ≠ readcountName R →
      (readerExitWarn R te s).store q = s q) := by
  have hframe : ∀ q, q ≠ mutex1Name R → q ≠ readcountName R →
      (readerExitWarn R te s).store q = s q := by
    intro q hq1 hqrc
    simp [readerExitWarn, withLock, h1, hn0,
      counterVal_update_ne, counterVal_update_int,
      Function.update_same, Function.update_noteq, hq1, hqrc,
      m1_ne_rc R, (m1_ne_rc R).symm]
  refine ⟨?_, ?_, ?_, ?_, hframe⟩
  all_goals
    simp [readerExitWarn, withLock, h1, hn0,
      counterVal_update_ne, counterVal_update_int,
      Function.update_same, Function.update_noteq,
      m1_ne_rc R, (m1_ne_rc R).symm]

/-- Reader exit of the last reader while the cohort gate is still held:
the gate is released with the readers' token. -/
theorem readerExitWarn_lastHeld (R te : String) (s : Store)
    (h1 : s (mutex1Name R) = none)
    (hn0 : counterVal s (readcountName R) - 1 = 0)
    (hwv : s (wName R) = some (.str WRITELOCK_ID)) :
    (readerExitWarn R te s).out = .ok () ∧
    (readerExitWarn R te s).trace =
      [.acq (mutex1Name R) te true,
       .decr (readcountName R) (counterVal s (readcountName R) - 1),
       .rel (wName R) WRITELOCK_ID true,
       .rel (mutex1Name R) te true] ∧
    (readerExitWarn R te s).store (mutex1Name R) = none ∧
    (readerExitWarn R te s).store (readcountName R) =
      some (.int (counterVal s (readcountName R) - 1)) ∧
    (readerExitWarn R te s).store (wName R) = none ∧
    (∀ q, q ≠ mutex1Name R → q ≠ readcountName R → q ≠ wName R →
      (readerExitWarn R te s).store q = s q) := by
  have hframe : ∀ q, q ≠ mutex1Name R → q ≠ readcountName R → q ≠ wName R →
      (readerExitWarn R te s).store q = s q := by
    intro q hq1 hqrc hqw
    simp [readerExitWarn, withLock, h1, hn0, hwv,
      counterVal_update_ne, counterVal_update_int,
      Function.update_same, Function.update_noteq, hq1, hqrc, hqw,
      m1_ne_rc R, (m1_ne_rc R).symm, m1_ne_w R, (m1_ne_w R).symm,
      w_ne_rc R, (w_ne_rc R).symm]
  refine ⟨?_, ?_, ?_, ?_, ?_, hframe⟩
  all_goals
    simp [readerExitWarn, withLock, h1, hn0, hwv,
      counterVal_update_ne, counterVal_update_int,
      Function.update_same, Function.update_noteq,
      m1_ne_rc R, (m1_ne_rc R).symm, m1_ne_w R, (m1_ne_w R).symm,
      w_ne_rc R, (w_ne_rc R).symm]

/-- Reader exit of the last reader when the cohort gate was lost: the
release returns false, a warning is printed and no error is raised
(locking.py lines 125-133). -/
theorem readerExitWarn_lastLost (R te : String) (s : Store)
    (h1 : s (mutex1Name R) = none)
    (hn0 : counterVal s (readcountName R) - 1 = 0)
    (hwv : ¬ s (wName R) = some (.str WRITELOCK_ID)) :
    (readerExitWarn R te s).out = .ok () ∧
    (readerExitWarn R te s).trace =
      [.acq (mutex1Name R) te true,
       .decr (readcountName R) (counterVal s (readcountName R) - 1),
       .rel (wName R) WRITELOCK_ID false,
       .warn (wName R),
       .rel (mutex1Name R) te true] ∧
    (readerExitWarn R te s).store (mutex1Name R) = none ∧
    (readerExitWarn R te s).store (readcountName R) =
      some (.int (counterVal s (readcountName R) - 1)) ∧
    (readerExitWarn R te s).store (wName R) = s (wName R) ∧
    (∀ q, q ≠ mutex1Name R → q ≠ readcountName R →
      (readerExitWarn R te s).store q = s q) := by
  have hframe : ∀ q, q ≠ mutex1Name R → q ≠ readcountName R →
      (readerExitWarn R te s).store q = s q := by
    intro q hq1 hqrc
    simp [readerExitWarn, withLock, h1, hn0, hwv,
      counterVal_update_ne, counterVal_update_int,
      Function.update_same, Function.update_noteq, hq1, hqrc,
      m1_ne_rc R, (m1_ne_rc R).symm, m1_ne_w R, (m1_ne_w R).symm,
      w_ne_rc R, (w_ne_rc R).symm]
  refine ⟨?_, ?_, ?_, ?_, ?_, hframe⟩
  all_goals
    simp [readerExitWarn, withLock, h1, hn0, hwv,
      counterVal_update_ne, counterVal_update_int,
      Function.update_same, Function.update_noteq,
      m1_ne_rc R, (m1_ne_rc R).symm, m1_ne_w R, (m1_ne_w R).symm,
      w_ne_rc R, (w_ne_rc R).symm]

/-- The h5pyswmr reader exit in the same lost-gate situation raises
`LockException` instead of warning (h5pyswmr.py lines 78-81). -/
theorem readerExitRaise_lastLost (R te : String) (s : Store)
    (h1 : s (mutex1Name R) = none)
    (hn0 : counterVal s (readcountName R) - 1 = 0)
    (hwv : ¬ s (wName R) = some (.str WRITELOCK_ID)) :
    (readerExitRaise R te s).out = .error (.lockLost (wName R)) ∧
    (readerExitRaise R te s).trace =
      [.acq (mutex1Name R) te true,
       .decr (readcountName R) (counterVal s (readcountName R) - 1),
       .rel (wName R) WRITELOCK_ID false,
       .rel (mutex1Name R) te true] ∧
    (readerExitRaise R te s).store (readcountName R) =
      some (.int (counterVal s (readcountName R) - 1)) := by
  refine ⟨?_, ?_, ?_⟩
  all_goals
    simp [readerExitRaise, withLock, h1, hn0, hwv,
      counterVal_update_ne, counterVal_update_int,
      Function.update_same, Function.update_noteq,
      m1_ne_rc R, (m1_ne_rc R).symm, m1_ne_w R, (m1_ne_w R).symm,
      w_ne_rc R, (w_ne_rc R).symm]

/-- A successful writer entry: mutex2, the increment, the conditional
cohort acquire of `r`, and the release of mutex2. -/
theorem writerEntry_ok (R t2 : String) (s : Store)
    (h2 : s (mutex2Name R) = none)
    (hgate : counterVal s (writecountName R) + 1 = 1 → s (rName R) = none) :
    (writerEntry R t2 s).out = .ok () ∧
    (writerEntry R t2 s).val = true ∧
    (writerEntry R t2 s).trace =
      [.acq (mutex2Name R) t2 true,
       .incr (writecountName R) (counterVal s (writecountName R) + 1)] ++
      (if counterVal s (writecountName R) + 1 = 1 then
        [Ev.acq (rName R) READLOCK_ID true] else []) ++
      [.rel (mutex2Name R) t2 true] ∧
    (writerEntry R t2 s).store (mutex2Name R) = none ∧
    (writerEntry R t2 s).store (writecountName R) =
      some (.int (counterVal s (writecountName R) + 1)) ∧
    (writerEntry R t2 s).store (rName R) =
      (if counterVal s (writecountName R) + 1 = 1 then
        some (.str READLOCK_ID) else s (rName R)) ∧
    (∀ q, q ≠ mutex2Name R → q ≠ writecountName R → q ≠ rName R →
      (writerEntry R t2 s).store q = s q) := by
  by_cases hn : counterVal s (writecountName R) + 1 = 1
  · have hrg := hgate hn
    have hframe : ∀ q, q ≠ mutex2Name R → q ≠ writecountName R →
        q ≠ rName R → (writerEntry R t2 s).store q = s q := by
      intro q hq2 hqwc hqr
      simp [writerEntry, withLock, hn, h2, hrg,
        counterVal_update_ne, counterVal_update_int,
        Function.update_same, Function.update_noteq, hq2, hqwc, hqr,
        m2_ne_r R, (m2_ne_r R).symm, m2_ne_w R, (m2_ne_w R).symm,
        m2_ne_wc R, (m2_ne_wc R).symm, r_ne_w R, (r_ne_w R).symm,
        r_ne_wc R, (r_ne_wc R).symm, w_ne_wc R, (w_ne_wc R).symm]
    refine ⟨?_, ?_, ?_, ?_, ?_, ?_, hframe⟩
    all_goals
      simp [writerEntry, withLock, hn, h2, hrg,
        counterVal_update_ne, counterVal_update_int,
        Function.update_same, Function.update_noteq,
        m2_ne_r R, (m2_ne_r R).symm, m2_ne_w R, (m2_ne_w R).symm,
        m2_ne_wc R, (m2_ne_wc R).symm, r_ne_w R, (r_ne_w R).symm,
        r_ne_wc R, (r_ne_wc R).symm, w_ne_wc R, (w_ne_wc R).symm]
  · have hframe : ∀ q, q ≠ mutex2Name R → q ≠ writecountName R →
        q ≠ rName R → (writerEntry R t2 s).store q = s q := by
      intro q hq2 hqwc hqr
      simp [writerEntry, withLock, hn, h2,
        counterVal_update_ne, counterVal_update_int,
        Function.update_same, Function.update_noteq, hq2, hqwc, hqr,
        m2_ne_r R, (m2_ne_r R).symm, m2_ne_w R, (m2_ne_w R).symm,
        m2_ne_wc R, (m2_ne_wc R).symm, r_ne_w R, (r_ne_w R).symm,
        r_ne_wc R, (r_ne_wc R).symm, w_ne_wc R, (w_ne_wc R).symm]
    refine ⟨?_, ?_, ?_, ?_, ?_, ?_, hframe⟩
    all_goals
      simp [writerEntry, withLock, hn, h2,
        counterVal_update_ne, counterVal_update_int,
        Function.update_same, Function.update_noteq,
        m2_ne_r R, (m2_ne_r R).symm, m2_ne_w R, (m2_ne_w R).symm,
        m2_ne_wc R, (m2_ne_wc R).symm, r_ne_w R, (r_ne_w R).symm,
        r_ne_wc R, (r_ne_wc R).symm, w_ne_wc R, (w_ne_wc R).symm]

/-- Writer entry when `mutex2` is busy: immediate typed failure. -/
theorem writerEntry_busy2 (R t2 : String) (s : Store)
    (hb2 : ¬ s (mutex2Name R) = none) :
    writerEntry R t2 s =
      ⟨s, [.acq (mutex2Name R) t2 false], false,
        .error (.couldNotAcquire (mutex2Name R))⟩ := by
  unfold writerEntry
  exact withLock_busy _ _ _ _ _ hb2

/-- Writer entry of the first writer when the read gate is held by someone
else: the increment happens, the cohort acquire of `r` fails, the typed
error is raised and mutex2 unwinds. -/
theorem writerEntry_rFail (R t2 : String) (s : Store)
    (h2 : s (mutex2Name R) = none)
    (hn : counterVal s (writecountName R) + 1 = 1)
    (hbr : ¬ s (rName R) = none) :
    (writerEntry R t2 s).out = .error (.couldNotAcquire (rName R)) ∧
    (writerEntry R t2 s).val = true ∧
    (writerEntry R t2 s).trace =
      [.acq (mutex2Name R) t2 true,
       .incr (writecountName R) (counterVal s (writecountName R) + 1),
       .acq (rName R) READLOCK_ID false,
       .rel (mutex2Name R) t2 true] ∧
    (writerEntry R t2 s).store (mutex2Name R) = none ∧
    (writerEntry R t2 s).store (writecountName R) =
      some (.int (counterVal s (writecountName R) + 1)) ∧
    (writerEntry R t2 s).store (rName R) = s (rName R) ∧
    (∀ q, q ≠ mutex2Name R → q ≠ writecountName R →
      (writerEntry R t2 s).store q = s q) := by
  have hframe : ∀ q, q ≠ mutex2Name R → q ≠ writecountName R →
      (writerEntry R t2 s).store q = s q := by
    intro q hq2 hqwc
    simp [writerEntry, withLock, hn, h2, hbr,
      counterVal_update_ne, counterVal_update_int,
      Function.update_same, Function.update_noteq, hq2, hqwc,
      m2_ne_r R, (m2_ne_r R).symm, m2_ne_wc R, (m2_ne_wc R).symm,
      r_ne_wc R, (r_ne_wc R).symm]
  refine ⟨?_, ?_, ?_, ?_, ?_, ?_, hframe⟩
  all_goals
    simp [writerEntry, withLock, hn, h2, hbr,
      counterVal_update_ne, counterVal_update_int,
      Function.update_same, Function.update_noteq,
      m2_ne_r R, (m2_ne_r R).symm, m2_ne_wc R, (m2_ne_wc R).symm,
      r_ne_wc R, (r_ne_wc R).symm]

/-- Writer exit when other writers remain: decrement only. -/
theorem writerExitWarn_notLast (R te : String) (s : Store)
    (h2 : s (mutex2Name R) = none)
    (hn0 : ¬ counterVal s (writecountName R) - 1 = 0) :
    (writerExitWarn R te s).out = .ok () ∧
    (writerExitWarn R te s).trace =
      [.acq (mutex2Name R) te true,
       .decr (writecountName R) (counterVal s (writecountName R) - 1),
       .rel (mutex2Name R) te true] ∧
    (writerExitWarn R te s).store (mutex2Name R) = none ∧
    (writerExitWarn R te s).store (writecountName R) =
      some (.int (counterVal s (writecountName R) - 1)) ∧
    (∀ q, q ≠ mutex2Name R → q ≠ writecountName R →
      (writerExitWarn R te s).store q = s q) := by
  have hframe : ∀ q, q ≠ mutex2Name R → q ≠ writecountName R →
      (writerExitWarn R te s).store q = s q := by
    intro q hq2 hqwc
    simp [writerExitWarn, withLock, h2, hn0,
      counterVal_update_ne, counterVal_update_int,
      Function.update_same, Function.update_noteq, hq2, hqwc,
      m2_ne_wc R, (m2_ne_wc R).symm]
  refine ⟨?_, ?_, ?_, ?_, hframe⟩
  all_goals
    simp [writerExitWarn, withLock, h2, hn0,
      counterVal_update_ne, counterVal_update_int,
      Function.update_same, Function.update_noteq,
      m2_ne_wc R, (m2_ne_wc R).symm]

/-- Writer exit of the last writer while the read gate is still held by
the writers' cohort: the gate is released with the writers' token. -/
theorem writerExitWarn_lastHeld (R te : String) (s : Store)
    (h2 : s (mutex2Name R) = none)
    (hn0 : counterVal s (writecountName R) - 1 = 0)
    (hrv : s (rName R) = some (.str READLOCK_ID)) :
    (writerExitWarn R te s).out = .ok () ∧
    (writerExitWarn R te s).trace =
      [.acq (mutex2Name R) te true,
       .decr (writecountName R) (counterVal s (writecountName R) - 1),
       .rel (rName R) READLOCK_ID true,
       .rel (mutex2Name R) te true] ∧
    (writerExitWarn R te s).store (mutex2Name R) = none ∧
    (writerExitWarn R te s).store (writecountName R) =
      some (.int (counterVal s (writecountName R) - 1)) ∧
    (writerExitWarn R te s).store (rName R) = none ∧
    (∀ q, q ≠ mutex2Name R → q ≠ writecountName R → q ≠ rName R →
      (writerExitWarn R te s).store q = s q) := by
  have hframe : ∀ q, q ≠ mutex2Name R → q ≠ writecountName R →
      q ≠ rName R → (writerExitWarn R te s).store q = s q := by
    intro q hq2 hqwc hqr
    simp [writerExitWarn, withLock, h2, hn0, hrv,
      counterVal_update_ne, counterVal_update_int,
      Function.update_same, Function.update_noteq, hq2, hqwc, hqr,
      m2_ne_wc R, (m2_ne_wc R).symm, m2_ne_r R, (m2_ne_r R).symm,
      r_ne_wc R, (r_ne_wc R).symm]
  refine ⟨?_, ?_, ?_, ?_, ?_, hframe⟩
  all_goals
    simp [writerExitWarn, withLock, h2, hn0, hrv,
      counterVal_update_ne, counterVal_update_int,
      Function.update_same, Function.update_noteq,
      m2_ne_wc R, (m2_ne_wc R).symm, m2_ne_r R, (m2_ne_r R).symm,
      r_ne_wc R, (r_ne_wc R).symm]

/-- Writer exit of the last writer when the read gate was lost: the
release returns false, a warning is printed and no error is raised
(locking.py lines 184-192). -/
theorem writerExitWarn_lastLost (R te : String) (s : Store)
    (h2 : s (mutex2Name R) = none)
    (hn0 : counterVal s (writecountName R) - 1 = 0)
    (hrv : ¬ s (rName R) = some (.str READLOCK_ID)) :
    (writerExitWarn R te s).out = .ok () ∧
    (writerExitWarn R te s).trace =
      [.acq (mutex2Name R) te true,
       .decr (writecountName R) (counterVal s (writecountName R) - 1),
       .rel (rName R) READLOCK_ID false,
       .warn (rName R),
       .rel (mutex2Name R) te true] ∧
    (writerExitWarn R te s).store (mutex2Name R) = none ∧
    (writerExitWarn R te s).store (writecountName R) =
      some (.int (counterVal s (writecountName R) - 1)) ∧
    (writerExitWarn R te s).store (rName R) = s (rName R) ∧
    (∀ q, q ≠ mutex2Name R → q ≠ writecountName R →
      (writerExitWarn R te s).store q = s q) := by
  have hframe : ∀ q, q ≠ mutex2Name R → q ≠ writecountName R →
      (writerExitWarn R te s).store q = s q := by
    intro q hq2 hqwc
    simp [writerExitWarn, withLock, h2, hn0, hrv,
      counterVal_update_ne, counterVal_update_int,
      Function.update_same, Function.update_noteq, hq2, hqwc,
      m2_ne_wc R, (m2_ne_wc R).symm, m2_ne_r R, (m2_ne_r R).symm,
      r_ne_wc R, (r_ne_wc R).symm]
  refine ⟨?_, ?_, ?_, ?_, ?_, hframe⟩
  all_goals
    simp [writerExitWarn, withLock, h2, hn0, hrv,
      counterVal_update_ne, counterVal_update_int,
      Function.update_same, Function.update_noteq,
      m2_ne_wc R, (m2_ne_wc R).symm, m2_ne_r R, (m2_ne_r R).symm,
      r_ne_wc R, (r_ne_wc R).symm]

/-- The writer's scoped `redis_lock` around the critical section when `w`
is free: acquire, run the client function, release. -/
theorem writerCs_free (R tw : String) (s : Store)
    (hwf : s (wName R) = none) :
    (withLock (wName R) tw ()
        (fun s0 => ⟨s0, [.cs], (), .ok ()⟩) s).out = .ok () ∧
    (withLock (wName R) tw ()
        (fun s0 => ⟨s0, [.cs], (), .ok ()⟩) s).trace =
      [.acq (wName R) tw true, .cs, .rel (wName R) tw true] ∧
    (∀ q, (withLock (wName R) tw ()
        (fun s0 => ⟨s0, [.cs], (), .ok ()⟩) s).store q = s q) := by
  have hframe : ∀ q, (withLock (wName R) tw ()
      (fun s0 => ⟨s0, [.cs], (), .ok ()⟩) s).store q = s q := by
    intro q
    by_cases hqw : q = wName R
    · rw [hqw]
      simp [withLock, hwf, Function.update_same, Function.update_noteq]
    · simp [withLock, hwf, Function.update_same, Function.update_noteq, hqw]
  refine ⟨?_, ?_, hframe⟩
  all_goals
    simp [withLock, hwf, Function.update_same, Function.update_noteq]

/-- The writer's scoped `redis_lock` around the critical section when `w`
is busy: the acquire times out and `LockException` is raised. -/
theorem writerCs_busy (R tw : String) (s : Store)
    (hwb : ¬ s (wName R) = none) :
    withLock (wName R) tw () (fun s0 => ⟨s0, [.cs], (), .ok ()⟩) s =
      ⟨s, [.acq (wName R) tw false], (),
        .error (.couldNotAcquire (wName R))⟩ :=
  withLock_busy _ _ _ _ _ hwb

theorem lockingReader_eq_of_ok (R t3 tr t1 te : String) (s : Store)
    (hout : (readerEntry R t3 tr t1 s).out = .ok ()) :
    lockingReader R t3 tr t1 te s =
      ⟨(readerExitWarn R te (readerEntry R t3 tr t1 s).store).store,
        (readerEntry R t3 tr t1 s).trace ++
          .cs :: (readerExitWarn R te (readerEntry R t3 tr t1 s).store).trace,
        (),
        (readerExitWarn R te (readerEntry R t3 tr t1 s).store).out⟩ := by
  unfold lockingReader
  dsimp only
  rw [hout]

theorem lockingReader_eq_of_err (R t3 tr t1 te : String) (s : Store)
    (err : LErr)
    (hout : (readerEntry R t3 tr t1 s).out = .error err)
    (hval : (readerEntry R t3 tr t1 s).val = true)
    (hxout : (readerExitWarn R te (readerEntry R t3 tr t1 s).store).out =
      .ok ()) :
    lockingReader R t3 tr t1 te s =
      ⟨(readerExitWarn R te (readerEntry R t3 tr t1 s).store).store,
        (readerEntry R t3 tr t1 s).trace ++
          (readerExitWarn R te (readerEntry R t3 tr t1 s).store).trace,
        (), .error err⟩ := by
  unfold lockingReader
  dsimp only
  rw [hout, hval, hxout]
  rfl

theorem h5pyswmrReader_eq_of_err (R t3 tr t1 te : String) (s : Store)
    (err : LErr)
    (hout : (readerEntry R t3 tr t1 s).out = .error err) :
    h5pyswmrReader R t3 tr t1 te s =
      ⟨(readerEntry R t3 tr t1 s).store,
        (readerEntry R t3 tr t1 s).trace, (), .error err⟩ := by
  unfold h5pyswmrReader
  dsimp only
  rw [hout]

theorem lockingWriter_eq_of_ok (R t2 tw te : String) (s : Store)
    (hout : (writerEntry R t2 s).out = .ok ())
    (hxout : (writerExitWarn R te
      (withLock (wName R) tw () (fun s0 => ⟨s0, [.cs], (), .ok ()⟩)
        (writerEntry R t2 s).store).store).out = .ok ()) :
    lockingWriter R t2 tw te s =
      ⟨(writerExitWarn R te
          (withLock (wName R) tw () (fun s0 => ⟨s0, [.cs], (), .ok ()⟩)
            (writerEntry R t2 s).store).store).store,
        (writerEntry R t2 s).trace ++
          (withLock (wName R) tw () (fun s0 => ⟨s0, [.cs], (), .ok ()⟩)
            (writerEntry R t2 s).store).trace ++
          (writerExitWarn R te
            (withLock (wName R) tw () (fun s0 => ⟨s0, [.cs], (), .ok ()⟩)
              (writerEntry R t2 s).store).store).trace,
        (),
        (withLock (wName R) tw () (fun s0 => ⟨s0, [.cs], (), .ok ()⟩)
          (writerEntry R t2 s).store).out⟩ := by
  unfold lockingWriter
  dsimp only
  rw [hout, hxout]

theorem lockingWriter_eq_of_err (R t2 tw te : String) (s : Store)
    (err : LErr)
    (hout : (writerEntry R t2 s).out = .error err)
    (hval : (writerEntry R t2 s).val = true)
    (hxout : (writerExitWarn R te (writerEntry R t2 s).store).out = .ok ()) :
    lockingWriter R t2 tw te s =
      ⟨(writerExitWarn R te (writerEntry R t2 s).store).store,
        (writerEntry R t2 s).trace ++
          (writerExitWarn R te (writerEntry R t2 s).store).trace,
        (), .error err⟩ := by
  unfold lockingWriter
  dsimp only
  rw [hout, hval, hxout]
  rfl

theorem h5pyswmrWriter_eq_of_err (R t2 tw te : String) (s : Store)
    (err : LErr)
    (hout : (writerEntry R t2 s).out = .error err) :
    h5pyswmrWriter R t2 tw te s =
      ⟨(writerEntry R t2 s).store, (writerEntry R t2 s).trace, (),
        .error err⟩ := by
  unfold h5pyswmrWriter
  dsimp only
  rw [hout]

theorem counterVal_of_eq_int (s : Store) (k : String) (n : Int)
    (h : s k = some (.int n)) : counterVal s k = n := by
  unfold counterVal
  rw [h]

theorem lockingReader_eq_of_err_noinc (R t3 tr t1 te : String) (s : Store)
    (err : LErr)
    (hout : (readerEntry R t3 tr t1 s).out = .error err)
    (hval : (readerEntry R t3 tr t1 s).val = false) :
    lockingReader R t3 tr t1 te s =
      ⟨(readerEntry R t3 tr t1 s).store,
        (readerEntry R t3 tr t1 s).trace, (), .error err⟩ := by
  unfold lockingReader
  dsimp only
  rw [hout, hval]
  rfl

theorem lockingWriter_eq_of_err_noinc (R t2 tw te : String) (s : Store)
    (err : LErr)
    (hout : (writerEntry R t2 s).out = .error err)
    (hval : (writerEntry R t2 s).val = false) :
    lockingWriter R t2 tw te s =
      ⟨(writerEntry R t2 s).store, (writerEntry R t2 s).trace, (),
        .error err⟩ := by
  unfold lockingWriter
  dsimp only
  rw [hout, hval]
  rfl

/-! ## The claims -/

theorem writerInCS_eq : ∀ a : WPc, writerInCS a = true → a = .inCS := by
  intro a h
  cases a <;> first
    | rfl
    | exact absurd h (by decide)

/-- In any state satisfying the invariant, a positive `readcount` excludes
any writer from holding the write gate. -/
theorem no_writer_gate_of_readcount_pos {NR NW : ℕ} {s : GState NR NW}
    (hinv : Inv s) (hpos : 0 < s.readcount) :
    ∀ j : Fin NW, ¬ s.wGate = some (WOwner.byWriter j) := by
  obtain ⟨m3, m1, m2, rHeld, wHeld, rcEq, wcEq, rEpoch, wEpoch, wReaders,
    rZero, wZero⟩ := hinv
  intro j hwg
  have hjc : s.wpc j = .inCS := writerInCS_eq _ ((wHeld j).mp hwg)
  have hrg : s.rGate = some .byWriters := wEpoch j (by rw [hjc]; rfl)
  have hb : bcount readerCounted s.rpc ≠ 0 := by omega
  obtain ⟨i, hi⟩ := exists_of_bcount_ne_zero readerCounted s.rpc hb
  by_cases hneedw : s.rpc i = .needW
  · have h2 : s.rGate = some (.byReader i) :=
      (rHeld i).mpr (by rw [hneedw]; rfl)
    rw [hrg] at h2
    exact ROwner.noConfusion (Option.some.inj h2)
  · have hep : rEpochSet (s.rpc i) = true := epoch_of_counted _ hi hneedw
    have hwR : s.wGate = some .byReaders := rEpoch i hep
    rw [hwg] at hwR
    exact WOwner.noConfusion (Option.some.inj hwR)

/-- C1: for every resource and every interleaving of reader and writer
participants that follow the entry/exit protocol, at no instant are a
reader and a writer both inside their critical sections; whenever
`readcount__R > 0` no writer holds `w__R`, and whenever a writer is inside
its critical section `readcount__R = 0`. -/
theorem reader_writer_mutual_exclusion {NR NW : ℕ} (s : GState NR NW)
    (h : Reachable NR NW s) :
    (∀ (i : Fin NR) (j : Fin NW),
      ¬(s.rpc i = RPc.inCS ∧ s.wpc j = WPc.inCS)) ∧
    (0 < s.readcount → ∀ j : Fin NW, ¬ s.wGate = some (WOwner.byWriter j)) ∧
    (∀ j : Fin NW, s.wpc j = WPc.inCS → s.readcount = 0) := by
  have hinv := reachable_inv h
  refine ⟨?_, fun hpos => no_writer_gate_of_readcount_pos hinv hpos, ?_⟩
  · rintro i j ⟨hri, hwj⟩
    have hw1 : s.wGate = some (.byWriter j) :=
      (hinv.wHeld j).mpr (by rw [hwj]; rfl)
    have hw2 : s.wGate = some .byReaders := hinv.rEpoch i (by rw [hri]; rfl)
    rw [hw1] at hw2
    exact WOwner.noConfusion (Option.some.inj hw2)
  · intro j hj
    by_contra hne
    have hnn : 0 ≤ s.readcount := by
      rw [hinv.rcEq]
      exact bcount_nonneg readerCounted s.rpc
    have hpos : 0 < s.readcount := by omega
    have hwg : s.wGate = some (.byWriter j) :=
      (hinv.wHeld j).mpr (by rw [hj]; rfl)
    exact no_writer_gate_of_readcount_pos hinv hpos j hwg

theorem reader_writer_mutual_exclusion_witness :
    (∀ (i : Fin 1) (j : Fin 1),
      ¬((init0 1 1).rpc i = RPc.inCS ∧ (init0 1 1).wpc j = WPc.inCS)) ∧
    (0 < (init0 1 1).readcount →
      ∀ j : Fin 1, ¬ (init0 1 1).wGate = some (WOwner.byWriter j)) ∧
    (∀ j : Fin 1, (init0 1 1).wpc j = WPc.inCS →
      (init0 1 1).readcount = 0) :=
  reader_writer_mutual_exclusion (init0 1 1) Reachable.init

/-- C10: whenever a writer is inside its critical section the value stored
at `w__R` is that writer's own scoped token (of the form
`pid<pid>_<uuid>`, never the constant `id_reader`), and the constant
`id_reader` is stored at `w__R` only while a reader epoch is active — some
reader is between the first reader's entry and the last reader's exit. -/
theorem writer_cs_owner_token {NR NW : ℕ} (s : GState NR NW)
    (h : Reachable NR NW s) :
    (∀ j : Fin NW, s.wpc j = WPc.inCS →
      s.wGate = some (WOwner.byWriter j)) ∧
    (s.wGate = some WOwner.byReaders →
      ∃ i : Fin NR, rEpochSet (s.rpc i) = true) ∧
    (∀ (pid : ℕ) (uuid : String), mkScopedIdent pid uuid ≠ WRITELOCK_ID) := by
  have hinv := reachable_inv h
  refine ⟨?_, hinv.wReaders, ?_⟩
  · intro j hj
    exact (hinv.wHeld j).mpr (by rw [hj]; rfl)
  · intro pid uuid heq
    have h2 := congrArg String.data heq
    simp [mkScopedIdent, WRITELOCK_ID] at h2

theorem writer_cs_owner_token_witness :
    (∀ j : Fin 1, (init0 1 1).wpc j = WPc.inCS →
      (init0 1 1).wGate = some (WOwner.byWriter j)) ∧
    ((init0 1 1).wGate = some WOwner.byReaders →
      ∃ i : Fin 1, rEpochSet ((init0 1 1).rpc i) = true) ∧
    (∀ (pid : ℕ) (uuid : String), mkScopedIdent pid uuid ≠ WRITELOCK_ID) :=
  writer_cs_owner_token (init0 1 1) Reachable.init

/-- C2: every read operation, when the interior locks are free, acquires
mutex3, then r, then mutex1, increments `readcount`, acquires `w` with the
readers' cohort token exactly when the post-image is 1 (raising a typed
error and aborting the entry when that acquire fails), then releases
mutex1, r, mutex3 in reverse order; the exit acquires mutex1, decrements
`readcount`, and releases `w` with the cohort token exactly when the
post-image is 0. -/
theorem reader_protocol_sequence (R t3 tr t1 te : String) (s : Store)
    (h3 : s (mutex3Name R) = none) (hrg : s (rName R) = none)
    (h1 : s (mutex1Name R) = none) :
    ((counterVal s (readcountName R) + 1 = 1 → s (wName R) = none) →
      (lockingReader R t3 tr t1 te s).trace =
        [.acq (mutex3Name R) t3 true, .acq (rName R) tr true,
         .acq (mutex1Name R) t1 true,
         .incr (readcountName R) (counterVal s (readcountName R) + 1)] ++
        (if counterVal s (readcountName R) + 1 = 1 then
          [Ev.acq (wName R) WRITELOCK_ID true] else []) ++
        [.rel (mutex1Name R) t1 true, .rel (rName R) tr true,
         .rel (mutex3Name R) t3 true, .cs,
         .acq (mutex1Name R) te true,
         .decr (readcountName R) (counterVal s (readcountName R))] ++
        (if counterVal s (readcountName R) = 0 then
          [Ev.rel (wName R) WRITELOCK_ID true] else []) ++
        [.rel (mutex1Name R) te true] ∧
      (lockingReader R t3 tr t1 te s).out = .ok ()) ∧
    (counterVal s (readcountName R) + 1 = 1 → ¬ s (wName R) = none →
      (lockingReader R t3 tr t1 te s).out =
        .error (.couldNotAcquire (wName R))) := by
  constructor
  · intro hgate
    obtain ⟨hEout, hEval, hEtr, hE3, hEr, hE1, hErc, hEw, hEframe⟩ :=
      readerEntry_ok R t3 tr t1 s h3 hrg h1 hgate
    rw [lockingReader_eq_of_ok R t3 tr t1 te s hEout]
    have hcv : counterVal (readerEntry R t3 tr t1 s).store (readcountName R)
        = counterVal s (readcountName R) + 1 := by
      unfold counterVal
      rw [hErc]
      rfl
    have harith : counterVal s (readcountName R) + 1 - 1 =
        counterVal s (readcountName R) := by omega
    by_cases hn0 : counterVal s (readcountName R) = 0
    · have hn : counterVal s (readcountName R) + 1 = 1 := by omega
      obtain ⟨hXout, hXtr, hX1, hXrc, hXw, hXframe⟩ :=
        readerExitWarn_lastHeld R te (readerEntry R t3 tr t1 s).store hE1
          (by rw [hcv]; omega) (by rw [hEw, if_pos hn])
      refine ⟨?_, ?_⟩ <;> dsimp only
      · rw [hEtr, hXtr, hcv, harith]
        simp [hn, hn0]
      · exact hXout
    · have hn : ¬ (counterVal s (readcountName R) + 1 = 1) := by omega
      obtain ⟨hXout, hXtr, hX1, hXrc, hXframe⟩ :=
        readerExitWarn_notLast R te (readerEntry R t3 tr t1 s).store hE1
          (by rw [hcv]; omega)
      refine ⟨?_, ?_⟩ <;> dsimp only
      · rw [hEtr, hXtr, hcv, harith]
        simp [hn, hn0]
      · exact hXout
  · intro hn hwb
    obtain ⟨hEout, hEval, hEtr, hE3, hEr, hE1, hErc, hEw, hEframe⟩ :=
      readerEntry_gateFail R t3 tr t1 s h3 hrg h1 hn hwb
    have hcv : counterVal (readerEntry R t3 tr t1 s).store (readcountName R)
        = counterVal s (readcountName R) + 1 := by
      unfold counterVal
      rw [hErc]
      rfl
    have hXout : (readerExitWarn R te
        (readerEntry R t3 tr t1 s).store).out = .ok () := by
      by_cases hv : (readerEntry R t3 tr t1 s).store (wName R) =
          some (.str WRITELOCK_ID)
      · exact (readerExitWarn_lastHeld R te _ hE1 (by rw [hcv]; omega) hv).1
      · exact (readerExitWarn_lastLost R te _ hE1 (by rw [hcv]; omega) hv).1
    rw [lockingReader_eq_of_err R t3 tr t1 te s _ hEout hEval hXout]

theorem reader_protocol_sequence_witness :
    (lockingReader "f" "a" "b" "c" "d" emptyStore).trace =
      [.acq (mutex3Name "f") "a" true, .acq (rName "f") "b" true,
       .acq (mutex1Name "f") "c" true,
       .incr (readcountName "f")
         (counterVal emptyStore (readcountName "f") + 1)] ++
      (if counterVal emptyStore (readcountName "f") + 1 = 1 then
        [Ev.acq (wName "f") WRITELOCK_ID true] else []) ++
      [.rel (mutex1Name "f") "c" true, .rel (rName "f") "b" true,
       .rel (mutex3Name "f") "a" true, .cs,
       .acq (mutex1Name "f") "d" true,
       .decr (readcountName "f") (counterVal emptyStore (readcountName "f"))] ++
      (if counterVal emptyStore (readcountName "f") = 0 then
        [Ev.rel (wName "f") WRITELOCK_ID true] else []) ++
      [.rel (mutex1Name "f") "d" true] ∧
    (lockingReader "f" "a" "b" "c" "d" emptyStore).out = .ok () :=
  (reader_protocol_sequence "f" "a" "b" "c" "d" emptyStore rfl rfl rfl).1
    (fun _ => rfl)

/-- C3: every write operation acquires mutex2, increments `writecount`,
acquires `r` with the writers' cohort token exactly when the post-image is
1, releases mutex2, then acquires `w` before the critical section; the
exit releases `w`, acquires mutex2, decrements `writecount`, releases `r`
with the writers' cohort token exactly when the post-image is 0, and
releases mutex2; and a writer's trace never touches `mutex3__R`. -/
theorem writer_protocol_sequence (R t2 tw te : String) (s : Store) :
    (s (mutex2Name R) = none →
      (counterVal s (writecountName R) + 1 = 1 → s (rName R) = none) →
      s (wName R) = none →
      (lockingWriter R t2 tw te s).trace =
        [.acq (mutex2Name R) t2 true,
         .incr (writecountName R) (counterVal s (writecountName R) + 1)] ++
        (if counterVal s (writecountName R) + 1 = 1 then
          [Ev.acq (rName R) READLOCK_ID true] else []) ++
        [.rel (mutex2Name R) t2 true,
         .acq (wName R) tw true, .cs, .rel (wName R) tw true,
         .acq (mutex2Name R) te true,
         .decr (writecountName R) (counterVal s (writecountName R))] ++
        (if counterVal s (writecountName R) = 0 then
          [Ev.rel (rName R) READLOCK_ID true] else []) ++
        [.rel (mutex2Name R) te true] ∧
      (lockingWriter R t2 tw te s).out = .ok ()) ∧
    (∀ ev ∈ (lockingWriter R t2 tw te s).trace,
      ¬ evKey ev = some (mutex3Name R)) := by
  constructor
  · intro h2 hgate hwf
    obtain ⟨hEout, hEval, hEtr, hEm2, hEwc, hEr, hEframe⟩ :=
      writerEntry_ok R t2 s h2 hgate
    have hEwf : (writerEntry R t2 s).store (wName R) = none := by
      rw [hEframe (wName R) (m2_ne_w R).symm (w_ne_wc R) (r_ne_w R).symm]
      exact hwf
    obtain ⟨hBout, hBtr, hBframe⟩ :=
      writerCs_free R tw (writerEntry R t2 s).store hEwf
    have hB2 : (withLock (wName R) tw () (fun s0 => ⟨s0, [.cs], (), .ok ()⟩)
        (writerEntry R t2 s).store).store (mutex2Name R) = none := by
      rw [hBframe]
      exact hEm2
    have hcv : counterVal (withLock (wName R) tw ()
        (fun s0 => ⟨s0, [.cs], (), .ok ()⟩)
        (writerEntry R t2 s).store).store (writecountName R) =
        counterVal s (writecountName R) + 1 := by
      unfold counterVal
      rw [hBframe, hEwc]
      rfl
    have harith : counterVal s (writecountName R) + 1 - 1 =
        counterVal s (writecountName R) := by omega
    by_cases hn0 : counterVal s (writecountName R) = 0
    · have hn : counterVal s (writecountName R) + 1 = 1 := by omega
      have hBr : (withLock (wName R) tw ()
          (fun s0 => ⟨s0, [.cs], (), .ok ()⟩)
          (writerEntry R t2 s).store).store (rName R) =
          some (.str READLOCK_ID) := by
        rw [hBframe, hEr, if_pos hn]
      obtain ⟨hXout, hXtr, hX2, hXwc, hXr, hXframe⟩ :=
        writerExitWarn_lastHeld R te _ hB2 (by rw [hcv]; omega) hBr
      rw [lockingWriter_eq_of_ok R t2 tw te s hEout hXout]
      refine ⟨?_, ?_⟩ <;> dsimp only
      · rw [hEtr, hBtr, hXtr, hcv, harith]
        simp [hn, hn0]
      · exact hBout
    · have hn : ¬ (counterVal s (writecountName R) + 1 = 1) := by omega
      obtain ⟨hXout, hXtr, hX2, hXwc, hXframe⟩ :=
        writerExitWarn_notLast R te _ hB2 (by rw [hcv]; omega)
      rw [lockingWriter_eq_of_ok R t2 tw te s hEout hXout]
      refine ⟨?_, ?_⟩ <;> dsimp only
      · rw [hEtr, hBtr, hXtr, hcv, harith]
        simp [hn, hn0]
      · exact hBout
  · refine trace_all_lockingWriter
      (fun ev => ¬ evKey ev = some (mutex3Name R)) R t2 tw te s ?_ ?_ ?_ ?_ ?_
    · intro s0
      refine trace_all_writerEntry _ R t2 s0 ?_ ?_ ?_ ?_
      · intro b h
        simp only [evKey, Option.some.injEq] at h
        exact m2_ne_m3 R h
      · intro b h
        simp only [evKey, Option.some.injEq] at h
        exact m2_ne_m3 R h
      · intro n h
        simp only [evKey, Option.some.injEq] at h
        exact (m3_ne_wc R).symm h
      · intro b h
        simp only [evKey, Option.some.injEq] at h
        exact (m3_ne_r R).symm h
    · intro s0
      refine trace_all_writerExitWarn _ R te s0 ?_ ?_ ?_ ?_ ?_
      · intro b h
        simp only [evKey, Option.some.injEq] at h
        exact m2_ne_m3 R h
      · intro b h
        simp only [evKey, Option.some.injEq] at h
        exact m2_ne_m3 R h
      · intro n h
        simp only [evKey, Option.some.injEq] at h
        exact (m3_ne_wc R).symm h
      · intro b h
        simp only [evKey, Option.some.injEq] at h
        exact (m3_ne_r R).symm h
      · intro h
        simp only [evKey, Option.some.injEq] at h
        exact (m3_ne_r R).symm h
    · intro b h
      simp only [evKey, Option.some.injEq] at h
      exact (m3_ne_w R).symm h
    · intro b h
      simp only [evKey, Option.some.injEq] at h
      exact (m3_ne_w R).symm h
    · intro h
      simp only [evKey] at h
      exact Option.noConfusion h

theorem writer_protocol_sequence_witness :
    (lockingWriter "f" "a" "b" "c" emptyStore).trace =
      [.acq (mutex2Name "f") "a" true,
       .incr (writecountName "f")
         (counterVal emptyStore (writecountName "f") + 1)] ++
      (if counterVal emptyStore (writecountName "f") + 1 = 1 then
        [Ev.acq (rName "f") READLOCK_ID true] else []) ++
      [.rel (mutex2Name "f") "a" true,
       .acq (wName "f") "b" true, .cs, .rel (wName "f") "b" true,
       .acq (mutex2Name "f") "c" true,
       .decr (writecountName "f")
         (counterVal emptyStore (writecountName "f"))] ++
      (if counterVal emptyStore (writecountName "f") = 0 then
        [Ev.rel (rName "f") READLOCK_ID true] else []) ++
      [.rel (mutex2Name "f") "c" true] ∧
    (lockingWriter "f" "a" "b" "c" emptyStore).out = .ok () :=
  (writer_protocol_sequence "f" "a" "b" "c" emptyStore).1 rfl
    (fun _ => rfl) rfl

/-- **C4** (amended).  In the locking.py decorators every entry failure
raises a typed `LockException` and rolls the entry back: failures before
the increment touch nothing; a first reader that fails to acquire the
cohort gate `w` has its `readcount` increment undone under `mutex1` (the
`finally` block, lines 112-133), and likewise a first writer that fails
on `r` or on `w` has its `writecount` increment undone under `mutex2`
(lines 176-192).  The counter key is restored to its previous logical
value (an absent counter may be materialised as the integer 0) and no
other key moves — with one exception in each direction: when the failing
first reader (resp. first writer) found `w` (resp. `r`) already holding
the cohort constant, the rolled-back exit's post-image-0 release
compare-and-deletes that stale cohort gate, so the gate key ends absent
rather than exactly as before; in every other failure the lock keys are
exactly as before.  The claim as stated over both decorator generations
is false: the h5pyswmr.py wrappers run the entry nest outside the
try/finally and perform no rollback. -/
theorem locking_entry_failure_rollback
    (R t3 tr t1 t2 tw te : String) (s : Store) :
    (¬ s (mutex3Name R) = none →
      (lockingReader R t3 tr t1 te s).out =
        .error (.couldNotAcquire (mutex3Name R)) ∧
      ∀ q, (lockingReader R t3 tr t1 te s).store q = s q) ∧
    (s (mutex3Name R) = none → ¬ s (rName R) = none →
      (lockingReader R t3 tr t1 te s).out =
        .error (.couldNotAcquire (rName R)) ∧
      ∀ q, (lockingReader R t3 tr t1 te s).store q = s q) ∧
    (s (mutex3Name R) = none → s (rName R) = none →
      ¬ s (mutex1Name R) = none →
      (lockingReader R t3 tr t1 te s).out =
        .error (.couldNotAcquire (mutex1Name R)) ∧
      ∀ q, (lockingReader R t3 tr t1 te s).store q = s q) ∧
    (s (mutex3Name R) = none → s (rName R) = none →
      s (mutex1Name R) = none →
      counterVal s (readcountName R) + 1 = 1 → ¬ s (wName R) = none →
      ¬ s (wName R) = some (.str WRITELOCK_ID) →
      (lockingReader R t3 tr t1 te s).out =
        .error (.couldNotAcquire (wName R)) ∧
      counterVal (lockingReader R t3 tr t1 te s).store (readcountName R) =
        counterVal s (readcountName R) ∧
      (lockingReader R t3 tr t1 te s).store (mutex3Name R) =
        s (mutex3Name R) ∧
      (lockingReader R t3 tr t1 te s).store (rName R) = s (rName R) ∧
      (lockingReader R t3 tr t1 te s).store (mutex1Name R) =
        s (mutex1Name R) ∧
      (lockingReader R t3 tr t1 te s).store (wName R) = s (wName R) ∧
      ∀ q, q ≠ mutex3Name R → q ≠ rName R → q ≠ mutex1Name R →
        q ≠ readcountName R →
        (lockingReader R t3 tr t1 te s).store q = s q) ∧
    (s (mutex3Name R) = none → s (rName R) = none →
      s (mutex1Name R) = none →
      counterVal s (readcountName R) + 1 = 1 →
      s (wName R) = some (.str WRITELOCK_ID) →
      (lockingReader R t3 tr t1 te s).out =
        .error (.couldNotAcquire (wName R)) ∧
      counterVal (lockingReader R t3 tr t1 te s).store (readcountName R) =
        counterVal s (readcountName R) ∧
      (lockingReader R t3 tr t1 te s).store (mutex3Name R) =
        s (mutex3Name R) ∧
      (lockingReader R t3 tr t1 te s).store (rName R) = s (rName R) ∧
      (lockingReader R t3 tr t1 te s).store (mutex1Name R) =
        s (mutex1Name R) ∧
      (lockingReader R t3 tr t1 te s).store (wName R) = none ∧
      ∀ q, q ≠ mutex3Name R → q ≠ rName R → q ≠ mutex1Name R →
        q ≠ readcountName R → q ≠ wName R →
        (lockingReader R t3 tr t1 te s).store q = s q) ∧
    (¬ s (mutex2Name R) = none →
      (lockingWriter R t2 tw te s).out =
        .error (.couldNotAcquire (mutex2Name R)) ∧
      ∀ q, (lockingWriter R t2 tw te s).store q = s q) ∧
    (s (mutex2Name R) = none →
      counterVal s (writecountName R) + 1 = 1 → ¬ s (rName R) = none →
      ¬ s (rName R) = some (.str READLOCK_ID) →
      (lockingWriter R t2 tw te s).out =
        .error (.couldNotAcquire (rName R)) ∧
      counterVal (lockingWriter R t2 tw te s).store (writecountName R) =
        counterVal s (writecountName R) ∧
      (lockingWriter R t2 tw te s).store (mutex2Name R) =
        s (mutex2Name R) ∧
      (lockingWriter R t2 tw te s).store (rName R) = s (rName R) ∧
      ∀ q, q ≠ mutex2Name R → q ≠ writecountName R →
        (lockingWriter R t2 tw te s).store q = s q) ∧
    (s (mutex2Name R) = none →
      counterVal s (writecountName R) + 1 = 1 →
      s (rName R) = some (.str READLOCK_ID) →
      (lockingWriter R t2 tw te s).out =
        .error (.couldNotAcquire (rName R)) ∧
      counterVal (lockingWriter R t2 tw te s).store (writecountName R) =
        counterVal s (writecountName R) ∧
      (lockingWriter R t2 tw te s).store (mutex2Name R) =
        s (mutex2Name R) ∧
      (lockingWriter R t2 tw te s).store (rName R) = none ∧
      ∀ q, q ≠ mutex2Name R → q ≠ writecountName R → q ≠ rName R →
        (lockingWriter R t2 tw te s).store q = s q) ∧
    (s (mutex2Name R) = none →
      (counterVal s (writecountName R) + 1 = 1 → s (rName R) = none) →
      ¬ s (wName R) = none →
      (lockingWriter R t2 tw te s).out =
        .error (.couldNotAcquire (wName R)) ∧
      counterVal (lockingWriter R t2 tw te s).store (writecountName R) =
        counterVal s (writecountName R) ∧
      (lockingWriter R t2 tw te s).store (mutex2Name R) =
        s (mutex2Name R) ∧
      (lockingWriter R t2 tw te s).store (rName R) = s (rName R) ∧
      ∀ q, q ≠ mutex2Name R → q ≠ writecountName R → q ≠ rName R →
        (lockingWriter R t2 tw te s).store q = s q) := by
  refine ⟨?_, ?_, ?_, ?_, ?_, ?_, ?_, ?_, ?_⟩
  · intro hb3
    have hE := readerEntry_busy3 R t3 tr t1 s hb3
    have hcomp := lockingReader_eq_of_err_noinc R t3 tr t1 te s
      (.couldNotAcquire (mutex3Name R)) (by rw [hE]) (by rw [hE])
    rw [hcomp, hE]
    exact ⟨rfl, fun q => rfl⟩
  · intro h3 hbr
    obtain ⟨hEout, hEval, -, hEframe⟩ := readerEntry_busyR R t3 tr t1 s h3 hbr
    have hcomp := lockingReader_eq_of_err_noinc R t3 tr t1 te s
      (.couldNotAcquire (rName R)) hEout hEval
    rw [hcomp]
    exact ⟨rfl, hEframe⟩
  · intro h3 hr hb1
    obtain ⟨hEout, hEval, -, hEframe⟩ :=
      readerEntry_busy1 R t3 tr t1 s h3 hr hb1
    have hcomp := lockingReader_eq_of_err_noinc R t3 tr t1 te s
      (.couldNotAcquire (mutex1Name R)) hEout hEval
    rw [hcomp]
    exact ⟨rfl, hEframe⟩
  · intro h3 hr h1 hn hwb hwv
    obtain ⟨hEout, hEval, -, hE3, hEr, hE1, hErc, hEw, hEframe⟩ :=
      readerEntry_gateFail R t3 tr t1 s h3 hr h1 hn hwb
    have hcvE : counterVal (readerEntry R t3 tr t1 s).store
        (readcountName R) = counterVal s (readcountName R) + 1 :=
      counterVal_of_eq_int _ _ _ hErc
    obtain ⟨hXout, -, hX1, hXrc, hXw, hXframe⟩ :=
      readerExitWarn_lastLost R te (readerEntry R t3 tr t1 s).store
        hE1 (by rw [hcvE]; omega) (by rw [hEw]; exact hwv)
    have hcomp := lockingReader_eq_of_err R t3 tr t1 te s
      (.couldNotAcquire (wName R)) hEout hEval hXout
    rw [hcomp]
    refine ⟨rfl, ?_, ?_, ?_, ?_, ?_, ?_⟩
    · have h := counterVal_of_eq_int _ _ _ hXrc
      rw [hcvE] at h
      exact h.trans (by omega)
    · exact ((hXframe _ (m1_ne_m3 R).symm (m3_ne_rc R)).trans hE3).trans
        h3.symm
    · exact ((hXframe _ (m1_ne_r R).symm (r_ne_rc R)).trans hEr).trans
        hr.symm
    · exact hX1.trans h1.symm
    · exact hXw.trans hEw
    · intro q hq3 hqr hq1 hqrc
      exact (hXframe q hq1 hqrc).trans (hEframe q hq3 hqr hq1 hqrc)
  · intro h3 hr h1 hn hwv
    have hwb : ¬ s (wName R) = none := by simp [hwv]
    obtain ⟨hEout, hEval, -, hE3, hEr, hE1, hErc, hEw, hEframe⟩ :=
      readerEntry_gateFail R t3 tr t1 s h3 hr h1 hn hwb
    have hcvE : counterVal (readerEntry R t3 tr t1 s).store
        (readcountName R) = counterVal s (readcountName R) + 1 :=
      counterVal_of_eq_int _ _ _ hErc
    obtain ⟨hXout, -, hX1, hXrc, hXw, hXframe⟩ :=
      readerExitWarn_lastHeld R te (readerEntry R t3 tr t1 s).store
        hE1 (by rw [hcvE]; omega) (hEw.trans hwv)
    have hcomp := lockingReader_eq_of_err R t3 tr t1 te s
      (.couldNotAcquire (wName R)) hEout hEval hXout
    rw [hcomp]
    refine ⟨rfl, ?_, ?_, ?_, ?_, ?_, ?_⟩
    · have h := counterVal_of_eq_int _ _ _ hXrc
      rw [hcvE] at h
      exact h.trans (by omega)
    · exact ((hXframe _ (m1_ne_m3 R).symm (m3_ne_rc R) (m3_ne_w R)).trans
        hE3).trans h3.symm
    · exact ((hXframe _ (m1_ne_r R).symm (r_ne_rc R) (r_ne_w R)).trans
        hEr).trans hr.symm
    · exact hX1.trans h1.symm
    · exact hXw
    · intro q hq3 hqr hq1 hqrc hqw
      exact (hXframe q hq1 hqrc hqw).trans (hEframe q hq3 hqr hq1 hqrc)
  · intro hb2
    have hE := writerEntry_busy2 R t2 s hb2
    have hcomp := lockingWriter_eq_of_err_noinc R t2 tw te s
      (.couldNotAcquire (mutex2Name R)) (by rw [hE]) (by rw [hE])
    rw [hcomp, hE]
    exact ⟨rfl, fun q => rfl⟩
  · intro h2 hn hbr hrv
    obtain ⟨hEout, hEval, -, hEm2, hEwc, hEr, hEframe⟩ :=
      writerEntry_rFail R t2 s h2 hn hbr
    have hcvE : counterVal (writerEntry R t2 s).store (writecountName R) =
        counterVal s (writecountName R) + 1 :=
      counterVal_of_eq_int _ _ _ hEwc
    obtain ⟨hXout, -, hXm2, hXwc, hXr, hXframe⟩ :=
      writerExitWarn_lastLost R te (writerEntry R t2 s).store
        hEm2 (by rw [hcvE]; omega) (by rw [hEr]; exact hrv)
    have hcomp := lockingWriter_eq_of_err R t2 tw te s
      (.couldNotAcquire (rName R)) hEout hEval hXout
    rw [hcomp]
    refine ⟨rfl, ?_, ?_, ?_, ?_⟩
    · have h := counterVal_of_eq_int _ _ _ hXwc
      rw [hcvE] at h
      exact h.trans (by omega)
    · exact hXm2.trans h2.symm
    · exact hXr.trans hEr
    · intro q hq2 hqwc
      exact (hXframe q hq2 hqwc).trans (hEframe q hq2 hqwc)
  · intro h2 hn hrv
    have hbr : ¬ s (rName R) = none := by simp [hrv]
    obtain ⟨hEout, hEval, -, hEm2, hEwc, hEr, hEframe⟩ :=
      writerEntry_rFail R t2 s h2 hn hbr
    have hcvE : counterVal (writerEntry R t2 s).store (writecountName R) =
        counterVal s (writecountName R) + 1 :=
      counterVal_of_eq_int _ _ _ hEwc
    obtain ⟨hXout, -, hXm2, hXwc, hXr, hXframe⟩ :=
      writerExitWarn_lastHeld R te (writerEntry R t2 s).store
        hEm2 (by rw [hcvE]; omega) (hEr.trans hrv)
    have hcomp := lockingWriter_eq_of_err R t2 tw te s
      (.couldNotAcquire (rName R)) hEout hEval hXout
    rw [hcomp]
    refine ⟨rfl, ?_, ?_, ?_, ?_⟩
    · have h := counterVal_of_eq_int _ _ _ hXwc
      rw [hcvE] at h
      exact h.trans (by omega)
    · exact hXm2.trans h2.symm
    · exact hXr
    · intro q hq2 hqwc hqr
      exact (hXframe q hq2 hqwc hqr).trans (hEframe q hq2 hqwc)
  · intro h2 hgate hwb
    obtain ⟨hEout, -, -, hEm2, hEwc, hEr, hEframe⟩ :=
      writerEntry_ok R t2 s h2 hgate
    have hcvE : counterVal (writerEntry R t2 s).store (writecountName R) =
        counterVal s (writecountName R) + 1 :=
      counterVal_of_eq_int _ _ _ hEwc
    have hwb' : ¬ (writerEntry R t2 s).store (wName R) = none := by
      rw [hEframe (wName R) (m2_ne_w R).symm (w_ne_wc R) (r_ne_w R).symm]
      exact hwb
    have hB := writerCs_busy R tw (writerEntry R t2 s).store hwb'
    by_cases hn1 : counterVal s (writecountName R) + 1 = 1
    · obtain ⟨hXout, -, hXm2, hXwc, hXr, hXframe⟩ :=
        writerExitWarn_lastHeld R te (writerEntry R t2 s).store
          hEm2 (by rw [hcvE]; omega) (by rw [hEr, if_pos hn1])
      have hxout : (writerExitWarn R te
          (withLock (wName R) tw () (fun s0 => ⟨s0, [.cs], (), .ok ()⟩)
            (writerEntry R t2 s).store).store).out = .ok () := by
        rw [hB]
        exact hXout
      have hcomp := lockingWriter_eq_of_ok R t2 tw te s hEout hxout
      rw [hcomp, hB]
      refine ⟨rfl, ?_, ?_, ?_, ?_⟩
      · have h := counterVal_of_eq_int _ _ _ hXwc
        rw [hcvE] at h
        exact h.trans (by omega)
      · exact hXm2.trans h2.symm
      · exact hXr.trans (hgate hn1).symm
      · intro q hq2 hqwc hqr
        exact (hXframe q hq2 hqwc hqr).trans (hEframe q hq2 hqwc hqr)
    · obtain ⟨hXout, -, hXm2, hXwc, hXframe⟩ :=
        writerExitWarn_notLast R te (writerEntry R t2 s).store
          hEm2 (by rw [hcvE]; omega)
      have hxout : (writerExitWarn R te
          (withLock (wName R) tw () (fun s0 => ⟨s0, [.cs], (), .ok ()⟩)
            (writerEntry R t2 s).store).store).out = .ok () := by
        rw [hB]
        exact hXout
      have hcomp := lockingWriter_eq_of_ok R t2 tw te s hEout hxout
      rw [hcomp, hB]
      refine ⟨rfl, ?_, ?_, ?_, ?_⟩
      · have h := counterVal_of_eq_int _ _ _ hXwc
        rw [hcvE] at h
        exact h.trans (by omega)
      · exact hXm2.trans h2.symm
      · exact (hXframe _ (m2_ne_r R).symm (r_ne_wc R)).trans
          (by rw [hEr, if_neg hn1])
      · intro q hq2 hqwc hqr
        exact (hXframe q hq2 hqwc).trans (hEframe q hq2 hqwc hqr)

/-- **C4** (counterexample to the claim as stated over h5pyswmr.py, lines
57-81): a first reader whose cohort acquire of `w` fails leaves
`readcount__f` incremented to 1 — the increment is never rolled back,
because the entry nest sits outside the try/finally. -/
theorem h5pyswmr_reader_no_rollback :
    counterVal (oneKey (wName "f") (.str "pid7_z")) (readcountName "f") =
      0 ∧
    (h5pyswmrReader "f" "a" "b" "c" "d"
        (oneKey (wName "f") (.str "pid7_z"))).out =
      .error (.couldNotAcquire (wName "f")) ∧
    counterVal (h5pyswmrReader "f" "a" "b" "c" "d"
        (oneKey (wName "f") (.str "pid7_z"))).store (readcountName "f") =
      1 := by
  refine ⟨by decide, rfl, by decide⟩

/-- Witness for `locking_entry_failure_rollback` at concrete stores in
which only `w__f` is held: by a foreign scoped token (the reader entry
fails and the store is logically restored), and by the stale cohort
constant (the entry fails and the orphaned gate is deleted). -/
theorem locking_entry_failure_rollback_witness :
    (lockingReader "f" "a" "b" "c" "d"
        (oneKey (wName "f") (.str "pid9_q"))).out =
      .error (.couldNotAcquire (wName "f")) ∧
    counterVal (lockingReader "f" "a" "b" "c" "d"
        (oneKey (wName "f") (.str "pid9_q"))).store (readcountName "f") =
      counterVal (oneKey (wName "f") (.str "pid9_q")) (readcountName "f") ∧
    (lockingReader "f" "a" "b" "c" "d"
        (oneKey (wName "f") (.str "pid9_q"))).store (wName "f") =
      oneKey (wName "f") (.str "pid9_q") (wName "f") ∧
    (lockingReader "f" "a" "b" "c" "d"
        (oneKey (wName "f") (.str WRITELOCK_ID))).out =
      .error (.couldNotAcquire (wName "f")) ∧
    (lockingReader "f" "a" "b" "c" "d"
        (oneKey (wName "f") (.str WRITELOCK_ID))).store (wName "f") =
      none := by
  have h := (locking_entry_failure_rollback "f" "a" "b" "c" "x" "y" "d"
      (oneKey (wName "f") (.str "pid9_q"))).2.2.2.1
    (by decide) (by decide) (by decide) (by decide) (by decide) (by decide)
  have h2 := (locking_entry_failure_rollback "f" "a" "b" "c" "x" "y" "d"
      (oneKey (wName "f") (.str WRITELOCK_ID))).2.2.2.2.1
    (by decide) (by decide) (by decide) (by decide) (by decide)
  exact ⟨h.1, h.2.1, h.2.2.2.2.2.1, h2.1, h2.2.2.2.2.2.1⟩

/-- **C5** (amended).  In locking.py, when the last reader (resp. last
writer) of an epoch finds the cohort gate `w__R` (resp. `r__R`) no longer
held by the cohort token, the release returns `False`, a warning is
printed, and the exit completes normally (lines 125-133 resp. 184-192);
whereas a scoped `redis_lock` whose own release returns `False` raises
the typed lock-lost `LockException` (lines 294-298).  The claim as
stated over both decorator generations is false: the h5pyswmr.py exits
raise `LockException` on a lost cohort gate. -/
theorem cohort_release_lost_warns (R te : String) (s : Store) :
    (s (mutex1Name R) = none → counterVal s (readcountName R) - 1 = 0 →
      ¬ s (wName R) = some (.str WRITELOCK_ID) →
      (readerExitWarn R te s).out = .ok () ∧
      Ev.warn (wName R) ∈ (readerExitWarn R te s).trace ∧
      Ev.rel (wName R) WRITELOCK_ID false ∈ (readerExitWarn R te s).trace) ∧
    (s (mutex2Name R) = none → counterVal s (writecountName R) - 1 = 0 →
      ¬ s (rName R) = some (.str READLOCK_ID) →
      (writerExitWarn R te s).out = .ok () ∧
      Ev.warn (rName R) ∈ (writerExitWarn R te s).trace ∧
      Ev.rel (rName R) READLOCK_ID false ∈ (writerExitWarn R te s).trace) ∧
    (∀ (β : Type) (name tok : String) (b0 : β) (body : Store → Run β),
      s name = none →
      ¬ (body (Function.update s name (some (.str tok)))).store name =
        some (.str tok) →
      (withLock name tok b0 body s).out = .error (.lockLost name)) := by
  refine ⟨?_, ?_, ?_⟩
  · intro h1 hn0 hwv
    obtain ⟨hXout, hXtr, -, -, -, -⟩ :=
      readerExitWarn_lastLost R te s h1 hn0 hwv
    refine ⟨hXout, ?_, ?_⟩
    · rw [hXtr]
      simp
    · rw [hXtr]
      simp
  · intro h2 hn0 hrv
    obtain ⟨hXout, hXtr, -, -, -, -⟩ :=
      writerExitWarn_lastLost R te s h2 hn0 hrv
    refine ⟨hXout, ?_, ?_⟩
    · rw [hXtr]
      simp
    · rw [hXtr]
      simp
  · intro β name tok b0 body hfree hlost
    rw [withLock_lost name tok b0 body s hfree hlost]

/-- **C5** (counterexample to the claim as stated over h5pyswmr.py): the
older-generation exits raise the lock-lost `LockException` when the
cohort gate release returns `False` (h5pyswmr.py lines 75-81 and
123-128), instead of warning. -/
theorem h5pyswmr_exit_raises_on_lost_gate :
    (readerExitRaise "f" "t" (oneKey (readcountName "f") (.int 1))).out =
      .error (.lockLost (wName "f")) ∧
    (writerExitRaise "f" "t" (oneKey (writecountName "f") (.int 1))).out =
      .error (.lockLost (rName "f")) :=
  ⟨rfl, rfl⟩

/-- Witness for `cohort_release_lost_warns`: the last reader exiting over
a store in which `readcount__f` is 1 and the gate `w__f` has expired
completes normally with a warning, and a scoped lock whose body
clobbers the key raises the lock-lost error. -/
theorem cohort_release_lost_warns_witness :
    (readerExitWarn "f" "t" (oneKey (readcountName "f") (.int 1))).out =
      .ok () ∧
    Ev.warn (wName "f") ∈
      (readerExitWarn "f" "t" (oneKey (readcountName "f") (.int 1))).trace ∧
    (withLock (mutex1Name "f") "t" ()
        (fun s0 => ⟨Function.update s0 (mutex1Name "f") none, [], (), .ok ()⟩)
        emptyStore).out = .error (.lockLost (mutex1Name "f")) := by
  have h := cohort_release_lost_warns "f" "t"
    (oneKey (readcountName "f") (.int 1))
  refine ⟨(h.1 (by decide) (by decide) (by decide)).1,
    (h.1 (by decide) (by decide) (by decide)).2.1, ?_⟩
  have h2 := cohort_release_lost_warns "f" "t" emptyStore
  exact h2.2.2 Unit (mutex1Name "f") "t" ()
    (fun s0 => ⟨Function.update s0 (mutex1Name "f") none, [], (), .ok ()⟩)
    rfl (by simp [Function.update_same])

/-- **C6** (code bug).  `release_lock` (locking.py lines 231-258) is a
correct compare-and-delete for the conflict-free path: the key is deleted
iff its stored value equals the owner token, returning `released`
(`True`) exactly on deletion and `lost` (`False`) on any mismatch or
absence, without raising.  But the claimed watch/retry loop is dead code:
the `except redis.exceptions.WatchError` handler re-raises (`raise e`),
so when the watched key is modified between WATCH and EXEC the call
propagates `WatchError` (`conflictError` in the model) instead of
retrying to a definite outcome. -/
theorem release_cad_conflict_raises_no_retry
    (s : Store) (lockname identifier : String) :
    (s lockname = some (.str identifier) →
      release_lock s lockname identifier false =
        (Function.update s lockname none, .released)) ∧
    (¬ s lockname = some (.str identifier) →
      release_lock s lockname identifier false = (s, .lost) ∧
      release_lock s lockname identifier true = (s, .lost)) ∧
    (s lockname = some (.str identifier) →
      release_lock s lockname identifier true = (s, .conflictError)) := by
  refine ⟨?_, ?_, ?_⟩
  · intro h
    unfold release_lock
    rw [if_pos h]
    rfl
  · intro h
    constructor
    all_goals
      unfold release_lock
      rw [if_neg h]
  · intro h
    unfold release_lock
    rw [if_pos h]
    rfl

/-- Witness for `release_cad_conflict_raises_no_retry` at a one-key
store: a matching release deletes and reports `released`, a mismatched
owner reports `lost` without raising, and a matching release hit by a
watch conflict surfaces `conflictError` — the retry loop never runs. -/
theorem release_cad_conflict_raises_no_retry_witness :
    release_lock (oneKey "k" (.str "o")) "k" "o" false =
      (Function.update (oneKey "k" (.str "o")) "k" none, .released) ∧
    release_lock (oneKey "k" (.str "o")) "k" "x" true =
      (oneKey "k" (.str "o"), .lost) ∧
    release_lock (oneKey "k" (.str "o")) "k" "o" true =
      (oneKey "k" (.str "o"), .conflictError) := by
  have h := release_cad_conflict_raises_no_retry
    (oneKey "k" (.str "o")) "k" "o"
  have h2 := release_cad_conflict_raises_no_retry
    (oneKey "k" (.str "o")) "k" "x"
  exact ⟨h.1 (by decide), (h2.2.1 (by decide)).2, h.2.2 (by decide)⟩

/-- **C7** (code bug).  The self-heal branch of `acquire_lock` (locking.py
lines 223-225) is `elif not conn.ttl(lockname):`, which fires only when
the integer returned by `TTL` is `0`.  Under the pinned client
(`redis >= 2.10.3`, `StrictRedis` semantics) a key that exists *without*
an expiry yields `TTL == -1`, which is truthy, so the branch the spec
describes — reassigning a TTL to a key left without expiry — never
executes on its intended input; it executes only in the final second of
an expiring key's life. -/
theorem acquire_ttl_selfheal_truthiness_bug :
    ttlCmd rsNoTtl (wName "f") = -1 ∧
    (acquire_lock [rsNoTtl] (wName "f") "id" 20).2 =
      [.setnx false, .ttlq (-1), .sleepMs 1] ∧
    AcqEv.expire 20 ∉ (acquire_lock [rsNoTtl] (wName "f") "id" 20).2 ∧
    ttlCmd rsTtl0 (wName "f") = 0 ∧
    (acquire_lock [rsTtl0] (wName "f") "id" 20).2 =
      [.setnx false, .ttlq 0, .expire 20, .sleepMs 1] ∧
    AcqEv.expire 20 ∈ (acquire_lock [rsTtl0] (wName "f") "id" 20).2 := by
  refine ⟨by decide, by decide, by decide, by decide, by decide, by decide⟩

theorem acquire_lock_res (polls : List RStore) (k id : String) (t : ℕ) :
    (acquire_lock polls k id t).1 = .ok id ∨
    (acquire_lock polls k id t).1 = .timedOut := by
  induction polls with
  | nil => exact Or.inr rfl
  | cons rs rest ih =>
    by_cases h : rs.store k = none
    · left
      simp [acquire_lock, h]
    · have h1 : (acquire_lock (rs :: rest) k id t).1 =
          (acquire_lock rest k id t).1 := by
        simp [acquire_lock, h]
      rw [h1]
      exact ih

/-- **C8**.  `acquire_lock` (locking.py lines 198-228) busy-polls
`setnx` over the polls that fit before the deadline: its only outcomes
are the identifier or `False` (it contains no `raise`); it returns the
identifier exactly when some poll before the deadline saw the key
absent; and when every poll saw the key held it returns `False` after
sleeping 1 ms between consecutive polls (one sleep per failed poll). -/
theorem acquire_poll_until_deadline (k id : String) (t : ℕ)
    (polls : List RStore) :
    ((acquire_lock polls k id t).1 = .ok id ∨
      (acquire_lock polls k id t).1 = .timedOut) ∧
    ((acquire_lock polls k id t).1 = .ok id ↔
      ∃ rs ∈ polls, rs.store k = none) ∧
    ((∀ rs ∈ polls, ¬ rs.store k = none) →
      (acquire_lock polls k id t).1 = .timedOut ∧
      (acquire_lock polls k id t).2.filter isSleep =
        List.replicate polls.length (.sleepMs 1)) :=
  ⟨acquire_lock_res polls k id t,
    (acquire_lock_spec k id t polls).1,
    (acquire_lock_spec k id t polls).2⟩

/-- Witness for `acquire_poll_until_deadline`: polling a store in which
`w__f` is held times out with one sleep and no exception. -/
theorem acquire_poll_until_deadline_witness :
    (acquire_lock [rsNoTtl] (wName "f") "id" 20).1 = .timedOut ∧
    (acquire_lock [rsNoTtl] (wName "f") "id" 20).2.filter isSleep =
      List.replicate 1 (.sleepMs 1) := by
  have hall : ∀ rs ∈ [rsNoTtl], ¬ rs.store (wName "f") = none := by
    intro rs hrs
    rw [List.mem_singleton] at hrs
    subst hrs
    decide
  exact (acquire_poll_until_deadline (wName "f") "id" 20 [rsNoTtl]).2.2 hall

/-- **C9**.  The wire schema: the two cohort owner tokens are exactly the
strings `"id_reader"` (used on the `w__R` lock) and `"id_writer"` (used
on the `r__R` lock); every primitive operation of a reader or writer run
touches one of the seven key names, which are literally
`mutex1__R` … `writecount__R`; on the `w__R` key a reader run only ever
uses the cohort token `"id_reader"`, and on the `r__R` key a writer run
only ever uses `"id_writer"`; and a run from the empty store exercises
every one of the seven keys. -/
theorem seven_key_schema_cohort_tokens
    (R t3 tr t1 t2 tw te : String) (s : Store) :
    WRITELOCK_ID = "id_reader" ∧
    READLOCK_ID = "id_writer" ∧
    (∀ ev ∈ (lockingReader R t3 tr t1 te s).trace, ∀ k, evKey ev = some k →
      k = mutex1Name R ∨ k = mutex2Name R ∨ k = mutex3Name R ∨
      k = rName R ∨ k = wName R ∨ k = readcountName R ∨
      k = writecountName R) ∧
    (∀ ev ∈ (lockingWriter R t2 tw te s).trace, ∀ k, evKey ev = some k →
      k = mutex1Name R ∨ k = mutex2Name R ∨ k = mutex3Name R ∨
      k = rName R ∨ k = wName R ∨ k = readcountName R ∨
      k = writecountName R) ∧
    (∀ ev ∈ (lockingReader R t3 tr t1 te s).trace,
      evKey ev = some (wName R) →
      evOwner ev = none ∨ evOwner ev = some WRITELOCK_ID) ∧
    (∀ ev ∈ (lockingWriter R t2 tw te s).trace,
      evKey ev = some (rName R) →
      evOwner ev = none ∨ evOwner ev = some READLOCK_ID) ∧
    (mutex1Name R = "mutex1__" ++ R ∧ mutex2Name R = "mutex2__" ++ R ∧
      mutex3Name R = "mutex3__" ++ R ∧ rName R = "r__" ++ R ∧
      wName R = "w__" ++ R ∧ readcountName R = "readcount__" ++ R ∧
      writecountName R = "writecount__" ++ R) ∧
    mutex3Name "f" ∈ keysOf (lockingReader "f" "a" "b" "c" "d"
      emptyStore).trace ∧
    rName "f" ∈ keysOf (lockingReader "f" "a" "b" "c" "d"
      emptyStore).trace ∧
    mutex1Name "f" ∈ keysOf (lockingReader "f" "a" "b" "c" "d"
      emptyStore).trace ∧
    readcountName "f" ∈ keysOf (lockingReader "f" "a" "b" "c" "d"
      emptyStore).trace ∧
    wName "f" ∈ keysOf (lockingReader "f" "a" "b" "c" "d"
      emptyStore).trace ∧
    mutex2Name "f" ∈ keysOf (lockingWriter "f" "a" "b" "c"
      emptyStore).trace ∧
    writecountName "f" ∈ keysOf (lockingWriter "f" "a" "b" "c"
      emptyStore).trace ∧
    rName "f" ∈ keysOf (lockingWriter "f" "a" "b" "c" emptyStore).trace ∧
    wName "f" ∈ keysOf (lockingWriter "f" "a" "b" "c" emptyStore).trace := by
  refine ⟨rfl, rfl, ?_, ?_, ?_, ?_,
    ⟨rfl, rfl, rfl, rfl, rfl, rfl, rfl⟩,
    by decide, by decide, by decide, by decide, by decide,
    by decide, by decide, by decide, by decide⟩
  · refine trace_all_lockingReader _ R t3 tr t1 te s ?_ ?_ ?_
    · intro s0
      refine trace_all_readerEntry _ R t3 tr t1 s0 ?_ ?_ ?_ ?_ ?_ ?_ ?_ ?_
      all_goals
        intros
        rename_i hk
        first
          | exact Option.noConfusion hk
          | (simp only [evKey, Option.some.injEq] at hk
             subst hk
             tauto)
    · intro s0
      refine trace_all_readerExitWarn _ R te s0 ?_ ?_ ?_ ?_ ?_
      all_goals
        intros
        rename_i hk
        first
          | exact Option.noConfusion hk
          | (simp only [evKey, Option.some.injEq] at hk
             subst hk
             tauto)
    · intro k hk
      exact Option.noConfusion hk
  · refine trace_all_lockingWriter _ R t2 tw te s ?_ ?_ ?_ ?_ ?_
    · intro s0
      refine trace_all_writerEntry _ R t2 s0 ?_ ?_ ?_ ?_
      all_goals
        intros
        rename_i hk
        first
          | exact Option.noConfusion hk
          | (simp only [evKey, Option.some.injEq] at hk
             subst hk
             tauto)
    · intro s0
      refine trace_all_writerExitWarn _ R te s0 ?_ ?_ ?_ ?_ ?_
      all_goals
        intros
        rename_i hk
        first
          | exact Option.noConfusion hk
          | (simp only [evKey, Option.some.injEq] at hk
             subst hk
             tauto)
    · intro b k hk
      simp only [evKey, Option.some.injEq] at hk
      subst hk
      tauto
    · intro b k hk
      simp only [evKey, Option.some.injEq] at hk
      subst hk
      tauto
    · intro k hk
      exact Option.noConfusion hk
  · refine trace_all_lockingReader _ R t3 tr t1 te s ?_ ?_ ?_
    · intro s0
      refine trace_all_readerEntry _ R t3 tr t1 s0 ?_ ?_ ?_ ?_ ?_ ?_ ?_ ?_
      · intro b hk
        simp only [evKey, Option.some.injEq] at hk
        exact absurd hk (m3_ne_w R)
      · intro b hk
        simp only [evKey, Option.some.injEq] at hk
        exact absurd hk (m3_ne_w R)
      · intro b hk
        simp only [evKey, Option.some.injEq] at hk
        exact absurd hk (r_ne_w R)
      · intro b hk
        simp only [evKey, Option.some.injEq] at hk
        exact absurd hk (r_ne_w R)
      · intro b hk
        simp only [evKey, Option.some.injEq] at hk
        exact absurd hk (m1_ne_w R)
      · intro b hk
        simp only [evKey, Option.some.injEq] at hk
        exact absurd hk (m1_ne_w R)
      · intro n hk
        simp only [evKey, Option.some.injEq] at hk
        exact absurd hk (w_ne_rc R).symm
      · intro b hk
        right
        rfl
    · intro s0
      refine trace_all_readerExitWarn _ R te s0 ?_ ?_ ?_ ?_ ?_
      · intro b hk
        simp only [evKey, Option.some.injEq] at hk
        exact absurd hk (m1_ne_w R)
      · intro b hk
        simp only [evKey, Option.some.injEq] at hk
        exact absurd hk (m1_ne_w R)
      · intro n hk
        simp only [evKey, Option.some.injEq] at hk
        exact absurd hk (w_ne_rc R).symm
      · intro b hk
        right
        rfl
      · intro hk
        left
        rfl
    · intro hk
      exact Option.noConfusion hk
  · refine trace_all_lockingWriter _ R t2 tw te s ?_ ?_ ?_ ?_ ?_
    · intro s0
      refine trace_all_writerEntry _ R t2 s0 ?_ ?_ ?_ ?_
      · intro b hk
        simp only [evKey, Option.some.injEq] at hk
        exact absurd hk (m2_ne_r R)
      · intro b hk
        simp only [evKey, Option.some.injEq] at hk
        exact absurd hk (m2_ne_r R)
      · intro n hk
        simp only [evKey, Option.some.injEq] at hk
        exact absurd hk (r_ne_wc R).symm
      · intro b hk
        right
        rfl
    · intro s0
      refine trace_all_writerExitWarn _ R te s0 ?_ ?_ ?_ ?_ ?_
      · intro b hk
        simp only [evKey, Option.some.injEq] at hk
        exact absurd hk (m2_ne_r R)
      · intro b hk
        simp only [evKey, Option.some.injEq] at hk
        exact absurd hk (m2_ne_r R)
      · intro n hk
        simp only [evKey, Option.some.injEq] at hk
        exact absurd hk (r_ne_wc R).symm
      · intro b hk
        right
        rfl
      · intro hk
        left
        rfl
    · intro b hk
      simp only [evKey, Option.some.injEq] at hk
      exact absurd hk (r_ne_w R).symm
    · intro b hk
      simp only [evKey, Option.some.injEq] at hk
      exact absurd hk (r_ne_w R).symm
    · intro hk
      exact Option.noConfusion hk

/-- Witness for `seven_key_schema_cohort_tokens`: the first reader's
cohort acquire of `w__f` — an event of the run from the empty store —
carries the owner token `"id_reader"`. -/
theorem seven_key_schema_cohort_tokens_witness :
    WRITELOCK_ID = "id_reader" ∧
    (evOwner (Ev.acq (wName "f") WRITELOCK_ID true) = none ∨
      evOwner (Ev.acq (wName "f") WRITELOCK_ID true) =
        some WRITELOCK_ID) := by
  have h := seven_key_schema_cohort_tokens "f" "a" "b" "c" "x" "y" "d"
    emptyStore
  exact ⟨h.1, h.2.2.2.2.1 (Ev.acq (wName "f") WRITELOCK_ID true)
    (by decide) rfl⟩

end H5PySWMR
